import Mathlib

/-!
Revenue module: ledger, partner registry, aggregation engine and client store.

A shallow embedding of `backend/routes/revenue.js` and of the store
`frontend/src/stores/revenue.js`.

* The two tables are lists of records (`Store.ledger`, `Store.partners`).
* Amounts of the ledger and of the answers are exact decimals, held as an
  integer number of minor currency units (hundredths).
* SQL aggregates follow MySQL: `SUM` over no rows is `NULL` (`none`),
  `COUNT` over no rows is `0`.
* Storage calls can throw; a request carries a record `Faults` that says
  which of its storage calls throw.
* `ORDER BY` fixes the order of rows only up to rows that compare equal; the
  handlers that sort in the database take the orderings as a record `Engine`.
* The client store is a state record; the answers of the server to its
  requests are a record `Network`. A mutation of the store takes the outcome of
  its own request as an argument, `Network` answers the requests that follow.
* The list handler prints local midnights in UTC; whether the zone of the
  server is ahead of UTC is the flag `zoneAhead`.
* A number of the runtime is a binary64 number, held as its exact rational
  value; `toDouble` rounds an exact result to the nearest one. The sums of SQL
  are exact decimals. Growth figures, percentages and the totals that the
  consistency check and `topPartners` compute are numbers of the runtime.
-/

namespace RevenueApi

/-! ## Data model -/

/-- A calendar date as stored in a `DATE` column. -/
structure Date where
  year : Nat
  month : Nat
  day : Nat
  deriving DecidableEq, Repr

/-- Order of dates as the storage engine compares them (year, then month, then day). -/
def Date.le (a b : Date) : Bool :=
  a.year < b.year ||
    (a.year == b.year && (a.month < b.month || (a.month == b.month && a.day ≤ b.day)))

/-- A number that grows with the date, for `ORDER BY date`. -/
def Date.ordinal (d : Date) : Int :=
  (((d.year * 12 + d.month) * 32 + d.day : Nat) : Int)

/-- A row of the partner registry with its denormalised running totals. -/
structure Partner where
  id : Nat
  name : String
  total_transactions : Int
  total_amount : Int
  deriving DecidableEq, Repr

/-- A row of the revenue ledger. A `partner_id` of `0` is the falsy value that
`if (partnerId)` rejects. -/
structure Revenue where
  id : Nat
  date : Date
  partner_id : Nat
  category : String
  service_type : String
  amount : Int
  payment_status : String
  payment_method : Option String
  invoice_number : Option String
  description : Option String
  period_start : Option Date
  period_end : Option Date
  deriving DecidableEq, Repr

/-- The persistent state: revenue ledger and partner registry. -/
structure Store where
  ledger : List Revenue
  partners : List Partner
  deriving DecidableEq, Repr

/-- Lookup by primary key, `Partner.findByPk`. -/
def findPartner (partners : List Partner) (pid : Nat) : Option Partner :=
  partners.find? (fun p => p.id == pid)

/-- Lookup by primary key, `Revenue.findByPk`. -/
def findRevenue (ledger : List Revenue) (id : Nat) : Option Revenue :=
  ledger.find? (fun r => r.id == id)

/-! ## Aggregation engine -/

/-- The filter `date BETWEEN 'Y-01-01' AND 'Y-12-31'`, the year written with
four digits. -/
def inYear (y : Nat) (r : Revenue) : Bool :=
  Date.le ⟨y, 1, 1⟩ r.date && Date.le r.date ⟨y, 12, 31⟩

/-- The default `year || new Date().getFullYear()`. -/
def currentYear (year : Option Nat) (thisYear : Nat) : Nat :=
  year.getD thisYear

/-- SQL `SUM`: `NULL` when there is no row. -/
def sqlSum (xs : List Int) : Option Int :=
  if xs.isEmpty then none else some xs.sum

/-- The idiom `parseFloat(x) || 0` applied to an aggregate: `NULL` becomes `0`. -/
def parseFloatOrZero (x : Option Int) : Int :=
  x.getD 0

/-- One row of the grouped query of `GET /revenue/monthly`. -/
structure MonthlyGroup where
  month : Nat
  year : Nat
  category : String
  total : Int
  count : Nat
  deriving DecidableEq, Repr

/-- The grouping key `(MONTH(date), YEAR(date), category)`. -/
def monthlyKey (r : Revenue) : Nat × Nat × String :=
  (r.date.month, r.date.year, r.category)

/-- The query of `GET /revenue/monthly`: rows of the year, grouped by
`month, year, category` with `SUM(amount)` and `COUNT(id)`, ordered by month. -/
def monthlyQuery (ledger : List Revenue) (y : Nat) : List MonthlyGroup :=
  let rows := ledger.filter (inYear y)
  let groups := (rows.map monthlyKey).dedup.map fun k =>
    let members := rows.filter (fun r => monthlyKey r == k)
    { month := k.1, year := k.2.1, category := k.2.2,
      total := (members.map (·.amount)).sum, count := members.length : MonthlyGroup }
  groups.insertionSort (fun a b => a.month ≤ b.month)

/-- One entry of the answer of `GET /revenue/monthly`. -/
structure MonthEntry where
  month : String
  aeronautika : Int
  nonAeronautika : Int
  total : Int
  transactions : Nat
  deriving DecidableEq, Repr

/-- The month labels. -/
def months : List String :=
  ["Jan", "Feb", "Mar", "Apr", "May", "Jun", "Jul", "Aug", "Sep", "Oct", "Nov", "Dec"]

/-- The body of `months.map((monthName, index) => ...)`. -/
def monthEntry (monthlyData : List MonthlyGroup) (index : Nat) (monthName : String) :
    MonthEntry :=
  let monthNumber := index + 1
  let monthData := monthlyData.filter (fun item => item.month == monthNumber)
  let aeronautika := monthData.find? (fun item => item.category == "aeronautika")
  let nonAeronautika := monthData.find? (fun item => item.category == "non-aeronautika")
  let aeroAmount := match aeronautika with
    | some g => g.total
    | none => 0
  let nonAeroAmount := match nonAeronautika with
    | some g => g.total
    | none => 0
  { month := monthName
    aeronautika := aeroAmount
    nonAeronautika := nonAeroAmount
    total := aeroAmount + nonAeroAmount
    transactions :=
      (match aeronautika with
        | some g => g.count
        | none => 0) +
      (match nonAeronautika with
        | some g => g.count
        | none => 0) }

/-- The handler of `GET /revenue/monthly`. -/
def getMonthly (s : Store) (year : Option Nat) (thisYear : Nat) : List MonthEntry :=
  let monthlyData := monthlyQuery s.ledger (currentYear year thisYear)
  months.enum.map fun (index, monthName) => monthEntry monthlyData index monthName

/-- The `summary` object of `GET /revenue/summary`. -/
structure YearSummary where
  totalRevenue : Int
  totalTransactions : Nat
  aeronautikaRevenue : Int
  nonAeronautikaRevenue : Int
  paidAmount : Int
  pendingAmount : Int
  overdueAmount : Int
  deriving DecidableEq, Repr

/-- The aggregate `SUM(CASE WHEN cond THEN amount ELSE 0 END)`. -/
def sumCase (rows : List Revenue) (cond : Revenue → Bool) : Option Int :=
  sqlSum (rows.map fun r => if cond r then r.amount else 0)

/-- The summary part of the handler of `GET /revenue/summary`. The partner is
joined with a left outer join on its primary key, which keeps every ledger
row exactly once. -/
def getSummary (s : Store) (year : Option Nat) (thisYear : Nat) : YearSummary :=
  let rows := s.ledger.filter (inYear (currentYear year thisYear))
  { totalRevenue := parseFloatOrZero (sqlSum (rows.map (·.amount)))
    totalTransactions := rows.length
    aeronautikaRevenue := parseFloatOrZero (sumCase rows (·.category == "aeronautika"))
    nonAeronautikaRevenue :=
      parseFloatOrZero (sumCase rows (·.category == "non-aeronautika"))
    paidAmount := parseFloatOrZero (sumCase rows (·.payment_status == "paid"))
    pendingAmount := parseFloatOrZero (sumCase rows (·.payment_status == "pending"))
    overdueAmount := parseFloatOrZero (sumCase rows (·.payment_status == "overdue")) }

/-! ## Requests, responses, faults and transactions -/

/-- The answer of a mutating handler: status code, `success`, `message` and,
for a create, the stored record. -/
structure Response where
  status : Nat
  success : Bool
  message : String
  data : Option Revenue
  deriving DecidableEq, Repr

/-- The generic answer of every `catch` block. -/
def serverError : Response :=
  ⟨500, false, "Server error", none⟩

/-- Which storage calls of a request throw. Partner calls are told apart by
the primary key they address. Opening and committing a transaction are taken
to succeed. -/
structure Faults where
  findRevenue : Bool
  destroyRevenue : Bool
  createRevenue : Bool
  findPartner : Nat → Bool
  updatePartner : Nat → Bool

/-- The run in which no storage call throws. -/
def noFaults : Faults :=
  ⟨false, false, false, fun _ => false, fun _ => false⟩

/-- A storage transaction: the state outside it and the state its own
statements see. -/
structure Tx where
  committed : Store
  pending : Store
  deriving DecidableEq, Repr

/-- The call `sequelize.transaction()`. -/
def Tx.start (s : Store) : Tx :=
  ⟨s, s⟩

/-- The call `transaction.commit()`: the pending state becomes the store. -/
def Tx.commit (t : Tx) : Store :=
  t.pending

/-- The call `transaction.rollback()`: the pending state is dropped. -/
def Tx.rollback (t : Tx) : Store :=
  t.committed

/-- The statement `DELETE FROM revenues WHERE id = ?` inside a transaction. -/
def Tx.destroyRevenue (t : Tx) (id : Nat) : Tx :=
  { t with pending := { t.pending with ledger := t.pending.ledger.filter (fun r => r.id != id) } }

/-- The statement `DELETE FROM revenues WHERE id IN (?)` inside a transaction. -/
def Tx.destroyRevenues (t : Tx) (ids : List Nat) : Tx :=
  { t with
    pending := { t.pending with ledger := t.pending.ledger.filter (fun r => !ids.contains r.id) } }

/-- The statement behind `partner.update` of the two totals:
`UPDATE partners SET ... WHERE id = partner.id`. -/
def updatePartnerTotals (partners : List Partner) (partner : Partner)
    (total_transactions total_amount : Int) : List Partner :=
  partners.map fun q =>
    if q.id == partner.id then
      { q with total_transactions := total_transactions, total_amount := total_amount }
    else q

/-- The update `partner.update` inside a transaction. -/
def Tx.updatePartner (t : Tx) (partner : Partner) (total_transactions total_amount : Int) : Tx :=
  { t with
    pending := { t.pending with
      partners := updatePartnerTotals t.pending.partners partner total_transactions total_amount } }

/-! ## Single delete -/

/-- The handler of `DELETE /revenue/:id`. -/
def deleteRevenue (s : Store) (id : Nat) (f : Faults) : Response × Store :=
  let transaction := Tx.start s
  if f.findRevenue then (serverError, transaction.rollback) else
  match findRevenue s.ledger id with
  | none => (⟨404, false, "Data pendapatan tidak ditemukan", none⟩, transaction.rollback)
  | some revenue =>
    let partnerId := revenue.partner_id
    let amount := revenue.amount
    if f.destroyRevenue then (serverError, transaction.rollback) else
    let transaction := transaction.destroyRevenue revenue.id
    let ok : Response := ⟨200, true, "Data pendapatan berhasil dihapus", none⟩
    if partnerId != 0 then
      if f.findPartner partnerId then (serverError, transaction.rollback) else
      match findPartner transaction.pending.partners partnerId with
      | some partner =>
        if f.updatePartner partnerId then (serverError, transaction.rollback) else
        let transaction := transaction.updatePartner partner
          (max 0 (partner.total_transactions - 1))
          (max 0 (partner.total_amount - amount))
        (ok, transaction.commit)
      | none => (ok, transaction.commit)
    else (ok, transaction.commit)

/-! ## Bulk delete -/

/-- The field `ids` of the request body of `POST /revenue/bulk-delete`. -/
inductive IdsField where
  | missing
  | notArray
  | array (ids : List Nat)
  deriving DecidableEq, Repr

/-- One value of the object `partnerUpdates`. -/
structure PartnerUpdate where
  count : Int
  amount : Int
  deriving DecidableEq, Repr

/-- The step `partnerUpdates[partnerId].count += 1; .amount += amount`, creating
the entry with `count: 0, amount: 0` first when the key is new. The object is held
as an association list in ascending key order, the order in which
`Object.entries` lists integer keys. -/
def bump (partnerId : Nat) (amount : Int) :
    List (Nat × PartnerUpdate) → List (Nat × PartnerUpdate)
  | [] => [(partnerId, ⟨0 + 1, 0 + amount⟩)]
  | (k, u) :: rest =>
    if partnerId < k then (partnerId, ⟨0 + 1, 0 + amount⟩) :: (k, u) :: rest
    else if partnerId == k then (k, ⟨u.count + 1, u.amount + amount⟩) :: rest
    else (k, u) :: bump partnerId amount rest

/-- The loop `revenues.forEach(...)` that groups the found rows by partner. -/
def partnerUpdates (revenues : List Revenue) : List (Nat × PartnerUpdate) :=
  revenues.foldl
    (fun acc revenue =>
      if revenue.partner_id != 0 then bump revenue.partner_id revenue.amount acc else acc)
    []

/-- The loop over `Object.entries(partnerUpdates)`; `none` when a storage call
throws. -/
def applyPartnerUpdates (f : Faults) : List (Nat × PartnerUpdate) → Tx → Option Tx
  | [], t => some t
  | (partnerId, updates) :: rest, t =>
    if f.findPartner partnerId then none else
    match findPartner t.pending.partners partnerId with
    | some partner =>
      if f.updatePartner partnerId then none else
      applyPartnerUpdates f rest
        (t.updatePartner partner
          (max 0 (partner.total_transactions - updates.count))
          (max 0 (partner.total_amount - updates.amount)))
    | none => applyPartnerUpdates f rest t

/-- The handler of `POST /revenue/bulk-delete`. -/
def bulkDelete (s : Store) (body : IdsField) (f : Faults) : Response × Store :=
  let transaction := Tx.start s
  match body with
  | .missing => (⟨400, false, "IDs array is required", none⟩, transaction.rollback)
  | .notArray => (⟨400, false, "IDs array is required", none⟩, transaction.rollback)
  | .array ids =>
    if ids.length == 0 then
      (⟨400, false, "IDs array is required", none⟩, transaction.rollback)
    else
    if f.findRevenue then (serverError, transaction.rollback) else
    let revenues := transaction.pending.ledger.filter (fun r => ids.contains r.id)
    if revenues.length == 0 then
      (⟨404, false, "No revenues found", none⟩, transaction.rollback)
    else
    let updates := partnerUpdates revenues
    if f.destroyRevenue then (serverError, transaction.rollback) else
    let transaction := transaction.destroyRevenues ids
    match applyPartnerUpdates f updates transaction with
    | none => (serverError, transaction.rollback)
    | some transaction =>
      (⟨200, true, toString revenues.length ++ " data pendapatan berhasil dihapus", none⟩,
        transaction.commit)

/-! ## Create -/

/-- The request body of `POST /revenue`. A field that takes `none` here where
the validator demands a value is one that fails its check (`isISO8601`, `isInt`,
`isNumeric`). -/
structure CreateBody where
  date : Option Date
  partner_id : Option Nat
  category : String
  service_type : String
  amount : Option Int
  payment_status : String
  payment_method : Option String
  invoice_number : Option String
  description : Option String
  period_start : Option Date
  period_end : Option Date
  deriving DecidableEq, Repr

/-- The messages of the validation chain of `POST /revenue`. -/
def validateCreate (b : CreateBody) : List String :=
  (if b.date.isSome then [] else ["Format tanggal tidak valid"]) ++
  (if b.partner_id.isSome then [] else ["Partner ID wajib diisi dan harus berupa angka"]) ++
  (if ["aeronautika", "non-aeronautika"].contains b.category then []
    else ["Kategori tidak valid"]) ++
  (if b.service_type != "" then [] else ["Jenis layanan wajib diisi"]) ++
  (if b.amount.isSome then [] else ["Jumlah harus berupa angka"]) ++
  (if ["paid", "pending", "overdue"].contains b.payment_status then []
    else ["Status pembayaran tidak valid"])

/-- Why `Revenue.create` threw. -/
inductive StorageError where
  | uniqueConstraint
  | other
  deriving DecidableEq, Repr

/-- The next value of the auto-increment key of the ledger. -/
def freshId (ledger : List Revenue) : Nat :=
  (ledger.map (·.id)).foldr max 0 + 1

/-- Modelled from the spec: the table definition of the ledger (`models/Revenue.js`)
is not part of the sources; `invoice_number` is "optional, unique when present",
so an insert whose invoice number is already used by a row throws the
unique-constraint error. The new row is stored after the existing ones under a
fresh key. -/
def insertRevenue (ledger : List Revenue) (row : Revenue) (f : Faults) :
    Except StorageError (Revenue × List Revenue) :=
  if f.createRevenue then .error .other else
  if row.invoice_number.isSome &&
      ledger.any (fun r => r.invoice_number == row.invoice_number) then
    .error .uniqueConstraint
  else
    let stored := { row with id := freshId ledger }
    .ok (stored, ledger ++ [stored])

/-- The handler of `POST /revenue`. -/
def createRevenue (s : Store) (b : CreateBody) (f : Faults) : Response × Store :=
  if !(validateCreate b).isEmpty then (⟨400, false, "Validation error", none⟩, s) else
  match b.date, b.partner_id, b.amount with
  | some date, some partner_id, some amount =>
    if f.findPartner partner_id then (serverError, s) else
    match findPartner s.partners partner_id with
    | none => (⟨400, false, "Partner tidak ditemukan", none⟩, s)
    | some _ =>
      match insertRevenue s.ledger
          { id := 0, date := date, partner_id := partner_id, category := b.category,
            service_type := b.service_type, amount := amount,
            payment_status := b.payment_status, payment_method := b.payment_method,
            invoice_number := b.invoice_number, description := b.description,
            period_start := b.period_start, period_end := b.period_end } f with
      | .error .uniqueConstraint =>
        (⟨400, false, "Nomor invoice sudah digunakan", none⟩, s)
      | .error .other => (serverError, s)
      | .ok (revenue, ledger) =>
        let s' : Store := { s with ledger := ledger }
        if f.findRevenue then (serverError, s') else
        (⟨201, true, "", findRevenue s'.ledger revenue.id⟩, s')
  | _, _, _ => (⟨400, false, "Validation error", none⟩, s)

/-! ## Numbers of the runtime -/

/-- The integer nearest to `x`, a tie going to the even one. -/
def roundHalfEven (x : ℚ) : ℤ :=
  if x - ⌊x⌋ < 1 / 2 then ⌊x⌋
  else if 1 / 2 < x - ⌊x⌋ then ⌊x⌋ + 1
  else if ⌊x⌋ % 2 = 0 then ⌊x⌋ else ⌊x⌋ + 1

/-- The exponent of the binade of `x`: the greatest `e` with `2 ^ e ≤ |x|`, but
`-1022` for the subnormal numbers and `0` for 0. -/
def binade (x : ℚ) : ℤ :=
  max (Int.log 2 |x|) (-1022)

/-- The binary64 number nearest to `x`, a tie going to the even mantissa, given
by its exact value: what an arithmetic operator returns for the exact result
`x` and what a decimal text `x` is read as. The mantissa has 53 bits and the
exponent is at least `-1022`; the exponent is not limited above, the amounts
of the ledger and what is computed from them staying far below `2 ^ 1024`. -/
def toDouble (x : ℚ) : ℚ :=
  (roundHalfEven (x / (2 : ℚ) ^ (binade x - 52)) : ℚ) * (2 : ℚ) ^ (binade x - 52)

/-! ## Statistics overview -/

/-- The number an arithmetic operator reads from the decimal text of an
aggregate of amounts: the binary64 number nearest to the amount; `NULL` counts
as `0`. -/
def toNumber (x : Option Int) : ℚ :=
  match x with
  | some v => toDouble ((v : ℚ) / 100)
  | none => 0

/-- JavaScript division: the binary64 number nearest to the quotient; `none`
stands for the results `NaN`, `Infinity` and `-Infinity` of a division by zero. -/
def jsDiv (a b : ℚ) : Option ℚ :=
  if b = 0 then none else some (toDouble (a / b))

/-- The expression `previous > 0 ? ((current - previous) / previous) * 100 : 0`
over two numbers. -/
def growthPercent (current previous : ℚ) : Option ℚ :=
  if previous > 0 then
    (jsDiv (toDouble (current - previous)) previous).map fun ratio => toDouble (ratio * 100)
  else some 0

/-- The text `x.toFixed(2)` of the number with exact value `x`, read as a
decimal: the multiple of `0.01` nearest to `x`, a tie going away from zero. -/
def toFixed2 (x : ℚ) : ℚ :=
  if x < 0 then -((⌊(-x) * 100 + 1 / 2⌋ : ℤ) : ℚ) / 100
  else ((⌊x * 100 + 1 / 2⌋ : ℤ) : ℚ) / 100

/-- The idiom `parseFloat(x.toFixed(2))`: the binary64 number nearest to the
decimal the text shows. -/
def parseFixed2 (x : ℚ) : ℚ :=
  toDouble (toFixed2 x)

/-- The aggregate row `SUM(amount), COUNT(id)` of one year. -/
structure YearStats where
  totalRevenue : Option Int
  totalTransactions : Nat
  deriving DecidableEq, Repr

/-- The aggregate query of `GET /revenue/stats/overview` for one year. -/
def yearStats (ledger : List Revenue) (y : Nat) : YearStats :=
  let rows := ledger.filter (inYear y)
  { totalRevenue := sqlSum (rows.map (·.amount)), totalTransactions := rows.length }

/-- The aggregate query for `previousYear = currentYear - 1`. The year before
year `0` has no well-formed date literal and matches no row. -/
def previousYearStats (ledger : List Revenue) (y : Nat) : YearStats :=
  if y = 0 then { totalRevenue := none, totalTransactions := 0 }
  else yearStats ledger (y - 1)

/-- The totals and growth figures of the `overview` object. -/
structure Overview where
  totalRevenue : Int
  totalTransactions : Nat
  revenueGrowth : Option ℚ
  transactionGrowth : Option ℚ

/-- The growth part of the handler of `GET /revenue/stats/overview`. -/
def statsOverview (s : Store) (year : Option Nat) (thisYear : Nat) : Overview :=
  let currentStats := yearStats s.ledger (currentYear year thisYear)
  let previousStats := previousYearStats s.ledger (currentYear year thisYear)
  let revenueGrowth :=
    growthPercent (toNumber currentStats.totalRevenue) (toNumber previousStats.totalRevenue)
  let transactionGrowth :=
    growthPercent (toDouble (currentStats.totalTransactions : ℚ))
      (toDouble (previousStats.totalTransactions : ℚ))
  { totalRevenue := parseFloatOrZero currentStats.totalRevenue
    totalTransactions := currentStats.totalTransactions
    revenueGrowth := revenueGrowth.map parseFixed2
    transactionGrowth := transactionGrowth.map parseFixed2 }

/-! ## Notions used to state the properties -/

/-- The rows of year `y` that fall in month `m` with category `c`. -/
def cell (ledger : List Revenue) (y m : Nat) (c : String) : List Revenue :=
  (ledger.filter (inYear y)).filter (fun r => r.date.month == m && r.category == c)

/-- The amounts of the rows in month `m` with category `c`. -/
def cellSum (rows : List Revenue) (m : Nat) (c : String) : Int :=
  ((rows.filter (fun r => r.date.month == m && r.category == c)).map (·.amount)).sum

/-- A ledger row with the optional fields left out. -/
def sampleRow (id year month day partner_id : Nat) (category : String) (amount : Int) :
    Revenue :=
  { id := id, date := ⟨year, month, day⟩, partner_id := partner_id, category := category,
    service_type := "landing_fee", amount := amount, payment_status := "paid",
    payment_method := none, invoice_number := none, description := none,
    period_start := none, period_end := none }

/-- A small consistent store: two partners, four rows. -/
def sampleStore : Store :=
  { ledger :=
      [sampleRow 1 2024 3 15 1 "aeronautika" 5000, sampleRow 2 2024 3 20 2 "non-aeronautika" 700,
        sampleRow 3 2024 12 31 1 "aeronautika" 11, sampleRow 4 2023 1 1 1 "aeronautika" 13]
    partners := [⟨1, "Angkasa", 3, 5024⟩, ⟨2, "Bandara", 1, 700⟩] }

/-- A ledger whose rows of 2023 total 160.00 and whose rows of 2024 total 183.00. -/
def growthStore : Store :=
  { ledger :=
      [sampleRow 1 2023 5 2 1 "aeronautika" 16000, sampleRow 2 2024 5 2 1 "aeronautika" 10000,
        sampleRow 3 2024 6 2 1 "aeronautika" 8300]
    partners := [⟨1, "Angkasa", 3, 34300⟩] }

/-- Keys in strictly ascending order. -/
def Ascending (acc : List (Nat × PartnerUpdate)) : Prop :=
  acc.Pairwise (fun a b => a.1 < b.1)

/-- The rows of `revenues` that the grouping books under key `q`. -/
def bookedUnder (revenues : List Revenue) (q : Nat) : List Revenue :=
  revenues.filter (fun r => r.partner_id != 0 && r.partner_id == q)

/-- The totals of a partner after the decrement `u`, floored at zero. -/
def decremented (p : Partner) (u : Option PartnerUpdate) : Partner :=
  match u with
  | none => p
  | some u =>
    { p with
      total_transactions := max 0 (p.total_transactions - u.count)
      total_amount := max 0 (p.total_amount - u.amount) }

/-- The ledger rows whose id is in `ids` and whose partner is `pid`. -/
def deletedOf (ledger : List Revenue) (ids : List Nat) (pid : Nat) : List Revenue :=
  ledger.filter (fun r => ids.contains r.id && r.partner_id == pid)

/-- The invariant of the partner registry: the running totals of every partner
are the count and the amount sum of the ledger rows that reference it. -/
def PartnerConsistent (s : Store) : Prop :=
  ∀ p ∈ s.partners,
    p.total_transactions = ((s.ledger.filter (fun r => r.partner_id == p.id)).length : Int) ∧
      p.total_amount = ((s.ledger.filter (fun r => r.partner_id == p.id)).map (·.amount)).sum

instance (s : Store) : Decidable (PartnerConsistent s) := by
  unfold PartnerConsistent
  infer_instance

/-- The request of the create scenario: a landing fee of 5000 for partner 1. -/
def sampleBody : CreateBody :=
  { date := some ⟨2024, 3, 15⟩, partner_id := some 1, category := "aeronautika",
    service_type := "landing_fee", amount := some 5000, payment_status := "paid",
    payment_method := none, invoice_number := none, description := none,
    period_start := none, period_end := none }

/-- A run in which the update of partner 1 throws. -/
def partnerOneUpdateFails : Faults :=
  { noFaults with updatePartner := fun pid => pid == 1 }

/-- The create scenario with the invoice number `INV-001`. -/
def invoiceBody : CreateBody :=
  { sampleBody with invoice_number := some "INV-001" }

/-- The create scenario addressed to a partner that does not exist. -/
def orphanBody : CreateBody :=
  { sampleBody with partner_id := some 9 }

/-- A run in which the insert throws an error that is not a constraint violation. -/
def insertFails : Faults :=
  { noFaults with createRevenue := true }

/-! ## The orderings of the storage engine -/

/-- The orderings the storage engine performs for `ORDER BY`. SQL fixes the
order only up to rows that compare equal, so the engine is a parameter of the
handlers that sort in the database. `orderByDesc key` is `ORDER BY key DESC`;
`orderRows sort order` is the ordering of `GET /revenue/monthly-detail` by the
column and direction of the request. -/
structure Engine where
  orderByDesc : {α : Type} → (α → Int) → List α → List α
  orderRows : String → String → List Revenue → List Revenue

/-- What SQL promises of the orderings: the rows are kept, and `ORDER BY key DESC`
never lists a smaller key before a larger one. -/
def Engine.Lawful (e : Engine) : Prop :=
  (∀ (α : Type) (key : α → Int) (l : List α),
    (e.orderByDesc key l).Perm l ∧ (e.orderByDesc key l).Pairwise (fun a b => key b ≤ key a)) ∧
  (∀ sort order rows, (e.orderRows sort order rows).Perm rows)

/-- The sort key of a ledger column that holds a date or a number; `none` for
the columns of texts, whose order is the one of the collation. -/
def sortKey (column : String) : Option (Revenue → Int) :=
  if column == "date" then some fun r => r.date.ordinal
  else if column == "amount" then some fun r => r.amount
  else if column == "id" then some fun r => (r.id : Int)
  else if column == "partner_id" then some fun r => (r.partner_id : Int)
  else none

/-- The ordering `ORDER BY column direction` of a stable sort over `rows`:
ascending for `ASC`, descending otherwise; rows ordered by a column of texts
are left in the given order. -/
def sortRows (column direction : String) (rows : List Revenue) : List Revenue :=
  match sortKey column with
  | some key =>
    if direction == "ASC" then rows.insertionSort (fun a b => key a ≤ key b)
    else rows.insertionSort (fun a b => key b ≤ key a)
  | none => rows

/-- An engine that sorts stably: rows with equal keys stay in their stored order. -/
def stableEngine : Engine :=
  { orderByDesc := fun key l => l.insertionSort (fun a b => key b ≤ key a)
    orderRows := fun sort order rows => sortRows sort order rows }

/-- An engine that lists rows with equal keys in the reverse of their stored order. -/
def reversingEngine : Engine :=
  { orderByDesc := fun key l => l.reverse.insertionSort (fun a b => key b ≤ key a)
    orderRows := fun sort order rows => sortRows sort order rows.reverse }

/-! ## Yearly summary: top services and top partners -/

/-- One entry of `topServices` or `topPartners`. -/
structure TopEntry where
  name : String
  amount : Int
  count : Nat
  deriving DecidableEq, Repr

/-- One row of the query grouped by `service_type`. -/
structure ServiceGroup where
  service_type : String
  total : Int
  count : Nat
  deriving DecidableEq, Repr

/-- The rows grouped by `service_type` with `SUM(amount)` and `COUNT(Revenue.id)`. -/
def serviceGroups (rows : List Revenue) : List ServiceGroup :=
  (rows.map (·.service_type)).dedup.map fun k =>
    let members := rows.filter (fun r => r.service_type == k)
    { service_type := k, total := (members.map (·.amount)).sum, count := members.length }

/-- The top-services query: rows of the year grouped by service type,
`ORDER BY SUM(amount) DESC LIMIT 10`. -/
def topServicesQuery (e : Engine) (ledger : List Revenue) (y : Nat) : List ServiceGroup :=
  (e.orderByDesc (fun g => g.total) (serviceGroups (ledger.filter (inYear y)))).take 10

/-- The partner a ledger row is joined with (`LEFT OUTER JOIN` on the primary
key): its `id` and `name`, or nothing. -/
def joinedPartner (partners : List Partner) (r : Revenue) : Option (Nat × String) :=
  (findPartner partners r.partner_id).map fun p => (p.id, p.name)

/-- One row of a query grouped by `partner.id, partner.name`. -/
structure PartnerGroup where
  partner : Option (Nat × String)
  total : Int
  count : Nat
  deriving DecidableEq, Repr

/-- The rows grouped by the joined partner with `SUM(amount)` and `COUNT(Revenue.id)`. -/
def partnerGroups (partner : Revenue → Option (Nat × String)) (rows : List Revenue) :
    List PartnerGroup :=
  (rows.map partner).dedup.map fun k =>
    let members := rows.filter (fun r => partner r == k)
    { partner := k, total := (members.map (·.amount)).sum, count := members.length }

/-- The top-partners query: rows of the year grouped by partner,
`ORDER BY SUM(amount) DESC LIMIT 10`. -/
def topPartnersQuery (e : Engine) (s : Store) (y : Nat) : List PartnerGroup :=
  (e.orderByDesc (fun g => g.total)
    (partnerGroups (joinedPartner s.partners) (s.ledger.filter (inYear y)))).take 10

/-- The mapping `topPartners.map(partner => (name: partner.partner.name, ...))`;
`none` when a group has no partner, where reading `.name` throws. -/
def topPartnerEntries : List PartnerGroup → Option (List TopEntry)
  | [] => some []
  | g :: rest =>
    match g.partner with
    | none => none
    | some p => (topPartnerEntries rest).map fun es => ⟨p.2, g.total, g.count⟩ :: es

/-- The `data` object of `GET /revenue/summary`. -/
structure SummaryData where
  summary : YearSummary
  topServices : List TopEntry
  topPartners : List TopEntry
  deriving DecidableEq, Repr

/-- The handler of `GET /revenue/summary`; `none` is the answer 500 of the
`catch` block. -/
def getSummaryResponse (e : Engine) (s : Store) (year : Option Nat) (thisYear : Nat) :
    Option SummaryData :=
  let topServices := topServicesQuery e s.ledger (currentYear year thisYear)
  let topPartners := topPartnersQuery e s (currentYear year thisYear)
  match topPartnerEntries topPartners with
  | none => none
  | some partnerEntries =>
    some
      { summary := getSummary s year thisYear
        topServices := topServices.map fun g => ⟨g.service_type, g.total, g.count⟩
        topPartners := partnerEntries }

/-- Two ledger rows of 2024 with equal amounts and different service types. -/
def tieStore : Store :=
  { ledger :=
      [sampleRow 1 2024 3 15 1 "aeronautika" 100,
        { sampleRow 2 2024 3 20 2 "non-aeronautika" 100 with service_type := "parking" }]
    partners := [⟨1, "Angkasa", 1, 100⟩, ⟨2, "Bandara", 1, 100⟩] }

/-- Entries with equal amounts are listed in the order in which their service
types first occur among the rows. -/
def TiesInInputOrder (rows : List Revenue) (entries : List TopEntry) : Prop :=
  entries.Pairwise fun a b =>
    a.amount = b.amount →
      (rows.map (·.service_type)).indexOf a.name < (rows.map (·.service_type)).indexOf b.name

instance (rows : List Revenue) (entries : List TopEntry) :
    Decidable (TiesInInputOrder rows entries) := by
  unfold TiesInInputOrder
  infer_instance

/-! ## Monthly detail -/

/-- The query string of `GET /revenue/monthly-detail`. `year` and `month` are
the values `parseInt` reads; a field that is absent is `none`. -/
structure DetailQuery where
  year : Option Nat
  month : Option Nat
  partner : Option String
  service_type : Option String
  category : Option String
  sort : Option String
  order : Option String
  deriving DecidableEq, Repr

/-- The value of an optional text parameter when it is truthy: present and not
the empty string. -/
def truthy (x : Option String) : Option String :=
  x.filter (fun v => v != "")

/-- Whether two characters are equal to a comparison that ignores the case of
the letters `a` to `z`, as the default collations of MySQL do. -/
def sameLetter (a b : Char) : Bool :=
  a.toLower == b.toLower

/-- The operator `text LIKE pattern` of MySQL: `%` stands for any run of
characters, `_` for any one character, a backslash takes the next character
literally. The first argument bounds the number of steps. -/
def likeAux : Nat → List Char → List Char → Bool
  | 0, _, _ => false
  | _ + 1, [], text => text.isEmpty
  | fuel + 1, p :: ps, text =>
    if p == '%' then
      likeAux fuel ps text ||
        (match text with
          | [] => false
          | _ :: rest => likeAux fuel (p :: ps) rest)
    else if p == '_' then
      match text with
      | [] => false
      | _ :: rest => likeAux fuel ps rest
    else if p == Char.ofNat 92 then
      match ps, text with
      | c :: ps', t :: rest => sameLetter c t && likeAux fuel ps' rest
      | [], t :: rest => sameLetter p t && rest.isEmpty
      | _, [] => false
    else
      match text with
      | [] => false
      | t :: rest => sameLetter p t && likeAux fuel ps rest

/-- The pattern match `name LIKE '%sub%'`. -/
def nameLike (name sub : String) : Bool :=
  likeAux (name.length + sub.length + 3) (('%' :: sub.toList) ++ ['%']) name.toList

/-- The `where` clause of the detail queries: calendar year and month of the
date, and the service type and category when supplied. -/
def detailWhere (q : DetailQuery) (yearInt monthInt : Nat) (r : Revenue) : Bool :=
  r.date.year == yearInt && r.date.month == monthInt &&
    (match truthy q.service_type with
      | some v => r.service_type == v
      | none => true) &&
    (match truthy q.category with
      | some v => r.category == v
      | none => true)

/-- The partner a row is joined with in the detail queries: the include has
`required: false`, so the condition on the name is part of the `ON` clause of a
left outer join and a row whose partner fails it stays, without partner. -/
def detailPartner (partners : List Partner) (q : DetailQuery) (r : Revenue) :
    Option (Nat × String) :=
  ((findPartner partners r.partner_id).filter fun p =>
    match truthy q.partner with
    | some sub => nameLike p.name sub
    | none => true).map fun p => (p.id, p.name)

/-- The idiom `x?.name || fallback`: the name of the partner unless it is
missing or empty. -/
def nameOr (partner : Option (Nat × String)) (fallback : String) : String :=
  match partner with
  | some p => if p.2 != "" then p.2 else fallback
  | none => fallback

/-- One element of `transactions` in the answer. -/
structure Transaction where
  id : Nat
  date : Date
  partner : String
  partner_id : Nat
  category : String
  service_type : String
  amount : Int
  payment_status : String
  payment_method : Option String
  description : Option String
  invoice_number : Option String
  deriving DecidableEq, Repr

/-- The mapping `formattedTransactions`. -/
def formatTransaction (partners : List Partner) (q : DetailQuery) (r : Revenue) : Transaction :=
  { id := r.id, date := r.date
    partner := nameOr (detailPartner partners q r) "Unknown Partner"
    partner_id := r.partner_id, category := r.category, service_type := r.service_type
    amount := r.amount, payment_status := r.payment_status
    payment_method := r.payment_method, description := r.description
    invoice_number := r.invoice_number }

/-- The `summary` object of the detail answer. -/
structure DetailSummary where
  totalAmount : Int
  totalTransactions : Nat
  aeronautikaAmount : Int
  nonAeronautikaAmount : Int
  aeronautikaCount : Nat
  nonAeronautikaCount : Nat
  deriving DecidableEq, Repr

/-- The aggregate `COUNT(CASE WHEN cond THEN 1 END)`. -/
def countCase (rows : List Revenue) (cond : Revenue → Bool) : Nat :=
  (rows.filter cond).length

/-- One element of `breakdown.byPartner`. -/
structure PartnerBreakdown where
  partner : String
  amount : Int
  count : Nat
  deriving DecidableEq, Repr

/-- One element of `breakdown.byService`. -/
structure ServiceBreakdown where
  serviceType : String
  category : String
  amount : Int
  count : Nat
  deriving DecidableEq, Repr

/-- The rows grouped by `service_type, category` with `SUM(amount)` and
`COUNT(Revenue.id)`. -/
def serviceCategoryGroups (rows : List Revenue) : List ServiceBreakdown :=
  (rows.map fun r => (r.service_type, r.category)).dedup.map fun k =>
    let members := rows.filter (fun r => (r.service_type, r.category) == k)
    { serviceType := k.1, category := k.2, amount := (members.map (·.amount)).sum
      count := members.length }

/-- The successful answer of the detail handler (without the month name). -/
structure DetailData where
  year : Nat
  month : Nat
  summary : DetailSummary
  transactions : List Transaction
  byPartner : List PartnerBreakdown
  byService : List ServiceBreakdown
  deriving DecidableEq, Repr

/-- The answers of the detail handler. -/
inductive DetailResponse where
  | badRequest
  | ok (data : DetailData)
  deriving DecidableEq, Repr

/-- The method `toUpperCase`, letter by letter; it changes the letters `a` to `z`. -/
def toUpperCase (s : String) : String :=
  String.mk (s.toList.map Char.toUpper)

/-- The handler of `GET /revenue/monthly-detail`. -/
def getMonthlyDetail (e : Engine) (s : Store) (q : DetailQuery) : DetailResponse :=
  match q.year, q.month with
  | some yearInt, some monthInt =>
    let rows := s.ledger.filter (detailWhere q yearInt monthInt)
    let transactions := e.orderRows (q.sort.getD "date") (toUpperCase (q.order.getD "DESC")) rows
    let partnerBreakdown :=
      e.orderByDesc (fun g => g.total) (partnerGroups (detailPartner s.partners q) rows)
    let serviceBreakdown := e.orderByDesc (fun g => g.amount) (serviceCategoryGroups rows)
    .ok
      { year := yearInt
        month := monthInt
        summary :=
          { totalAmount := parseFloatOrZero (sqlSum (rows.map (·.amount)))
            totalTransactions := rows.length
            aeronautikaAmount :=
              parseFloatOrZero (sumCase rows (·.category == "aeronautika"))
            nonAeronautikaAmount :=
              parseFloatOrZero (sumCase rows (·.category == "non-aeronautika"))
            aeronautikaCount := countCase rows (·.category == "aeronautika")
            nonAeronautikaCount := countCase rows (·.category == "non-aeronautika") }
        transactions := transactions.map (formatTransaction s.partners q)
        byPartner := partnerBreakdown.map fun g => ⟨nameOr g.partner "Unknown", g.total, g.count⟩
        byService := serviceBreakdown }
  | _, _ => .badRequest

/-- The detail request for March 2024 restricted to partners named like `Bandara`. -/
def bandaraMarch : DetailQuery :=
  { year := some 2024, month := some 3, partner := some "Bandara", service_type := none
    category := none, sort := none, order := none }

/-! ## Filtered list -/

/-- The query string of `GET /revenue`; a numeric field is `none` when it is
absent or empty. -/
structure ListQuery where
  year : Option Nat
  month : Option Nat
  category : Option String
  payment_status : Option String
  page : Option Nat
  limit : Option Nat
  deriving DecidableEq, Repr

/-- Leap years of the Gregorian calendar. -/
def isLeapYear (y : Nat) : Bool :=
  (y % 4 == 0 && y % 100 != 0) || y % 400 == 0

/-- The number of days of month `m` (1 to 12) of year `y`. -/
def daysInMonth (y m : Nat) : Nat :=
  if m == 2 then (if isLeapYear y then 29 else 28)
  else if m == 4 || m == 6 || m == 9 || m == 11 then 30
  else 31

/-- The day before a date. -/
def Date.pred (d : Date) : Date :=
  if d.day > 1 then { d with day := d.day - 1 }
  else if d.month > 1 then ⟨d.year, d.month - 1, daysInMonth d.year (d.month - 1)⟩
  else ⟨d.year - 1, 12, 31⟩

/-- The year a `Date` constructor reads: a value from 0 to 99 means 1900 plus it. -/
def jsFullYear (y : Nat) : Nat :=
  if y ≤ 99 then 1900 + y else y

/-- Year and month (1 to 12) of `new Date(year, month - 1, 1)`, months outside
1 to 12 carried into the neighbouring years. -/
def jsYearMonth (year month : Nat) : Nat × Nat :=
  ((jsFullYear year * 12 + month - 1) / 12, (jsFullYear year * 12 + month - 1) % 12 + 1)

/-- The date part of `toISOString()` for local midnight of `d`: the instant is
printed in UTC, which is still the day before when the zone of the server is
ahead of UTC. -/
def isoDate (zoneAhead : Bool) (d : Date) : Date :=
  if zoneAhead then d.pred else d

/-- The bounds of `whereClause.date`, if any: the whole year when only `year` is
given, `startDate` and `endDate` of the month when `month` and `year` are given. -/
def listDateRange (zoneAhead : Bool) (q : ListQuery) : Option (Date × Date) :=
  match q.year with
  | none => none
  | some year =>
    match q.month with
    | none => some (⟨year, 1, 1⟩, ⟨year, 12, 31⟩)
    | some month =>
      let ym := jsYearMonth year month
      some (isoDate zoneAhead ⟨ym.1, ym.2, 1⟩,
        isoDate zoneAhead ⟨ym.1, ym.2, daysInMonth ym.1 ym.2⟩)

/-- The `where` clause of the list handler. -/
def listWhere (zoneAhead : Bool) (q : ListQuery) (r : Revenue) : Bool :=
  (match listDateRange zoneAhead q with
    | some (a, b) => Date.le a r.date && Date.le r.date b
    | none => true) &&
  (match truthy q.category with
    | some v => r.category == v
    | none => true) &&
  (match truthy q.payment_status with
    | some v => r.payment_status == v
    | none => true)

/-- An element of `data`: the ledger row with `id` and `name` of its partner. -/
structure ListRow where
  revenue : Revenue
  partner : Option (Nat × String)
  deriving DecidableEq, Repr

/-- All rows the list query matches, in its order (`date DESC`, then
`created_at DESC`, a column the engine breaks ties with), joined with the partner. -/
def listMatching (e : Engine) (zoneAhead : Bool) (s : Store) (q : ListQuery) : List ListRow :=
  (e.orderByDesc (fun r => r.date.ordinal) (s.ledger.filter (listWhere zoneAhead q))).map
    fun r => ⟨r, joinedPartner s.partners r⟩

/-- The `pagination` object; `totalPages` is `none` when the division by a
limit of 0 yields no number. -/
structure Pagination where
  total : Nat
  page : Nat
  limit : Nat
  totalPages : Option Nat
  deriving DecidableEq, Repr

/-- The successful answer of the list handler. -/
structure ListData where
  data : List ListRow
  pagination : Pagination
  deriving DecidableEq, Repr

/-- The handler of `GET /revenue`; `none` is the answer 500, given when the
offset is negative. -/
def getRevenueList (e : Engine) (zoneAhead : Bool) (s : Store) (q : ListQuery) :
    Option ListData :=
  let page := q.page.getD 1
  let limit := q.limit.getD 10000
  if page == 0 && limit != 0 then none
  else
    let offset := (page - 1) * limit
    let rows := listMatching e zoneAhead s q
    some
      { data := (rows.drop offset).take limit
        pagination :=
          { total := rows.length
            page := page
            limit := limit
            totalPages := if limit == 0 then none else some ((rows.length + limit - 1) / limit) } }

/-- The list request without filters for page `page` of `limit` rows. -/
def pageQuery (page limit : Nat) : ListQuery :=
  { year := none, month := none, category := none, payment_status := none
    page := some page, limit := some limit }

/-! ## Client store (`stores/revenue.js`) -/

/-- The member `partner` of a working-copy item: absent, an object with `id`
and `name`, or a plain text. -/
inductive PartnerRef where
  | missing
  | object (id : Option Nat) (name : Option String)
  | text (name : String)
  deriving DecidableEq, Repr

/-- An element of `revenueData`, the working copy of the ledger. `amount` is
`none` when the member is missing or falsy. -/
structure Item where
  id : Nat
  date : Date
  partner : PartnerRef
  partner_id : Option Nat
  category : String
  service_type : String
  amount : Option Int
  payment_status : String
  invoice_number : Option String
  description : Option String
  deriving DecidableEq, Repr

/-- The four error slots `errors`. -/
structure ErrorSlots where
  revenue : Option String
  monthly : Option String
  summary : Option String
  detail : Option String
  deriving DecidableEq, Repr

/-- The state of the client store. `summary` is `none` when the stored object
has no member `summary` to read. -/
structure ClientState where
  revenueData : List Item
  monthlyData : List MonthEntry
  summary : Option SummaryData
  monthlyDetailData : Option DetailData
  pagination : Pagination
  loading : Bool
  monthlyLoading : Bool
  summaryLoading : Bool
  monthlyDetailLoading : Bool
  error : Option String
  errors : ErrorSlots
  lastUpdated : Option String
  currentYear : Nat
  deriving DecidableEq, Repr

/-- The amount `item.amount || 0` as an exact decimal, in hundredths. -/
def itemAmount (item : Item) : Int :=
  item.amount.getD 0

/-- The number `parseFloat(item.amount || 0)`: the binary64 number nearest to
the amount. -/
def parseAmount (item : Item) : ℚ :=
  toDouble ((itemAmount item : ℚ) / 100)

/-- The getter `totalRevenue`: the amounts are added one by one, each addition
returning the binary64 number nearest to the exact sum. -/
def totalRevenue (state : ClientState) : ℚ :=
  state.revenueData.foldl (fun sum item => toDouble (sum + parseAmount item)) 0

/-- The getter `aeronautikaRevenue`. -/
def aeronautikaRevenue (state : ClientState) : ℚ :=
  (state.revenueData.filter (fun item => item.category == "aeronautika")).foldl
    (fun sum item => toDouble (sum + parseAmount item)) 0

/-- The getter `nonAeronautikaRevenue`. -/
def nonAeronautikaRevenue (state : ClientState) : ℚ :=
  (state.revenueData.filter (fun item => item.category == "non-aeronautika")).foldl
    (fun sum item => toDouble (sum + parseAmount item)) 0

/-- The method `Map.get` of a map held as its list of entries in insertion order. -/
def mapGet (m : List (String × Int)) (k : String) : Option Int :=
  m.lookup k

/-- The method `Map.set`: an existing key keeps its place, a new key goes last. -/
def mapSet : List (String × Int) → String → Int → List (String × Int)
  | [], k, v => [(k, v)]
  | (k', v') :: rest, k, v =>
    if k' == k then (k', v) :: rest else (k', v') :: mapSet rest k v

/-- One entry of the getter `topServices`. -/
structure ServiceTotal where
  name : String
  amount : Int
  deriving DecidableEq, Repr

/-- The map `serviceMap` after the loop over the working copy. -/
def serviceMap (items : List Item) : List (String × Int) :=
  items.foldl
    (fun m item =>
      let amount := itemAmount item
      let current := (mapGet m item.service_type).getD 0
      mapSet m item.service_type (current + amount))
    []

/-- The getter `topServices`; `Array.prototype.sort` is stable. -/
def topServices (state : ClientState) : List ServiceTotal :=
  if state.revenueData.length == 0 then []
  else
    (((serviceMap state.revenueData).map fun (name, amount) => (⟨name, amount⟩ : ServiceTotal)).insertionSort
      (fun a b => b.amount ≤ a.amount)).take 10

/-- A warning written by `verifyDataConsistency`. -/
inductive Warning where
  | revenueVsMonthly (revenue monthly difference : ℚ)
  | revenueVsSummary (revenue summary difference : ℚ)
  deriving DecidableEq, Repr

/-- The constant `tolerance`: the number the literal `0.01` is read as. -/
def tolerance : ℚ :=
  toDouble (1 / 100)

/-- The constant `monthlyTotal` of `verifyDataConsistency`: the totals of the
months, each the binary64 number nearest to its amount, added one by one. -/
def monthlyTotal (state : ClientState) : ℚ :=
  state.monthlyData.foldl (fun sum month => toDouble (sum + toDouble ((month.total : ℚ) / 100))) 0

/-- The constant `summaryTotal`: `this.summary?.summary?.totalRevenue || 0`. -/
def summaryTotal (state : ClientState) : ℚ :=
  (state.summary.map fun d => toDouble ((d.summary.totalRevenue : ℚ) / 100)).getD 0

/-- The action `verifyDataConsistency`: the state after it and the warnings it
logged. A difference is the binary64 number nearest to the exact difference of
the two totals. -/
def verifyDataConsistency (state : ClientState) : ClientState × List Warning :=
  let calculatedTotal := totalRevenue state
  let monthlyTotal := monthlyTotal state
  let summaryTotal := summaryTotal state
  (state,
    (if |toDouble (calculatedTotal - monthlyTotal)| > tolerance then
      [Warning.revenueVsMonthly calculatedTotal monthlyTotal
        (toDouble (calculatedTotal - monthlyTotal))]
    else []) ++
    (if |toDouble (calculatedTotal - summaryTotal)| > tolerance ∧ summaryTotal > 0 then
      [Warning.revenueVsSummary calculatedTotal summaryTotal
        (toDouble (calculatedTotal - summaryTotal))]
    else []))

/-- The outcome of an HTTP call: the body of the answer, or a failure with the
`message` of the error answer if it has one. -/
inductive Http (β : Type) where
  | ok (body : β)
  | failed (message : Option String)
  deriving Repr

/-- The shapes `fetchRevenueData` tells apart in an answer. -/
inductive ListBody where
  | envelope (data : List Item) (pagination : Option Pagination)
  | array (data : List Item)
  | other
  deriving DecidableEq, Repr

/-- The shapes `fetchMonthlyData` tells apart in an answer. -/
inductive MonthlyBody where
  | array (data : List MonthEntry)
  | other
  deriving DecidableEq, Repr

/-- The shapes `fetchSummary` tells apart in an answer: the envelope with
`success` and `data`, or anything else, which is stored as it is. -/
inductive SummaryBody where
  | envelope (data : SummaryData)
  | other (stored : Option SummaryData)
  deriving DecidableEq, Repr

/-- The server as the client sees it: the answer to each read request. -/
structure Network where
  getList : ListQuery → Http ListBody
  getMonthly : Nat → Http MonthlyBody
  getSummary : Nat → Http SummaryBody
  getMonthlyDetail : DetailQuery → Http DetailData

/-- What a fetch action returns. -/
structure FetchResult where
  success : Bool
  error : Option String
  deriving DecidableEq, Repr

/-- The expression `error.response?.data?.message || fallback`. -/
def messageOr (message : Option String) (fallback : String) : String :=
  match truthy message with
  | some m => m
  | none => fallback

/-- The helper `getDefaultPagination`. -/
def getDefaultPagination (state : ClientState) : Pagination :=
  { total := state.revenueData.length, page := 1, limit := 100
    totalPages := some ((state.revenueData.length + 100 - 1) / 100) }

/-- The action `fetchRevenueData(params)`; `now` is the time stamp of the call. -/
def fetchRevenueData (net : Network) (now : String) (params : ListQuery)
    (state : ClientState) : ClientState × FetchResult :=
  let state := { state with loading := true, errors := { state.errors with revenue := none } }
  match net.getList params with
  | .ok body =>
    let state :=
      match body with
      | .envelope data pagination =>
        let state := { state with revenueData := data }
        { state with pagination := pagination.getD (getDefaultPagination state) }
      | .array data =>
        let state := { state with revenueData := data }
        { state with pagination := getDefaultPagination state }
      | .other => { state with revenueData := [] }
    let state := { state with lastUpdated := some now }
    ({ state with loading := false }, ⟨true, none⟩)
  | .failed message =>
    let text := messageOr message "Failed to fetch revenue data"
    let state :=
      { state with errors := { state.errors with revenue := some text }, revenueData := [] }
    ({ state with loading := false }, ⟨false, some text⟩)

/-- The action `fetchMonthlyData(year)`. -/
def fetchMonthlyData (net : Network) (year : Option Nat) (state : ClientState) :
    ClientState × FetchResult :=
  let state :=
    { state with monthlyLoading := true, errors := { state.errors with monthly := none } }
  match net.getMonthly (match year with
      | some y => if y != 0 then y else state.currentYear
      | none => state.currentYear) with
  | .ok body =>
    let state :=
      match body with
      | .array data => { state with monthlyData := data }
      | .other => { state with monthlyData := [] }
    ({ state with monthlyLoading := false }, ⟨true, none⟩)
  | .failed message =>
    let text := messageOr message "Failed to fetch monthly data"
    let state :=
      { state with errors := { state.errors with monthly := some text }, monthlyData := [] }
    ({ state with monthlyLoading := false }, ⟨false, some text⟩)

/-- The action `fetchSummary(year)`. -/
def fetchSummary (net : Network) (year : Option Nat) (state : ClientState) :
    ClientState × FetchResult :=
  let state :=
    { state with summaryLoading := true, errors := { state.errors with summary := none } }
  match net.getSummary (match year with
      | some y => if y != 0 then y else state.currentYear
      | none => state.currentYear) with
  | .ok body =>
    let state :=
      match body with
      | .envelope data => { state with summary := some data }
      | .other stored => { state with summary := stored }
    ({ state with summaryLoading := false }, ⟨true, none⟩)
  | .failed message =>
    let text := messageOr message "Failed to fetch summary"
    let state :=
      { state with errors := { state.errors with summary := some text }, summary := none }
    ({ state with summaryLoading := false }, ⟨false, some text⟩)

/-- The action `clearErrors`. -/
def clearErrors (state : ClientState) : ClientState :=
  { state with error := none, errors := ⟨none, none, none, none⟩ }

/-- An element of the array `Promise.allSettled` resolves to. -/
inductive Settled where
  | fulfilled (value : FetchResult)
  | rejected (reason : String)
  deriving DecidableEq, Repr

/-- How the promise of a fetch action settles: the action catches every error
of its call and returns, so its promise is fulfilled with the returned value. -/
def settle (value : FetchResult) : Settled :=
  .fulfilled value

/-- What `refreshAllData` returns. -/
structure RefreshResult where
  success : Bool
  error : Option String
  deriving DecidableEq, Repr

/-- The action `refreshAllData(year)`: the state after it, its result and the
warnings of the consistency check. The three fetches write disjoint members of
the state, so the state after all have settled does not depend on the order in
which their answers arrive; they are run here one after the other. -/
def refreshAllData (net : Network) (now : String) (year : Option Nat) (state : ClientState) :
    ClientState × RefreshResult × List Warning :=
  let state := clearErrors state
  let state :=
    match year with
    | some y => if y != 0 then { state with currentYear := y } else state
    | none => state
  let r1 := fetchRevenueData net now
    { year := some state.currentYear, month := none, category := none, payment_status := none
      page := none, limit := none } state
  let r2 := fetchMonthlyData net (some state.currentYear) r1.1
  let r3 := fetchSummary net (some state.currentYear) r2.1
  let results := [settle r1.2, settle r2.2, settle r3.2]
  let failures := results.filter fun r =>
    match r with
    | .rejected _ => true
    | .fulfilled _ => false
  if failures.length > 0 then
    (r3.1, ⟨false, some "Partial data load failure"⟩, [])
  else
    let checked := verifyDataConsistency r3.1
    (checked.1, ⟨true, none⟩, checked.2)

/-! ## Notions and sample data for the client store -/

/-- The sum of a list of numbers as the runtime computes it: the numbers are
added one by one from the left, each addition returning the binary64 number
nearest to the exact sum. -/
def floatSum (xs : List ℚ) : ℚ :=
  xs.foldl (fun sum x => toDouble (sum + x)) 0

/-- The pairs of totals the consistency check could compare. -/
inductive TotalsPair where
  | revenueMonthly
  | revenueSummary
  | monthlySummary
  deriving DecidableEq, Repr

/-- The exact difference of the two totals of a pair, the totals taken as the
store computes them. -/
def pairDifference (state : ClientState) : TotalsPair → ℚ
  | .revenueMonthly => totalRevenue state - monthlyTotal state
  | .revenueSummary => totalRevenue state - summaryTotal state
  | .monthlySummary => monthlyTotal state - summaryTotal state

/-- Whether a log holds a warning about a pair. There is no warning about the
monthly and the summary total. -/
def flagged (log : List Warning) : TotalsPair → Bool
  | .revenueMonthly =>
    log.any fun w =>
      match w with
      | .revenueVsMonthly _ _ _ => true
      | .revenueVsSummary _ _ _ => false
  | .revenueSummary =>
    log.any fun w =>
      match w with
      | .revenueVsMonthly _ _ _ => false
      | .revenueVsSummary _ _ _ => true
  | .monthlySummary => false

/-- A working-copy item with the optional members left out. -/
def sampleItem (id : Nat) (service_type : String) (amount : Int) : Item :=
  { id := id, date := ⟨2024, 3, 15⟩, partner := .object (some 1) (some "Angkasa")
    partner_id := some 1, category := "aeronautika", service_type := service_type
    amount := some amount, payment_status := "paid", invoice_number := none
    description := none }

/-- The store before any fetch. -/
def emptyClient : ClientState :=
  { revenueData := [], monthlyData := [], summary := none, monthlyDetailData := none
    pagination := ⟨0, 1, 100, some 0⟩, loading := false, monthlyLoading := false
    summaryLoading := false, monthlyDetailLoading := false, error := none
    errors := ⟨none, none, none, none⟩, lastUpdated := none, currentYear := 2024 }

/-- A store whose working copy and monthly series both total 50.00 and which
holds no summary. -/
def noSummaryClient : ClientState :=
  { emptyClient with
    revenueData := [sampleItem 1 "landing_fee" 5000]
    monthlyData := [⟨"Mar", 5000, 0, 5000, 1⟩] }

/-- A store whose working copy totals 5000.01 and whose monthly series totals
5000.00. -/
def oneCentClient : ClientState :=
  { emptyClient with
    revenueData := [sampleItem 1 "landing_fee" 500001]
    monthlyData := [⟨"Mar", 500000, 0, 500000, 1⟩] }

/-- A server that answers the list and the summary request and fails the
monthly request with the message `Server error`. -/
def monthlyDownNetwork : Network :=
  { getList := fun _ => .ok (.envelope [sampleItem 1 "landing_fee" 5000] none)
    getMonthly := fun _ => .failed (some "Server error")
    getSummary := fun _ => .ok (.other none)
    getMonthlyDetail := fun _ => .failed none }

/-- A store with three working-copy items of two service types. -/
def threeItems : ClientState :=
  { emptyClient with
    revenueData :=
      [sampleItem 1 "landing_fee" 5000, sampleItem 3 "parking" 40,
        sampleItem 2 "landing_fee" 700] }

/-! ## Sample data for the month filter of the list -/

/-- A ledger with one row on the last day of February 2024, one on the first
and one on the last day of March 2024. -/
def monthEdgeStore : Store :=
  { ledger :=
      [sampleRow 1 2024 2 29 1 "aeronautika" 100, sampleRow 2 2024 3 1 1 "aeronautika" 200,
        sampleRow 3 2024 3 31 1 "aeronautika" 400]
    partners := [⟨1, "Angkasa", 3, 700⟩] }

/-- The list request `?year=2024&month=3`. -/
def marchQuery : ListQuery :=
  { year := some 2024, month := some 3, category := none, payment_status := none
    page := none, limit := none }

/-! ## Client store: detail fetch and mutations -/

/-- The action `fetchMonthlyDetail(year, month, filters)`; a member `year` or
`month` of `filters` replaces the argument, as the spread in `params` does. On
a failure the stored detail stays as it was. -/
def fetchMonthlyDetail (net : Network) (year month : Option Nat) (filters : DetailQuery)
    (state : ClientState) : ClientState × FetchResult :=
  let state :=
    { state with monthlyDetailLoading := true, errors := { state.errors with detail := none } }
  let params : DetailQuery :=
    { filters with year := filters.year <|> year, month := filters.month <|> month }
  match net.getMonthlyDetail params with
  | .ok body =>
    let state := { state with monthlyDetailData := some body }
    ({ state with monthlyDetailLoading := false }, ⟨true, none⟩)
  | .failed message =>
    let text := messageOr message "Failed to fetch monthly detail"
    let state := { state with errors := { state.errors with detail := some text } }
    ({ state with monthlyDetailLoading := false }, ⟨false, some text⟩)

/-- The shapes a mutation tells apart in the answer to a create or an update:
the envelope with `success` and `data`, or the record itself. -/
inductive RecordBody where
  | envelope (data : Item)
  | plain (record : Item)
  deriving DecidableEq, Repr

/-- The expression `response.data.success ? response.data.data : response.data`. -/
def RecordBody.record : RecordBody → Item
  | .envelope data => data
  | .plain record => record

/-- The answer to a bulk delete. -/
structure BulkBody where
  success : Bool
  message : Option String
  deriving DecidableEq, Repr

/-- What a mutation returns. -/
structure MutationResult where
  success : Bool
  data : Option Item
  message : Option String
  deriving DecidableEq, Repr

/-- The refresh `Promise.all([fetchMonthlyData(currentYear),
fetchSummary(currentYear)])`. Neither fetch rejects and the two write disjoint
members of the state, so they are run here one after the other. -/
def refreshAggregates (net : Network) (state : ClientState) : ClientState :=
  (fetchSummary net (some state.currentYear)
    (fetchMonthlyData net (some state.currentYear) state).1).1

/-- The action `addRevenueData(data)`; `answer` is the outcome of the `POST`,
`net` answers the requests that follow it. -/
def addRevenueData (net : Network) (answer : Http RecordBody) (state : ClientState) :
    ClientState × MutationResult :=
  match answer with
  | .ok body =>
    let newRevenue := body.record
    let state := { state with revenueData := newRevenue :: state.revenueData }
    (refreshAggregates net state, ⟨true, some newRevenue, none⟩)
  | .failed message => (state, ⟨false, none, some (messageOr message "Failed to add revenue")⟩)

/-- The method `findIndex` with the test `item.id === id`; `none` stands for `-1`. -/
def findIndex : List Item → Nat → Option Nat
  | [], _ => none
  | item :: rest, id => if item.id == id then some 0 else (findIndex rest id).map (· + 1)

/-- The action `updateRevenueData(id, data)`; `answer` is the outcome of the `PUT`. -/
def updateRevenueData (net : Network) (answer : Http RecordBody) (id : Nat)
    (state : ClientState) : ClientState × MutationResult :=
  match answer with
  | .ok body =>
    let updatedRevenue := body.record
    let state :=
      match findIndex state.revenueData id with
      | some index => { state with revenueData := state.revenueData.set index updatedRevenue }
      | none => state
    (refreshAggregates net state, ⟨true, some updatedRevenue, none⟩)
  | .failed message =>
    (state, ⟨false, none, some (messageOr message "Failed to update revenue")⟩)

/-- The action `deleteRevenueData(id)`; `answer` is the outcome of the `DELETE`. -/
def deleteRevenueData (net : Network) (answer : Http Unit) (id : Nat) (state : ClientState) :
    ClientState × MutationResult :=
  match answer with
  | .ok _ =>
    let state := { state with revenueData := state.revenueData.filter fun item => item.id != id }
    (refreshAggregates net state, ⟨true, none, none⟩)
  | .failed message =>
    (state, ⟨false, none, some (messageOr message "Failed to delete revenue")⟩)

/-- The action `bulkDeleteRevenueData(ids)`; `answer` is the outcome of the
`POST`. It sends no further request. -/
def bulkDeleteRevenueData (answer : Http BulkBody) (ids : List Nat) (state : ClientState) :
    ClientState × MutationResult :=
  match answer with
  | .ok body =>
    if body.success then
      ({ state with revenueData := state.revenueData.filter fun item => !ids.contains item.id },
        ⟨true, none, body.message⟩)
    else (state, ⟨false, none, body.message⟩)
  | .failed message =>
    (state, ⟨false, none, some (messageOr message "Failed to delete revenues")⟩)

/-! ## Client store: local filter -/

/-- The argument of `filterRevenueData`; a member is `none` when it is absent. -/
structure Filters where
  category : Option String
  service_type : Option String
  partner_id : Option Nat
  payment_status : Option String
  startDate : Option Date
  endDate : Option Date
  deriving DecidableEq, Repr

/-- The value of an optional number when it is truthy: present and not 0. -/
def truthyId (x : Option Nat) : Option Nat :=
  x.filter (fun v => v != 0)

/-- The expression `item.partner?.id || item.partner_id`. -/
def itemPartnerId (item : Item) : Option Nat :=
  match item.partner with
  | .object id _ =>
    match truthyId id with
    | some v => some v
    | none => item.partner_id
  | .text _ => item.partner_id
  | .missing => item.partner_id

/-- The method `filterRevenueData(filters)`: the state after it and the array
it returns. -/
def filterRevenueData (filters : Filters) (state : ClientState) : ClientState × List Item :=
  let filtered := state.revenueData
  let filtered :=
    match truthy filters.category with
    | some v => filtered.filter fun item => item.category == v
    | none => filtered
  let filtered :=
    match truthy filters.service_type with
    | some v => filtered.filter fun item => item.service_type == v
    | none => filtered
  let filtered :=
    match truthyId filters.partner_id with
    | some v => filtered.filter fun item => itemPartnerId item == some v
    | none => filtered
  let filtered :=
    match truthy filters.payment_status with
    | some v => filtered.filter fun item => item.payment_status == v
    | none => filtered
  let filtered :=
    match filters.startDate, filters.endDate with
    | some startDate, some endDate =>
      filtered.filter fun item => Date.le startDate item.date && Date.le item.date endDate
    | _, _ => filtered
  (state, filtered)

/-! ## Client store: top partners -/

/-- The value of the variable `partnerId` of `topPartners`. -/
inductive PartnerId where
  | null
  | undefined
  | number (id : Nat)
  deriving DecidableEq, Repr

/-- The text a template literal prints for a `partnerId`. -/
def PartnerId.text : PartnerId → String
  | .null => "null"
  | .undefined => "undefined"
  | .number id => toString id

/-- A member that may be absent, read as a `partnerId`. -/
def PartnerId.ofMember : Option Nat → PartnerId
  | some id => .number id
  | none => .undefined

/-- The variables `partnerId` and `partnerName` after the branches on
`item.partner`; an empty text is falsy, like a missing partner. -/
def partnerOf (item : Item) : PartnerId × String :=
  match item.partner with
  | .missing => (.null, "Unknown Partner")
  | .object id name => (.ofMember id, (truthy name).getD "Unknown Partner")
  | .text name =>
    if name != "" then (.ofMember item.partner_id, name) else (.null, "Unknown Partner")

/-- The map key of an item, `partnerId` and `partnerName` joined by a hyphen. -/
def partnerKey (item : Item) : String :=
  (partnerOf item).1.text ++ "-" ++ (partnerOf item).2

/-- A value of `partnerMap`; `amount` is a number of the runtime, given by its
exact value. -/
structure PartnerTotal where
  id : PartnerId
  name : String
  amount : ℚ
  transactions : Nat
  deriving DecidableEq, Repr

/-- The method `partnerMap.get`, the map held as its list of entries in
insertion order. -/
def partnerMapGet (m : List (String × PartnerTotal)) (k : String) : Option PartnerTotal :=
  m.lookup k

/-- The method `partnerMap.set`: an existing key keeps its place, a new key goes last. -/
def partnerMapSet :
    List (String × PartnerTotal) → String → PartnerTotal → List (String × PartnerTotal)
  | [], k, v => [(k, v)]
  | (k', v') :: rest, k, v =>
    if k' == k then (k', v) :: rest else (k', v') :: partnerMapSet rest k v

/-- One round of the loop over the working copy: the entry of the item is
fetched or made, raised by the amount and by one transaction, and stored. -/
def partnerStep (m : List (String × PartnerTotal)) (item : Item) :
    List (String × PartnerTotal) :=
  let existing :=
    (partnerMapGet m (partnerKey item)).getD ⟨(partnerOf item).1, (partnerOf item).2, 0, 0⟩
  partnerMapSet m (partnerKey item)
    { existing with
      amount := toDouble (existing.amount + parseAmount item)
      transactions := existing.transactions + 1 }

/-- The map `partnerMap` after the loop over the working copy. -/
def partnerMap (items : List Item) : List (String × PartnerTotal) :=
  items.foldl partnerStep []

/-- The text `x.toFixed(1)` of the number with exact value `x`, read as a
decimal: the multiple of `0.1` nearest to `x`, a tie going away from zero. -/
def toFixed1 (x : ℚ) : ℚ :=
  if x < 0 then -((⌊(-x) * 10 + 1 / 2⌋ : ℤ) : ℚ) / 10
  else ((⌊x * 10 + 1 / 2⌋ : ℤ) : ℚ) / 10

/-- The member `percentage` of an entry: the text of `toFixed(1)`, given by the
decimal it shows, or the text `0`. -/
inductive Percentage where
  | fixed (value : ℚ)
  | zero
  deriving DecidableEq, Repr

/-- One entry of the getter `topPartners`. -/
structure TopPartner where
  id : PartnerId
  name : String
  amount : ℚ
  transactions : Nat
  percentage : Percentage
  deriving DecidableEq, Repr

/-- The getter `topPartners`; `Array.prototype.sort` is stable. The division
and the multiplication of the percentage each return the binary64 number
nearest to their exact result. -/
def topPartners (state : ClientState) : List TopPartner :=
  if state.revenueData.length == 0 then []
  else
    let totalRevenue :=
      state.revenueData.foldl (fun sum item => toDouble (sum + parseAmount item)) 0
    (((partnerMap state.revenueData).map fun entry =>
        ({ id := entry.2.id, name := entry.2.name, amount := entry.2.amount
           transactions := entry.2.transactions
           percentage :=
            if totalRevenue > 0 then
              .fixed (toFixed1 (toDouble (toDouble (entry.2.amount / totalRevenue) * 100)))
            else .zero } : TopPartner)).insertionSort
      (fun a b => b.amount ≤ a.amount)).take 10

/-! ## Notions for the isolation of the fetches -/

/-- The members the list fetch is named after are the same in both states. -/
def SameList (a b : ClientState) : Prop :=
  a.revenueData = b.revenueData ∧ a.loading = b.loading ∧ a.errors.revenue = b.errors.revenue

/-- The page description and the time stamp of the list are the same in both states. -/
def SameListMeta (a b : ClientState) : Prop :=
  a.pagination = b.pagination ∧ a.lastUpdated = b.lastUpdated

/-- The members of the monthly fetch are the same in both states. -/
def SameMonthly (a b : ClientState) : Prop :=
  a.monthlyData = b.monthlyData ∧ a.monthlyLoading = b.monthlyLoading ∧
    a.errors.monthly = b.errors.monthly

/-- The members of the summary fetch are the same in both states. -/
def SameSummary (a b : ClientState) : Prop :=
  a.summary = b.summary ∧ a.summaryLoading = b.summaryLoading ∧
    a.errors.summary = b.errors.summary

/-- The members of the detail fetch are the same in both states. -/
def SameDetail (a b : ClientState) : Prop :=
  a.monthlyDetailData = b.monthlyDetailData ∧
    a.monthlyDetailLoading = b.monthlyDetailLoading ∧ a.errors.detail = b.errors.detail

/-- The members no fetch is named after are the same in both states. -/
def SameShared (a b : ClientState) : Prop :=
  a.error = b.error ∧ a.currentYear = b.currentYear

/-- The list request the store sends for a year. -/
def yearQuery (year : Nat) : ListQuery :=
  { year := some year, month := none, category := none, payment_status := none
    page := none, limit := none }

/-! ## Sample data for the mutations -/

/-- The yearly summary of a ledger of `count` paid aeronautical rows that total `total`. -/
def sampleSummary (total : Int) (count : Nat) : SummaryData :=
  { summary := ⟨total, count, total, 0, total, 0, 0⟩, topServices := [], topPartners := [] }

/-- A store that shows two items of March 2024, 5700 in all, in the working
copy, in the monthly series and in the summary. -/
def twoItemClient : ClientState :=
  { emptyClient with
    revenueData := [sampleItem 1 "landing_fee" 5000, sampleItem 2 "parking" 700]
    monthlyData := [⟨"Mar", 5700, 0, 5700, 2⟩]
    summary := some (sampleSummary 5700 2) }

/-- The server after item 2 was deleted: one item of 5000 is left. -/
def afterDeleteNetwork : Network :=
  { getList := fun _ => .ok (.envelope [sampleItem 1 "landing_fee" 5000] none)
    getMonthly := fun _ => .ok (.array [⟨"Mar", 5000, 0, 5000, 1⟩])
    getSummary := fun _ => .ok (.envelope (sampleSummary 5000 1))
    getMonthlyDetail := fun _ => .failed none }

/-! ## Notions for the local filter -/

/-- Whether an item meets every criterion a filter object supplies. A text
criterion is supplied when it is present and not empty, the partner when it is
present and not 0, the range of dates when both of its bounds are present. -/
def meetsCriteria (filters : Filters) (item : Item) : Bool :=
  (match truthy filters.category with
    | some v => item.category == v
    | none => true) &&
  (match truthy filters.service_type with
    | some v => item.service_type == v
    | none => true) &&
  (match truthyId filters.partner_id with
    | some v => itemPartnerId item == some v
    | none => true) &&
  (match truthy filters.payment_status with
    | some v => item.payment_status == v
    | none => true) &&
  (match filters.startDate, filters.endDate with
    | some startDate, some endDate => Date.le startDate item.date && Date.le item.date endDate
    | _, _ => true)

/-- The filter object without any member. -/
def noFilters : Filters :=
  { category := none, service_type := none, partner_id := none, payment_status := none
    startDate := none, endDate := none }

/-! ## Sample data for the local filter and the top partners -/

/-- The filter object for parking items dated in March 2024. -/
def parkingMarch : Filters :=
  { noFilters with
    service_type := some "parking", startDate := some ⟨2024, 3, 1⟩
    endDate := some ⟨2024, 3, 31⟩ }

/-- A working copy of two items: 57.00 without partner and 23.00 of partner 1. -/
def tieItems : ClientState :=
  { emptyClient with
    revenueData :=
      [{ sampleItem 1 "parking" 5700 with partner := .missing, partner_id := none },
        sampleItem 2 "landing_fee" 2300] }

/-! ## Lemmas on the aggregation engine -/

theorem inYear_iff (y : Nat) (r : Revenue) :
    inYear y r = true ↔
      r.date.year = y ∧ 1 ≤ r.date.month ∧ r.date.month ≤ 12 ∧
        (r.date.month = 1 → 1 ≤ r.date.day) ∧ (r.date.month = 12 → r.date.day ≤ 31) := by
  simp only [inYear, Date.le, Bool.and_eq_true, Bool.or_eq_true, decide_eq_true_eq, beq_iff_eq]
  omega

theorem members_eq_cell (ledger : List Revenue) (y : Nat) (r : Revenue)
    (hr : r ∈ ledger.filter (inYear y)) :
    (ledger.filter (inYear y)).filter (fun x => monthlyKey x == monthlyKey r) =
      cell ledger y r.date.month r.category := by
  unfold cell
  apply List.filter_congr
  intro x hx
  have hxy := ((inYear_iff y x).1 (List.mem_filter.1 hx).2).1
  have hry := ((inYear_iff y r).1 (List.mem_filter.1 hr).2).1
  simp only [monthlyKey, hxy, hry]
  rw [Bool.eq_iff_iff]
  simp

theorem mem_monthlyQuery (ledger : List Revenue) (y : Nat) (g : MonthlyGroup) :
    g ∈ monthlyQuery ledger y ↔
      ∃ r ∈ ledger.filter (inYear y), g.month = r.date.month ∧ g.year = y ∧
        g.category = r.category ∧
        g.total = ((cell ledger y r.date.month r.category).map (·.amount)).sum ∧
        g.count = (cell ledger y r.date.month r.category).length := by
  unfold monthlyQuery
  rw [(List.perm_insertionSort _ _).mem_iff]
  simp only [List.mem_map, List.mem_dedup]
  constructor
  · rintro ⟨k, ⟨r, hr, rfl⟩, rfl⟩
    refine ⟨r, hr, rfl, ?_, rfl, ?_, ?_⟩
    · exact ((inYear_iff y r).1 (List.mem_filter.1 hr).2).1
    · simp only [members_eq_cell ledger y r hr]
    · simp only [members_eq_cell ledger y r hr]
  · rintro ⟨r, hr, h1, h2, h3, h4, h5⟩
    refine ⟨monthlyKey r, ⟨r, hr, rfl⟩, ?_⟩
    simp only [members_eq_cell ledger y r hr]
    cases g
    simp only [MonthlyGroup.mk.injEq]
    simp only at h1 h2 h3 h4 h5
    have hry := ((inYear_iff y r).1 (List.mem_filter.1 hr).2).1
    simp [monthlyKey, h1, h2, h3, h4, h5, hry]

/-- What `find` returns for a category among the groups of one month. -/
theorem find_cell (ledger : List Revenue) (y m : Nat) (c : String) :
    (((monthlyQuery ledger y).filter (fun item => item.month == m)).find?
        (fun item => item.category == c)).map (fun g => (g.total, g.count)) =
      if cell ledger y m c = [] then none
      else some (((cell ledger y m c).map (·.amount)).sum, (cell ledger y m c).length) := by
  cases h : ((monthlyQuery ledger y).filter (fun item => item.month == m)).find?
      (fun item => item.category == c) with
  | none =>
    rw [List.find?_eq_none] at h
    have hc : cell ledger y m c = [] := by
      by_contra hne
      obtain ⟨r, hr⟩ := List.exists_mem_of_ne_nil _ hne
      have hr' := hr
      simp only [cell, List.mem_filter, Bool.and_eq_true, beq_iff_eq] at hr'
      obtain ⟨⟨hl, hy⟩, hm, hcat⟩ := hr'
      have hg : (⟨m, y, c, ((cell ledger y m c).map (·.amount)).sum,
          (cell ledger y m c).length⟩ : MonthlyGroup) ∈ monthlyQuery ledger y := by
        rw [mem_monthlyQuery]
        exact ⟨r, List.mem_filter.2 ⟨hl, hy⟩, hm.symm, rfl, hcat.symm, by rw [hm, hcat],
          by rw [hm, hcat]⟩
      have := h _ (List.mem_filter.2 ⟨hg, by simp⟩)
      simp at this
    simp [hc]
  | some g =>
    have hp := List.find?_some h
    have hmem := List.mem_of_find?_eq_some h
    simp only [List.mem_filter, beq_iff_eq] at hmem hp
    obtain ⟨hq, hm⟩ := hmem
    obtain ⟨r, hr, h1, _, h3, h4, h5⟩ := (mem_monthlyQuery ledger y g).1 hq
    have hrm : r.date.month = m := by rw [← h1, hm]
    have hrc : r.category = c := by rw [← h3, hp]
    rw [hrm, hrc] at h4 h5
    have hne : cell ledger y m c ≠ [] := by
      apply List.ne_nil_of_mem (a := r)
      simp only [cell, List.mem_filter, Bool.and_eq_true, beq_iff_eq]
      exact ⟨List.mem_filter.1 hr, hrm, hrc⟩
    simp [hne, h4, h5]

/-- The entry of month `index + 1` in terms of the rows of the year. -/
theorem monthEntry_monthlyQuery (ledger : List Revenue) (y index : Nat) (name : String) :
    monthEntry (monthlyQuery ledger y) index name =
      { month := name
        aeronautika := ((cell ledger y (index + 1) "aeronautika").map (·.amount)).sum
        nonAeronautika := ((cell ledger y (index + 1) "non-aeronautika").map (·.amount)).sum
        total := ((cell ledger y (index + 1) "aeronautika").map (·.amount)).sum +
          ((cell ledger y (index + 1) "non-aeronautika").map (·.amount)).sum
        transactions := (cell ledger y (index + 1) "aeronautika").length +
          (cell ledger y (index + 1) "non-aeronautika").length } := by
  have ha := find_cell ledger y (index + 1) "aeronautika"
  have hn := find_cell ledger y (index + 1) "non-aeronautika"
  unfold monthEntry
  simp only
  cases h1 : ((monthlyQuery ledger y).filter (fun item => item.month == index + 1)).find?
      (fun item => item.category == "aeronautika") <;>
  cases h2 : ((monthlyQuery ledger y).filter (fun item => item.month == index + 1)).find?
      (fun item => item.category == "non-aeronautika") <;>
  rw [h1] at ha <;> rw [h2] at hn <;>
  by_cases c1 : cell ledger y (index + 1) "aeronautika" = [] <;>
  by_cases c2 : cell ledger y (index + 1) "non-aeronautika" = [] <;>
  simp [c1, c2] at ha hn ⊢ <;> simp [ha, hn]

theorem getMonthly_eq (s : Store) (year : Option Nat) (thisYear : Nat) :
    getMonthly s year thisYear =
      (fun q => [monthEntry q 0 "Jan", monthEntry q 1 "Feb", monthEntry q 2 "Mar",
        monthEntry q 3 "Apr", monthEntry q 4 "May", monthEntry q 5 "Jun",
        monthEntry q 6 "Jul", monthEntry q 7 "Aug", monthEntry q 8 "Sep",
        monthEntry q 9 "Oct", monthEntry q 10 "Nov", monthEntry q 11 "Dec"])
        (monthlyQuery s.ledger (currentYear year thisYear)) := by
  rfl

theorem parseFloatOrZero_sqlSum (xs : List Int) : parseFloatOrZero (sqlSum xs) = xs.sum := by
  cases xs <;> simp [parseFloatOrZero, sqlSum]

theorem cellSum_cons (r : Revenue) (rows : List Revenue) (m : Nat) (c : String) :
    cellSum (r :: rows) m c =
      (if r.date.month = m ∧ r.category = c then r.amount else 0) + cellSum rows m c := by
  unfold cellSum
  by_cases h : r.date.month = m ∧ r.category = c
  · simp [List.filter_cons, h]
  · rw [if_neg h]
    have : (r.date.month == m && r.category == c) = false := by
      rw [Bool.eq_false_iff]
      simpa using h
    simp [List.filter_cons, this]

/-- Splitting the amounts of a year by month and category loses nothing when
every row has a calendar month and one of the two categories. -/
theorem sum_cells (rows : List Revenue)
    (hm : ∀ r ∈ rows, 1 ≤ r.date.month ∧ r.date.month ≤ 12)
    (hc : ∀ r ∈ rows, r.category = "aeronautika" ∨ r.category = "non-aeronautika") :
    (cellSum rows 1 "aeronautika" + cellSum rows 1 "non-aeronautika") +
    (cellSum rows 2 "aeronautika" + cellSum rows 2 "non-aeronautika") +
    (cellSum rows 3 "aeronautika" + cellSum rows 3 "non-aeronautika") +
    (cellSum rows 4 "aeronautika" + cellSum rows 4 "non-aeronautika") +
    (cellSum rows 5 "aeronautika" + cellSum rows 5 "non-aeronautika") +
    (cellSum rows 6 "aeronautika" + cellSum rows 6 "non-aeronautika") +
    (cellSum rows 7 "aeronautika" + cellSum rows 7 "non-aeronautika") +
    (cellSum rows 8 "aeronautika" + cellSum rows 8 "non-aeronautika") +
    (cellSum rows 9 "aeronautika" + cellSum rows 9 "non-aeronautika") +
    (cellSum rows 10 "aeronautika" + cellSum rows 10 "non-aeronautika") +
    (cellSum rows 11 "aeronautika" + cellSum rows 11 "non-aeronautika") +
    (cellSum rows 12 "aeronautika" + cellSum rows 12 "non-aeronautika") =
      (rows.map (·.amount)).sum := by
  induction rows with
  | nil => simp [cellSum]
  | cons r rows ih =>
    have ih' := ih (fun x hx => hm x (List.mem_cons_of_mem _ hx))
      (fun x hx => hc x (List.mem_cons_of_mem _ hx))
    obtain ⟨h1, h12⟩ := hm r (List.mem_cons_self _ _)
    have hcat := hc r (List.mem_cons_self _ _)
    simp only [cellSum_cons, List.map_cons, List.sum_cons]
    rw [← ih']
    have hmonth : r.date.month = 1 ∨ r.date.month = 2 ∨ r.date.month = 3 ∨ r.date.month = 4 ∨
        r.date.month = 5 ∨ r.date.month = 6 ∨ r.date.month = 7 ∨ r.date.month = 8 ∨
        r.date.month = 9 ∨ r.date.month = 10 ∨ r.date.month = 11 ∨ r.date.month = 12 := by
      omega
    rcases hcat with hcat | hcat <;>
    rcases hmonth with h | h | h | h | h | h | h | h | h | h | h | h <;>
    simp [h, hcat] <;> ring

theorem cell_eq_nil (ledger : List Revenue) (y m : Nat) (c : String)
    (h : ∀ r ∈ ledger, ¬ (r.date.year = y ∧ r.date.month = m)) : cell ledger y m c = [] := by
  unfold cell
  rw [List.filter_eq_nil_iff]
  intro r hr
  have hy := ((inYear_iff y r).1 (List.mem_filter.1 hr).2).1
  have := h r (List.mem_filter.1 hr).1
  simp only [Bool.and_eq_true, beq_iff_eq, not_and]
  intro hm
  exact absurd ⟨hy, hm⟩ this

/-- C1. For every ledger whose rows all have category aeronautika or
non-aeronautika and for every year, the `total` fields of the twelve entries of
the monthly summary add up to `summary.totalRevenue` of the yearly summary,
exactly (hence within the tolerance of 0.01). -/
theorem monthly_totals_sum_eq_totalRevenue (s : Store) (year : Option Nat) (thisYear : Nat)
    (hcat : ∀ r ∈ s.ledger, r.category = "aeronautika" ∨ r.category = "non-aeronautika") :
    ((getMonthly s year thisYear).map (·.total)).sum =
      (getSummary s year thisYear).totalRevenue := by
  rw [getMonthly_eq]
  simp only [getSummary, parseFloatOrZero_sqlSum, monthEntry_monthlyQuery, List.map_cons,
    List.map_nil, List.sum_cons, List.sum_nil]
  rw [← sum_cells (s.ledger.filter (inYear (currentYear year thisYear)))
    (fun r hr => by
      have := (inYear_iff _ r).1 (List.mem_filter.1 hr).2
      exact ⟨this.2.1, this.2.2.1⟩)
    (fun r hr => hcat r (List.mem_filter.1 hr).1)]
  simp only [cell, cellSum]
  ring

/-- C2. The monthly summary has exactly twelve entries, labelled Jan to Dec in
calendar order; in every entry `total = aeronautika + nonAeronautika`; a month
in which the ledger has no row of the requested year reports zero amounts and
zero transactions; an empty ledger yields twelve all-zero entries. -/
theorem getMonthly_twelve_entries (s : Store) (year : Option Nat) (thisYear : Nat) :
    (getMonthly s year thisYear).length = 12 ∧
    (getMonthly s year thisYear).map (·.month) =
      ["Jan", "Feb", "Mar", "Apr", "May", "Jun", "Jul", "Aug", "Sep", "Oct", "Nov", "Dec"] ∧
    (∀ e ∈ getMonthly s year thisYear, e.total = e.aeronautika + e.nonAeronautika) ∧
    (∀ i name, months[i]? = some name →
      (∀ r ∈ s.ledger, ¬ (r.date.year = currentYear year thisYear ∧ r.date.month = i + 1)) →
      (getMonthly s year thisYear)[i]? = some ⟨name, 0, 0, 0, 0⟩) ∧
    (s.ledger = [] →
      getMonthly s year thisYear = months.map (fun name => ⟨name, 0, 0, 0, 0⟩)) := by
  refine ⟨by rw [getMonthly_eq]; rfl, by rw [getMonthly_eq]; rfl, ?_, ?_, ?_⟩
  · intro e he
    rw [getMonthly_eq] at he
    simp only [List.mem_cons, List.mem_singleton, List.not_mem_nil, or_false] at he
    rcases he with h | h | h | h | h | h | h | h | h | h | h | h <;> subst h <;> rfl
  · intro i name hname hnone
    have hi : i < 12 := by
      by_contra hge
      have : months[i]? = none := List.getElem?_eq_none (by simp [months]; omega)
      rw [this] at hname
      cases hname
    have ha := cell_eq_nil s.ledger _ _ "aeronautika" hnone
    have hn := cell_eq_nil s.ledger _ _ "non-aeronautika" hnone
    rw [getMonthly_eq]
    interval_cases i <;> simp only [months, List.getElem?_cons_zero, List.getElem?_cons_succ,
      Option.some.injEq] at hname <;> subst hname <;>
      simp [monthEntry_monthlyQuery, ha, hn]
  · intro hnil
    rw [getMonthly_eq]
    have hcell : ∀ m c, cell s.ledger (currentYear year thisYear) m c = [] := by
      intro m c
      simp [cell, hnil]
    simp [monthEntry_monthlyQuery, hcell, months]

theorem monthly_totals_sum_eq_totalRevenue_witness :
    (∀ r ∈ sampleStore.ledger,
        r.category = "aeronautika" ∨ r.category = "non-aeronautika") ∧
      ((getMonthly sampleStore (some 2024) 2026).map (·.total)).sum =
        (getSummary sampleStore (some 2024) 2026).totalRevenue ∧
      (getSummary sampleStore (some 2024) 2026).totalRevenue = 5711 :=
  ⟨by decide, monthly_totals_sum_eq_totalRevenue sampleStore (some 2024) 2026 (by decide),
    by decide⟩

theorem getMonthly_twelve_entries_witness :
    (∀ r ∈ sampleStore.ledger, ¬ (r.date.year = 2024 ∧ r.date.month = 1 + 1)) ∧
      (getMonthly sampleStore (some 2024) 2026)[1]? = some ⟨"Feb", 0, 0, 0, 0⟩ ∧
      (getMonthly sampleStore (some 2024) 2026)[2]? = some ⟨"Mar", 5000, 700, 5700, 2⟩ :=
  ⟨by decide,
    (getMonthly_twelve_entries sampleStore (some 2024) 2026).2.2.2.1 1 "Feb" rfl (by decide),
    by decide⟩

/-! ## Lemmas on the partner registry -/

theorem findPartner_id {partners : List Partner} {pid : Nat} {p : Partner}
    (h : findPartner partners pid = some p) : p.id = pid := by
  have := List.find?_some h
  simpa using this

theorem findPartner_updatePartnerTotals (partners : List Partner) (partner : Partner)
    (tt ta : Int) (q : Nat) :
    findPartner (updatePartnerTotals partners partner tt ta) q =
      (findPartner partners q).map fun p =>
        if p.id == partner.id then { p with total_transactions := tt, total_amount := ta }
        else p := by
  unfold findPartner updatePartnerTotals
  rw [List.find?_map]
  have hfun : ((fun p : Partner => p.id == q) ∘ fun x : Partner =>
      if x.id == partner.id then { x with total_transactions := tt, total_amount := ta }
      else x) = fun p : Partner => p.id == q := by
    funext x
    simp only [Function.comp]
    split <;> rfl
  rw [hfun]

/-- C3. A successful single delete of a row that references an existing partner
(under a positive key) leaves that partner with `total_transactions` equal to
`max(0, prior - 1)` and `total_amount` equal to `max(0, prior - amount)`; both
are non-negative, and no row with the deleted id remains in the ledger. -/
theorem deleteRevenue_decrements_partner (s : Store) (id : Nat) (f : Faults)
    (revenue : Revenue) (partner : Partner)
    (hok : (deleteRevenue s id f).1.status = 200)
    (hrow : findRevenue s.ledger id = some revenue)
    (hkey : revenue.partner_id ≠ 0)
    (hpartner : findPartner s.partners revenue.partner_id = some partner) :
    findPartner (deleteRevenue s id f).2.partners revenue.partner_id =
        some { partner with
          total_transactions := max 0 (partner.total_transactions - 1)
          total_amount := max 0 (partner.total_amount - revenue.amount) } ∧
      (∀ p, findPartner (deleteRevenue s id f).2.partners revenue.partner_id = some p →
        0 ≤ p.total_transactions ∧ 0 ≤ p.total_amount) ∧
      (deleteRevenue s id f).2.ledger = s.ledger.filter (fun r => r.id != id) ∧
      revenue ∉ (deleteRevenue s id f).2.ledger ∧
      ∀ r ∈ (deleteRevenue s id f).2.ledger, r.id ≠ id := by
  have hid : revenue.id = id := by
    have := List.find?_some hrow
    simpa using this
  have hpid := findPartner_id hpartner
  unfold deleteRevenue at hok ⊢
  simp only [Tx.start, Tx.rollback, Tx.commit, Tx.destroyRevenue, Tx.updatePartner, hrow,
    hpartner, hkey, bne_iff_ne, ne_eq, not_false_eq_true, ite_true] at hok ⊢
  by_cases h1 : f.findRevenue = true
  · simp [h1, serverError] at hok
  by_cases h2 : f.destroyRevenue = true
  · simp [h1, h2, serverError] at hok
  by_cases h3 : f.findPartner revenue.partner_id = true
  · simp [h1, h2, h3, serverError] at hok
  by_cases h4 : f.updatePartner revenue.partner_id = true
  · simp [h1, h2, h3, h4, serverError] at hok
  simp only [h1, h2, h3, h4, Bool.false_eq_true, ite_false, hid]
  refine ⟨?_, ?_, trivial, ?_, ?_⟩
  · rw [findPartner_updatePartnerTotals, hpartner]
    simp
  · intro p hp
    rw [findPartner_updatePartnerTotals, hpartner] at hp
    simp only [Option.map_some', beq_self_eq_true, ite_true, Option.some.injEq] at hp
    subst hp
    exact ⟨le_max_left _ _, le_max_left _ _⟩
  · intro hmem
    have := (List.mem_filter.1 hmem).2
    simp [hid] at this
  · intro r hr
    have := (List.mem_filter.1 hr).2
    simpa using this

/-! ## Lemmas on the grouping of bulk delete -/

theorem lookup_eq_none_of_lt (q : Nat) (acc : List (Nat × PartnerUpdate))
    (h : ∀ e ∈ acc, q < e.1) : acc.lookup q = none := by
  induction acc with
  | nil => rfl
  | cons e rest ih =>
    obtain ⟨k, u⟩ := e
    have hk : q < k := h (k, u) (List.mem_cons_self _ _)
    have hne : (q == k) = false := by simp; omega
    rw [List.lookup_cons, hne]
    exact ih (fun e he => h e (List.mem_cons_of_mem _ he))

theorem bump_mem (pid : Nat) (a : Int) (acc : List (Nat × PartnerUpdate))
    (e : Nat × PartnerUpdate) (he : e ∈ bump pid a acc) : e.1 = pid ∨ e ∈ acc := by
  induction acc with
  | nil =>
    simp only [bump, List.mem_singleton] at he
    left; rw [he]
  | cons x rest ih =>
    obtain ⟨k, u⟩ := x
    simp only [bump] at he
    split at he
    · rcases List.mem_cons.1 he with h | h
      · left; rw [h]
      · right; exact h
    · split at he
      · rename_i hk
        rcases List.mem_cons.1 he with h | h
        · left; rw [h]; simp at hk; exact hk.symm
        · right; exact List.mem_cons_of_mem _ h
      · rcases List.mem_cons.1 he with h | h
        · right; rw [h]; exact List.mem_cons_self _ _
        · rcases ih h with h' | h'
          · left; exact h'
          · right; exact List.mem_cons_of_mem _ h'

theorem bump_ascending (pid : Nat) (a : Int) (acc : List (Nat × PartnerUpdate))
    (h : Ascending acc) : Ascending (bump pid a acc) := by
  induction acc with
  | nil => simp [bump, Ascending]
  | cons x rest ih =>
    obtain ⟨k, u⟩ := x
    unfold Ascending at h ih ⊢
    rw [List.pairwise_cons] at h
    simp only [bump]
    split
    · rename_i hlt
      rw [List.pairwise_cons]
      refine ⟨?_, List.pairwise_cons.2 h⟩
      intro e he
      rcases List.mem_cons.1 he with h' | h'
      · rw [h']; exact hlt
      · exact lt_trans hlt (h.1 e h')
    · split
      · rw [List.pairwise_cons]
        exact ⟨h.1, h.2⟩
      · rename_i hnlt hne
        rw [List.pairwise_cons]
        refine ⟨?_, ih h.2⟩
        intro e he
        rcases bump_mem pid a rest e he with h' | h'
        · rw [h']
          simp at hne
          simp only
          omega
        · exact h.1 e h'

theorem lookup_cons_if (q k : Nat) (u : PartnerUpdate) (rest : List (Nat × PartnerUpdate)) :
    ((k, u) :: rest).lookup q = if q = k then some u else rest.lookup q := by
  rw [List.lookup_cons]
  by_cases h : q = k
  · simp [h]
  · have : (q == k) = false := by simpa using h
    simp [h, this]

theorem lookup_bump (pid : Nat) (a : Int) (acc : List (Nat × PartnerUpdate))
    (h : Ascending acc) (q : Nat) :
    (bump pid a acc).lookup q =
      if q = pid then
        some (match acc.lookup pid with
          | none => ⟨1, a⟩
          | some u => ⟨u.count + 1, u.amount + a⟩)
      else acc.lookup q := by
  induction acc with
  | nil =>
    by_cases hq : q = pid <;> simp [bump, lookup_cons_if, hq]
  | cons x rest ih =>
    obtain ⟨k, u⟩ := x
    have h' := h
    unfold Ascending at h'
    rw [List.pairwise_cons] at h'
    simp only [bump]
    split
    · rename_i hlt
      have hnone : ((k, u) :: rest).lookup pid = none := by
        apply lookup_eq_none_of_lt
        intro e he
        rcases List.mem_cons.1 he with h1 | h1
        · rw [h1]; exact hlt
        · exact lt_trans hlt (h'.1 e h1)
      by_cases hq : q = pid
      · rw [hnone]
        simp [lookup_cons_if, hq]
      · simp [lookup_cons_if, hq]
    · split
      · rename_i hnlt heq
        simp only [beq_iff_eq] at heq
        subst heq
        by_cases hq : q = pid <;> simp [lookup_cons_if, hq]
      · rename_i hnlt hne
        simp only [beq_iff_eq] at hne
        have ih' := ih h'.2
        have hne' : ¬ k = pid := fun e => hne e.symm
        by_cases hqk : q = k
        · have hqp : q ≠ pid := by omega
          rw [if_neg hqp]
          simp [lookup_cons_if, hqk]
        · rw [lookup_cons_if, if_neg hqk, ih']
          by_cases hq : q = pid
          · simp [hq, lookup_cons_if, hne]
          · simp [hq, lookup_cons_if, hqk]

theorem foldl_bump (revenues : List Revenue) (acc : List (Nat × PartnerUpdate))
    (h : Ascending acc) :
    Ascending (revenues.foldl
        (fun acc revenue =>
          if revenue.partner_id != 0 then bump revenue.partner_id revenue.amount acc else acc)
        acc) ∧
      ∀ q, (revenues.foldl
        (fun acc revenue =>
          if revenue.partner_id != 0 then bump revenue.partner_id revenue.amount acc else acc)
        acc).lookup q =
        match acc.lookup q with
        | none =>
          if bookedUnder revenues q = [] then none
          else some ⟨(bookedUnder revenues q).length,
            ((bookedUnder revenues q).map (·.amount)).sum⟩
        | some u =>
          some ⟨u.count + (bookedUnder revenues q).length,
            u.amount + ((bookedUnder revenues q).map (·.amount)).sum⟩ := by
  induction revenues generalizing acc with
  | nil =>
    refine ⟨h, fun q => ?_⟩
    cases hl : acc.lookup q <;> simp [bookedUnder, hl]
  | cons r rest ih =>
    simp only [List.foldl_cons]
    by_cases hz : r.partner_id = 0
    · have hb : ∀ q, bookedUnder (r :: rest) q = bookedUnder rest q := by
        intro q
        simp [bookedUnder, List.filter_cons, hz]
      simp only [hz, bne_self_eq_false, Bool.false_eq_true, if_false, hb]
      exact ih acc h
    · have hnz : (r.partner_id != 0) = true := by simpa using hz
      simp only [hnz, if_true]
      have hasc := bump_ascending r.partner_id r.amount acc h
      refine ⟨(ih _ hasc).1, fun q => ?_⟩
      rw [(ih _ hasc).2 q, lookup_bump _ _ _ h]
      by_cases hq : q = r.partner_id
      · subst hq
        have hb : bookedUnder (r :: rest) r.partner_id = r :: bookedUnder rest r.partner_id := by
          simp [bookedUnder, List.filter_cons, hz]
        rw [hb]
        cases hl : acc.lookup r.partner_id with
        | none =>
          by_cases he : bookedUnder rest r.partner_id = []
          · simp [he]
          · simp [he]
            ring
        | some u =>
          simp
          constructor <;> ring
      · have hb : bookedUnder (r :: rest) q = bookedUnder rest q := by
          have : ¬ r.partner_id = q := fun e => hq e.symm
          simp [bookedUnder, List.filter_cons, this]
        rw [hb, if_neg hq]

theorem partnerUpdates_lookup (revenues : List Revenue) :
    Ascending (partnerUpdates revenues) ∧
      ∀ q, (partnerUpdates revenues).lookup q =
        if bookedUnder revenues q = [] then none
        else some ⟨(bookedUnder revenues q).length,
          ((bookedUnder revenues q).map (·.amount)).sum⟩ := by
  have h := foldl_bump revenues [] (by simp [Ascending])
  exact ⟨h.1, fun q => by rw [partnerUpdates, h.2 q]; rfl⟩

theorem applyPartnerUpdates_some (f : Faults) (entries : List (Nat × PartnerUpdate))
    (hasc : Ascending entries) (t t' : Tx) (h : applyPartnerUpdates f entries t = some t') :
    t'.committed = t.committed ∧ t'.pending.ledger = t.pending.ledger ∧
      ∀ q, findPartner t'.pending.partners q =
        (findPartner t.pending.partners q).map (fun p => decremented p (entries.lookup q)) := by
  induction entries generalizing t with
  | nil =>
    simp only [applyPartnerUpdates, Option.some.injEq] at h
    subst h
    refine ⟨rfl, rfl, fun q => ?_⟩
    cases findPartner t.pending.partners q <;> simp [decremented]
  | cons e rest ih =>
    obtain ⟨k, u⟩ := e
    have hasc' := hasc
    unfold Ascending at hasc'
    rw [List.pairwise_cons] at hasc'
    have hrest : rest.lookup k = none :=
      lookup_eq_none_of_lt k rest (fun e he => hasc'.1 e he)
    simp only [applyPartnerUpdates] at h
    by_cases h1 : f.findPartner k = true
    · simp [h1] at h
    simp only [h1, Bool.false_eq_true, if_false] at h
    cases hp : findPartner t.pending.partners k with
    | none =>
      rw [hp] at h
      obtain ⟨hc, hl, hq⟩ := ih hasc'.2 t h
      refine ⟨hc, hl, fun q => ?_⟩
      rw [hq q, lookup_cons_if]
      by_cases hqk : q = k
      · subst hqk
        simp [hp]
      · simp [hqk]
    | some partner =>
      rw [hp] at h
      by_cases h2 : f.updatePartner k = true
      · simp [h2] at h
      simp only [h2, Bool.false_eq_true, if_false] at h
      obtain ⟨hc, hl, hq⟩ := ih hasc'.2 _ h
      refine ⟨hc, hl, fun q => ?_⟩
      rw [hq q, lookup_cons_if]
      simp only [Tx.updatePartner, findPartner_updatePartnerTotals]
      have hid := findPartner_id hp
      by_cases hqk : q = k
      · subst hqk
        simp [hp, hrest, hid, decremented]
      · rw [if_neg hqk]
        cases hfq : findPartner t.pending.partners q with
        | none => simp
        | some p =>
          have hpid := findPartner_id hfq
          have : ¬ p.id = partner.id := by rw [hpid, hid]; exact hqk
          simp [this]

theorem applyPartnerUpdates_total (f : Faults) (entries : List (Nat × PartnerUpdate)) (t : Tx)
    (hf : ∀ e ∈ entries, f.findPartner e.1 = false ∧ f.updatePartner e.1 = false) :
    ∃ t', applyPartnerUpdates f entries t = some t' := by
  induction entries generalizing t with
  | nil => exact ⟨t, rfl⟩
  | cons e rest ih =>
    obtain ⟨k, u⟩ := e
    obtain ⟨h1, h2⟩ := hf (k, u) (List.mem_cons_self _ _)
    simp only at h1 h2
    simp only [applyPartnerUpdates, h1, h2, Bool.false_eq_true, if_false]
    cases findPartner t.pending.partners k with
    | none => exact ih t (fun e he => hf e (List.mem_cons_of_mem _ he))
    | some partner => exact ih _ (fun e he => hf e (List.mem_cons_of_mem _ he))

/-! ## Bulk delete -/

theorem bookedUnder_found (ledger : List Revenue) (ids : List Nat) (pid : Nat) (h : pid ≠ 0) :
    bookedUnder (ledger.filter (fun r => ids.contains r.id)) pid = deletedOf ledger ids pid := by
  unfold bookedUnder deletedOf
  rw [List.filter_filter]
  apply List.filter_congr
  intro r _
  by_cases hr : r.partner_id = pid
  · simp [hr, h, Bool.and_comm]
  · have hf : (r.partner_id == pid) = false := by simpa using hr
    simp [hf]

theorem bookedUnder_zero (revenues : List Revenue) : bookedUnder revenues 0 = [] := by
  unfold bookedUnder
  rw [List.filter_eq_nil_iff]
  intro r _
  by_cases hr : r.partner_id = 0 <;> simp [hr]

/-- A successful bulk delete ran every statement of its transaction. -/
theorem bulkDelete_ok (s : Store) (ids : List Nat) (f : Faults)
    (hok : (bulkDelete s (.array ids) f).1.status = 200) :
    ids ≠ [] ∧ s.ledger.filter (fun r => ids.contains r.id) ≠ [] ∧
      ∃ t', applyPartnerUpdates f (partnerUpdates (s.ledger.filter (fun r => ids.contains r.id)))
          ((Tx.start s).destroyRevenues ids) = some t' ∧
        bulkDelete s (.array ids) f =
          (⟨200, true, toString (s.ledger.filter (fun r => ids.contains r.id)).length ++
            " data pendapatan berhasil dihapus", none⟩, t'.pending) := by
  unfold bulkDelete at hok ⊢
  simp only [Tx.start, Tx.rollback, Tx.commit] at hok ⊢
  by_cases h0 : (ids.length == 0) = true
  · rw [if_pos h0] at hok
    simp [serverError] at hok
  rw [if_neg h0] at hok ⊢
  by_cases h1 : f.findRevenue = true
  · rw [if_pos h1] at hok
    simp [serverError] at hok
  rw [if_neg h1] at hok ⊢
  by_cases h2 : ((s.ledger.filter (fun r => ids.contains r.id)).length == 0) = true
  · rw [if_pos h2] at hok
    simp [serverError] at hok
  rw [if_neg h2] at hok ⊢
  by_cases h3 : f.destroyRevenue = true
  · rw [if_pos h3] at hok
    simp [serverError] at hok
  rw [if_neg h3] at hok ⊢
  refine ⟨?_, ?_, ?_⟩
  · intro h
    rw [h] at h0
    exact h0 rfl
  · intro h
    rw [h] at h2
    exact h2 rfl
  · cases h4 : applyPartnerUpdates f
        (partnerUpdates (s.ledger.filter (fun r => ids.contains r.id)))
        (Tx.destroyRevenues ⟨s, s⟩ ids) with
    | none =>
      rw [h4] at hok
      simp [serverError] at hok
    | some t' => exact ⟨t', rfl, rfl⟩

/-- The partner registry after a successful bulk delete. -/
theorem bulkDelete_findPartner (s : Store) (ids : List Nat) (f : Faults)
    (hok : (bulkDelete s (.array ids) f).1.status = 200) (pid : Nat) :
    findPartner (bulkDelete s (.array ids) f).2.partners pid =
      (findPartner s.partners pid).map fun p =>
        if pid = 0 ∨ deletedOf s.ledger ids pid = [] then p
        else
          { p with
            total_transactions :=
              max 0 (p.total_transactions - (deletedOf s.ledger ids pid).length)
            total_amount :=
              max 0 (p.total_amount - ((deletedOf s.ledger ids pid).map (·.amount)).sum) } := by
  obtain ⟨_, _, t', happly, hres⟩ := bulkDelete_ok s ids f hok
  obtain ⟨hasc, hlook⟩ := partnerUpdates_lookup (s.ledger.filter (fun r => ids.contains r.id))
  obtain ⟨_, _, hq⟩ := applyPartnerUpdates_some f _ hasc _ t' happly
  rw [hres]
  simp only
  rw [hq pid, hlook pid]
  simp only [Tx.start, Tx.destroyRevenues]
  congr 1
  funext p
  by_cases hz : pid = 0
  · subst hz
    simp [bookedUnder_zero, decremented]
  · rw [bookedUnder_found _ _ _ hz]
    by_cases he : deletedOf s.ledger ids pid = []
    · simp [he, decremented]
    · simp [he, hz, decremented]

/-- C4. After a successful bulk delete, a partner referenced by deleted rows has
`total_transactions = max(0, prior - n)` and `total_amount = max(0, prior - a)`,
where `n` and `a` are the number and the amount sum of the ledger rows whose id
is in `ids` and whose partner it is: one decrement per partner. A partner
referenced by no deleted row keeps its totals. With non-negative prior totals
the formula holds for every partner with a positive key. -/
theorem bulkDelete_decrements_each_partner (s : Store) (ids : List Nat) (f : Faults)
    (hok : (bulkDelete s (.array ids) f).1.status = 200) (pid : Nat) (p : Partner)
    (hp : findPartner s.partners pid = some p) :
    (pid ≠ 0 → deletedOf s.ledger ids pid ≠ [] →
      findPartner (bulkDelete s (.array ids) f).2.partners pid =
        some { p with
          total_transactions :=
            max 0 (p.total_transactions - (deletedOf s.ledger ids pid).length)
          total_amount :=
            max 0 (p.total_amount - ((deletedOf s.ledger ids pid).map (·.amount)).sum) }) ∧
    (deletedOf s.ledger ids pid = [] →
      findPartner (bulkDelete s (.array ids) f).2.partners pid = some p) ∧
    (pid ≠ 0 → 0 ≤ p.total_transactions → 0 ≤ p.total_amount →
      findPartner (bulkDelete s (.array ids) f).2.partners pid =
        some { p with
          total_transactions :=
            max 0 (p.total_transactions - (deletedOf s.ledger ids pid).length)
          total_amount :=
            max 0 (p.total_amount - ((deletedOf s.ledger ids pid).map (·.amount)).sum) }) := by
  have h := bulkDelete_findPartner s ids f hok pid
  rw [hp] at h
  refine ⟨?_, ?_, ?_⟩
  · intro hz hne
    rw [h]
    simp [hz, hne]
  · intro he
    rw [h]
    simp [he]
  · intro hz h1 h2
    rw [h]
    by_cases he : deletedOf s.ledger ids pid = []
    · simp [he, h1, h2]
    · simp [hz, he]

theorem bulkDelete_congr (s : Store) (ids ids' : List Nat) (f : Faults)
    (h1 : ids ≠ []) (h2 : ids' ≠ [])
    (h : ∀ r ∈ s.ledger, ids.contains r.id = ids'.contains r.id) :
    bulkDelete s (.array ids) f = bulkDelete s (.array ids') f := by
  have hfound : s.ledger.filter (fun r => ids.contains r.id) =
      s.ledger.filter (fun r => ids'.contains r.id) :=
    List.filter_congr (fun r hr => h r hr)
  have hkept : s.ledger.filter (fun r => !ids.contains r.id) =
      s.ledger.filter (fun r => !ids'.contains r.id) :=
    List.filter_congr (fun r hr => by rw [h r hr])
  have hl1 : (ids.length == 0) = false := by
    cases ids with
    | nil => exact absurd rfl h1
    | cons a l => rfl
  have hl2 : (ids'.length == 0) = false := by
    cases ids' with
    | nil => exact absurd rfl h2
    | cons a l => rfl
  unfold bulkDelete
  simp only [Tx.start, Tx.destroyRevenues, hl1, hl2, hfound, hkept]

/-- C8. After a successful bulk delete the ledger is the prior ledger without
the rows whose id is in `ids`: a row is present afterwards exactly when it was
present before and its id is not in `ids`; ids that match no row have no
effect, the request behaves as the one that lists only the ids of existing rows. -/
theorem bulkDelete_removes_exactly_listed (s : Store) (ids : List Nat) (f : Faults)
    (hok : (bulkDelete s (.array ids) f).1.status = 200) :
    (bulkDelete s (.array ids) f).2.ledger = s.ledger.filter (fun r => !ids.contains r.id) ∧
    (∀ r, r ∈ (bulkDelete s (.array ids) f).2.ledger ↔ r ∈ s.ledger ∧ r.id ∉ ids) ∧
    bulkDelete s (.array (ids.filter fun i => s.ledger.any fun r => r.id == i)) f =
      bulkDelete s (.array ids) f := by
  obtain ⟨hne, hfound, t', happly, hres⟩ := bulkDelete_ok s ids f hok
  obtain ⟨hasc, _⟩ := partnerUpdates_lookup (s.ledger.filter (fun r => ids.contains r.id))
  obtain ⟨_, hl, _⟩ := applyPartnerUpdates_some f _ hasc _ t' happly
  have hledger : (bulkDelete s (.array ids) f).2.ledger =
      s.ledger.filter (fun r => !ids.contains r.id) := by
    rw [hres]
    simp only
    rw [hl]
    rfl
  refine ⟨hledger, ?_, ?_⟩
  · intro r
    rw [hledger, List.mem_filter]
    simp
  · obtain ⟨r, hr⟩ := List.exists_mem_of_ne_nil _ hfound
    rw [List.mem_filter] at hr
    have hrid : r.id ∈ ids := by simpa using hr.2
    apply bulkDelete_congr
    · apply List.ne_nil_of_mem (a := r.id)
      rw [List.mem_filter]
      refine ⟨hrid, ?_⟩
      rw [List.any_eq_true]
      exact ⟨r, hr.1, by simp⟩
    · exact hne
    · intro x hx
      rw [Bool.eq_iff_iff]
      simp only [List.elem_eq_mem, decide_eq_true_eq, List.mem_filter, List.any_eq_true,
        beq_iff_eq, List.contains_eq_any_beq]
      constructor
      · intro h
        exact h.1
      · intro h
        exact ⟨h, x, hx, rfl⟩

theorem bulkDelete_array_cases (s : Store) (ids : List Nat) (f : Faults) :
    (ids = [] ∧ bulkDelete s (.array ids) f =
        (⟨400, false, "IDs array is required", none⟩, s)) ∨
    (ids ≠ [] ∧ f.findRevenue = true ∧ bulkDelete s (.array ids) f = (serverError, s)) ∨
    (ids ≠ [] ∧ f.findRevenue = false ∧ (∀ r ∈ s.ledger, r.id ∉ ids) ∧
      bulkDelete s (.array ids) f = (⟨404, false, "No revenues found", none⟩, s)) ∨
    (ids ≠ [] ∧ f.findRevenue = false ∧ (∃ r ∈ s.ledger, r.id ∈ ids) ∧
      ((f.destroyRevenue = true ∧ bulkDelete s (.array ids) f = (serverError, s)) ∨
        (f.destroyRevenue = false ∧
          applyPartnerUpdates f
            (partnerUpdates (s.ledger.filter (fun r => ids.contains r.id)))
            ((Tx.start s).destroyRevenues ids) = none ∧
          bulkDelete s (.array ids) f = (serverError, s)) ∨
        ∃ t', applyPartnerUpdates f
            (partnerUpdates (s.ledger.filter (fun r => ids.contains r.id)))
            ((Tx.start s).destroyRevenues ids) = some t' ∧
          f.destroyRevenue = false ∧
          bulkDelete s (.array ids) f =
            (⟨200, true, toString (s.ledger.filter (fun r => ids.contains r.id)).length ++
              " data pendapatan berhasil dihapus", none⟩, t'.pending))) := by
  unfold bulkDelete
  simp only [Tx.start, Tx.rollback, Tx.commit]
  by_cases h0 : (ids.length == 0) = true
  · left
    rw [if_pos h0]
    refine ⟨?_, rfl⟩
    simpa using h0
  have hne : ids ≠ [] := by
    intro h
    rw [h] at h0
    exact h0 rfl
  right
  rw [if_neg h0]
  by_cases h1 : f.findRevenue = true
  · left
    rw [if_pos h1]
    exact ⟨hne, h1, rfl⟩
  right
  rw [if_neg h1]
  have h1' : f.findRevenue = false := by simpa using h1
  by_cases h2 : ((s.ledger.filter (fun r => ids.contains r.id)).length == 0) = true
  · left
    rw [if_pos h2]
    refine ⟨hne, h1', ?_, rfl⟩
    intro r hr hmem
    have hnil : s.ledger.filter (fun r => ids.contains r.id) = [] := by simpa using h2
    have : r ∈ s.ledger.filter (fun r => ids.contains r.id) :=
      List.mem_filter.2 ⟨hr, by simpa using hmem⟩
    rw [hnil] at this
    cases this
  right
  rw [if_neg h2]
  refine ⟨hne, h1', ?_, ?_⟩
  · have hnn : s.ledger.filter (fun r => ids.contains r.id) ≠ [] := by
      intro h
      rw [h] at h2
      exact h2 rfl
    obtain ⟨r, hr⟩ := List.exists_mem_of_ne_nil _ hnn
    rw [List.mem_filter] at hr
    exact ⟨r, hr.1, by simpa using hr.2⟩
  · by_cases h3 : f.destroyRevenue = true
    · left
      rw [if_pos h3]
      exact ⟨h3, rfl⟩
    · rw [if_neg h3]
      right
      cases h4 : applyPartnerUpdates f
          (partnerUpdates (s.ledger.filter (fun r => ids.contains r.id)))
          (Tx.destroyRevenues ⟨s, s⟩ ids) with
      | none => left; exact ⟨by simpa using h3, rfl, rfl⟩
      | some t' => right; exact ⟨t', rfl, by simpa using h3, rfl⟩

/-- C7. Bulk delete answers 400 exactly when `ids` is missing, not an array or
empty; otherwise (the lookup not failing) it answers 404 exactly when no ledger
row has an id in `ids`; otherwise, when no storage call throws, it succeeds and
its message reports the number of rows found. With a 400 or a 404 the ledger and
the partner registry are unchanged. -/
theorem bulkDelete_status (s : Store) (body : IdsField) :
    (∀ f, (bulkDelete s body f).1.status = 400 ↔
      (body = .missing ∨ body = .notArray ∨ body = .array [])) ∧
    (∀ f, f.findRevenue = false →
      ((bulkDelete s body f).1.status = 404 ↔
        ∃ ids, body = .array ids ∧ ids ≠ [] ∧ ∀ r ∈ s.ledger, r.id ∉ ids)) ∧
    (∀ ids, body = .array ids → ids ≠ [] → (∃ r ∈ s.ledger, r.id ∈ ids) →
      (bulkDelete s body noFaults).1 =
        ⟨200, true, toString (s.ledger.filter (fun r => ids.contains r.id)).length ++
          " data pendapatan berhasil dihapus", none⟩) ∧
    (∀ f, (bulkDelete s body f).1.status = 400 ∨ (bulkDelete s body f).1.status = 404 →
      (bulkDelete s body f).2 = s) := by
  cases body with
  | missing => simp [bulkDelete, Tx.start, Tx.rollback]
  | notArray => simp [bulkDelete, Tx.start, Tx.rollback]
  | array ids =>
    refine ⟨?_, ?_, ?_, ?_⟩
    · intro f
      rcases bulkDelete_array_cases s ids f with ⟨h0, h⟩ | ⟨h0, _, h⟩ | ⟨h0, _, _, h⟩ |
        ⟨h0, _, _, ⟨_, h⟩ | ⟨_, _, h⟩ | ⟨t', _, _, h⟩⟩ <;> rw [h] <;> simp [h0, serverError]
    · intro f hf
      rcases bulkDelete_array_cases s ids f with ⟨h0, h⟩ | ⟨h0, h1, h⟩ | ⟨h0, _, hnone, h⟩ |
        ⟨h0, _, hsome, ⟨_, h⟩ | ⟨_, _, h⟩ | ⟨t', _, _, h⟩⟩
      · rw [h]; simp [h0]
      · rw [hf] at h1; cases h1
      · rw [h]; simp [h0]; exact hnone
      · rw [h]
        obtain ⟨r, hr, hmem⟩ := hsome
        simp [serverError]
        intro _
        exact ⟨r, hr, hmem⟩
      · rw [h]
        obtain ⟨r, hr, hmem⟩ := hsome
        simp [serverError]
        intro _
        exact ⟨r, hr, hmem⟩
      · rw [h]
        obtain ⟨r, hr, hmem⟩ := hsome
        simp
        intro _
        exact ⟨r, hr, hmem⟩
    · intro ids' hb hne hsome
      cases hb
      obtain ⟨t', ht'⟩ := applyPartnerUpdates_total noFaults
        (partnerUpdates (s.ledger.filter (fun r => ids.contains r.id)))
        ((Tx.start s).destroyRevenues ids) (fun e _ => ⟨rfl, rfl⟩)
      rcases bulkDelete_array_cases s ids noFaults with ⟨h0, _⟩ | ⟨_, h1, _⟩ |
        ⟨_, _, hnone, _⟩ | ⟨_, _, _, ⟨h3, _⟩ | ⟨_, h4, _⟩ | ⟨t', _, _, h⟩⟩
      · exact absurd h0 hne
      · cases h1
      · obtain ⟨r, hr, hmem⟩ := hsome
        exact absurd hmem (hnone r hr)
      · cases h3
      · rw [ht'] at h4
        cases h4
      · rw [h]
    · intro f hst
      rcases bulkDelete_array_cases s ids f with ⟨h0, h⟩ | ⟨h0, _, h⟩ | ⟨h0, _, _, h⟩ |
        ⟨h0, _, _, ⟨_, h⟩ | ⟨_, _, h⟩ | ⟨t', _, _, h⟩⟩ <;> rw [h] at hst ⊢
      simp at hst

/-! ## Atomicity of the delete handlers -/

theorem applyPartnerUpdates_noFaults (f : Faults) (entries : List (Nat × PartnerUpdate))
    (t t' : Tx) (h : applyPartnerUpdates f entries t = some t') :
    applyPartnerUpdates noFaults entries t = some t' := by
  induction entries generalizing t with
  | nil => exact h
  | cons e rest ih =>
    obtain ⟨k, u⟩ := e
    simp only [applyPartnerUpdates] at h ⊢
    by_cases h1 : f.findPartner k = true
    · simp [h1] at h
    simp only [h1, Bool.false_eq_true, if_false] at h
    simp only [noFaults, Bool.false_eq_true, if_false]
    cases hp : findPartner t.pending.partners k with
    | none =>
      rw [hp] at h
      exact ih t h
    | some partner =>
      rw [hp] at h
      by_cases h2 : f.updatePartner k = true
      · simp [h2] at h
      simp only [h2, Bool.false_eq_true, if_false] at h
      exact ih _ h

theorem applyPartnerUpdates_fails (f : Faults) (entries : List (Nat × PartnerUpdate)) (t : Tx)
    (k : Nat) (hk : k ∈ entries.map Prod.fst)
    (hp : (findPartner t.pending.partners k).isSome = true)
    (hf : f.findPartner k = true ∨ f.updatePartner k = true) :
    applyPartnerUpdates f entries t = none := by
  induction entries generalizing t with
  | nil => simp at hk
  | cons e rest ih =>
    obtain ⟨k0, u0⟩ := e
    simp only [applyPartnerUpdates]
    by_cases h1 : f.findPartner k0 = true
    · simp [h1]
    simp only [h1, Bool.false_eq_true, if_false]
    by_cases hkk : k = k0
    · subst hkk
      cases hfp : findPartner t.pending.partners k with
      | none => rw [hfp] at hp; cases hp
      | some partner =>
        rcases hf with hf | hf
        · exact absurd hf h1
        · simp [hf]
    · have hk' : k ∈ rest.map Prod.fst := by
        simp only [List.map_cons, List.mem_cons] at hk
        rcases hk with hk | hk
        · exact absurd hk hkk
        · exact hk
      cases hfp : findPartner t.pending.partners k0 with
      | none => exact ih t hk' hp
      | some partner =>
        by_cases h2 : f.updatePartner k0 = true
        · simp [h2]
        simp only [h2, Bool.false_eq_true, if_false]
        apply ih _ hk'
        simp only [Tx.updatePartner, findPartner_updatePartnerTotals]
        cases hq : findPartner t.pending.partners k with
        | none => rw [hq] at hp; cases hp
        | some _ => rfl

theorem mem_keys_of_lookup (entries : List (Nat × PartnerUpdate)) (k : Nat)
    (h : entries.lookup k ≠ none) : k ∈ entries.map Prod.fst := by
  induction entries with
  | nil => simp at h
  | cons e rest ih =>
    obtain ⟨k0, u0⟩ := e
    rw [lookup_cons_if] at h
    by_cases hk : k = k0
    · simp [hk]
    · rw [if_neg hk] at h
      simp only [List.map_cons, List.mem_cons]
      exact Or.inr (ih h)

theorem deleteRevenue_cases (s : Store) (id : Nat) (f : Faults) :
    deleteRevenue s id f = (serverError, s) ∨
    (findRevenue s.ledger id = none ∧
      deleteRevenue s id f = (⟨404, false, "Data pendapatan tidak ditemukan", none⟩, s)) ∨
    ((deleteRevenue s id f).1.status = 200 ∧ deleteRevenue s id f = deleteRevenue s id noFaults) := by
  unfold deleteRevenue
  simp only [Tx.start, Tx.rollback, Tx.commit, Tx.destroyRevenue, Tx.updatePartner]
  by_cases h1 : f.findRevenue = true
  · left; rw [if_pos h1]
  rw [if_neg h1]
  simp only [noFaults, Bool.false_eq_true, if_false]
  cases hrow : findRevenue s.ledger id with
  | none => right; left; exact ⟨rfl, rfl⟩
  | some revenue =>
    simp only
    by_cases h2 : f.destroyRevenue = true
    · left; rw [if_pos h2]
    rw [if_neg h2]
    by_cases hz : (revenue.partner_id != 0) = true
    · simp only [hz, if_true]
      by_cases h3 : f.findPartner revenue.partner_id = true
      · left; rw [if_pos h3]
      rw [if_neg h3]
      cases hp : findPartner s.partners revenue.partner_id with
      | none => right; right; exact ⟨rfl, rfl⟩
      | some partner =>
        simp only
        by_cases h4 : f.updatePartner revenue.partner_id = true
        · left; rw [if_pos h4]
        rw [if_neg h4]
        right; right; exact ⟨rfl, rfl⟩
    · simp only [hz, if_false]
      right; right; exact ⟨rfl, rfl⟩

theorem deleteRevenue_fault (s : Store) (id : Nat) (f : Faults) (revenue : Revenue)
    (hrow : findRevenue s.ledger id = some revenue)
    (hf : f.destroyRevenue = true ∨
      (revenue.partner_id ≠ 0 ∧ (findPartner s.partners revenue.partner_id).isSome = true ∧
        f.updatePartner revenue.partner_id = true)) :
    deleteRevenue s id f = (serverError, s) := by
  unfold deleteRevenue
  simp only [Tx.start, Tx.rollback, Tx.commit, Tx.destroyRevenue, Tx.updatePartner, hrow]
  by_cases h1 : f.findRevenue = true
  · rw [if_pos h1]
  rw [if_neg h1]
  by_cases h2 : f.destroyRevenue = true
  · rw [if_pos h2]
  rw [if_neg h2]
  rcases hf with hf | ⟨hz, hp, hu⟩
  · exact absurd hf h2
  have hz' : (revenue.partner_id != 0) = true := by simpa using hz
  rw [if_pos hz']
  by_cases h3 : f.findPartner revenue.partner_id = true
  · rw [if_pos h3]
  rw [if_neg h3]
  cases hfp : findPartner s.partners revenue.partner_id with
  | none => rw [hfp] at hp; cases hp
  | some partner =>
    simp only
    rw [if_pos hu]

theorem bulkDelete_cases (s : Store) (body : IdsField) (f : Faults) :
    ((bulkDelete s body f).1.status ≠ 200 ∧ (bulkDelete s body f).2 = s) ∨
    ((bulkDelete s body f).1.status = 200 ∧ bulkDelete s body f = bulkDelete s body noFaults) := by
  cases body with
  | missing => left; exact ⟨by simp [bulkDelete], rfl⟩
  | notArray => left; exact ⟨by simp [bulkDelete], rfl⟩
  | array ids =>
    rcases bulkDelete_array_cases s ids f with ⟨h0, h⟩ | ⟨h0, _, h⟩ | ⟨h0, _, _, h⟩ |
      ⟨h0, hfr, hsome, ⟨_, h⟩ | ⟨_, _, h⟩ | ⟨t', happly, hd, h⟩⟩
    · left; rw [h]; exact ⟨by simp [serverError], rfl⟩
    · left; rw [h]; exact ⟨by simp [serverError], rfl⟩
    · left; rw [h]; exact ⟨by simp [serverError], rfl⟩
    · left; rw [h]; exact ⟨by simp [serverError], rfl⟩
    · left; rw [h]; exact ⟨by simp [serverError], rfl⟩
    · right
      refine ⟨by rw [h], ?_⟩
      have happly' := applyPartnerUpdates_noFaults f _ _ t' happly
      rcases bulkDelete_array_cases s ids noFaults with ⟨h0', _⟩ | ⟨_, h1, _⟩ |
        ⟨_, _, hnone, _⟩ | ⟨_, _, _, ⟨h3, _⟩ | ⟨_, h4, _⟩ | ⟨t'', happly'', _, h'⟩⟩
      · exact absurd h0' h0
      · cases h1
      · obtain ⟨r, hr, hmem⟩ := hsome
        exact absurd hmem (hnone r hr)
      · cases h3
      · rw [happly'] at h4
        cases h4
      · rw [happly'] at happly''
        cases happly''
        rw [h, h']

theorem bulkDelete_fault (s : Store) (ids : List Nat) (f : Faults)
    (hf : (f.destroyRevenue = true ∧ ∃ r ∈ s.ledger, r.id ∈ ids) ∨
      ∃ pid, pid ≠ 0 ∧ deletedOf s.ledger ids pid ≠ [] ∧
        (findPartner s.partners pid).isSome = true ∧ f.updatePartner pid = true) :
    bulkDelete s (.array ids) f = (serverError, s) := by
  rcases bulkDelete_array_cases s ids f with ⟨h0, h⟩ | ⟨h0, _, h⟩ | ⟨h0, _, hnone, h⟩ |
    ⟨h0, hfr, hsome, ⟨_, h⟩ | ⟨_, _, h⟩ | ⟨t', happly, hd, h⟩⟩
  · exfalso
    subst h0
    rcases hf with ⟨_, r, _, hr⟩ | ⟨pid, _, hne, _⟩
    · cases hr
    · apply hne
      simp [deletedOf]
  · exact h
  · exfalso
    rcases hf with ⟨_, r, hr, hmem⟩ | ⟨pid, _, hne, _⟩
    · exact hnone r hr hmem
    · obtain ⟨r, hr⟩ := List.exists_mem_of_ne_nil _ hne
      simp only [deletedOf, List.mem_filter, Bool.and_eq_true] at hr
      exact hnone r hr.1 (by simpa using hr.2.1)
  · exact h
  · exact h
  · exfalso
    rcases hf with ⟨hd', _⟩ | ⟨pid, hz, hne, hp, hu⟩
    · rw [hd] at hd'
      cases hd'
    · have hlook := (partnerUpdates_lookup (s.ledger.filter (fun r => ids.contains r.id))).2 pid
      rw [bookedUnder_found _ _ _ hz, if_neg hne] at hlook
      have hk := mem_keys_of_lookup _ pid (by rw [hlook]; simp)
      have := applyPartnerUpdates_fails f _ ((Tx.start s).destroyRevenues ids) pid hk hp
        (Or.inr hu)
      rw [this] at happly
      cases happly

/-- C9. Single delete and bulk delete are atomic. An answer 500 leaves ledger and
partner registry as they were; the final state is either the state before the
request or the state of the run without any failure, never one with only part
of the writes; and a failing row deletion or partner-total update (of a partner
that exists) makes the handler answer 500 with the state unchanged. -/
theorem delete_atomic (s : Store) (f : Faults) :
    (∀ id, (deleteRevenue s id f).1.status = 500 → (deleteRevenue s id f).2 = s) ∧
    (∀ id, (deleteRevenue s id f).2 = s ∨
      deleteRevenue s id f = deleteRevenue s id noFaults) ∧
    (∀ id revenue, findRevenue s.ledger id = some revenue →
      (f.destroyRevenue = true ∨
        (revenue.partner_id ≠ 0 ∧ (findPartner s.partners revenue.partner_id).isSome = true ∧
          f.updatePartner revenue.partner_id = true)) →
      (deleteRevenue s id f).1.status = 500 ∧ (deleteRevenue s id f).2 = s) ∧
    (∀ body, (bulkDelete s body f).1.status = 500 → (bulkDelete s body f).2 = s) ∧
    (∀ body, (bulkDelete s body f).2 = s ∨
      bulkDelete s body f = bulkDelete s body noFaults) ∧
    (∀ ids,
      ((f.destroyRevenue = true ∧ ∃ r ∈ s.ledger, r.id ∈ ids) ∨
        ∃ pid, pid ≠ 0 ∧ deletedOf s.ledger ids pid ≠ [] ∧
          (findPartner s.partners pid).isSome = true ∧ f.updatePartner pid = true) →
      (bulkDelete s (.array ids) f).1.status = 500 ∧ (bulkDelete s (.array ids) f).2 = s) := by
  refine ⟨?_, ?_, ?_, ?_, ?_, ?_⟩
  · intro id h500
    rcases deleteRevenue_cases s id f with h | ⟨_, h⟩ | ⟨h200, _⟩
    · rw [h]
    · rw [h]
    · rw [h200] at h500
      cases h500
  · intro id
    rcases deleteRevenue_cases s id f with h | ⟨_, h⟩ | ⟨_, h⟩
    · left; rw [h]
    · left; rw [h]
    · right; exact h
  · intro id revenue hrow hf
    rw [deleteRevenue_fault s id f revenue hrow hf]
    exact ⟨rfl, rfl⟩
  · intro body h500
    rcases bulkDelete_cases s body f with ⟨_, h⟩ | ⟨h200, _⟩
    · exact h
    · rw [h200] at h500
      cases h500
  · intro body
    rcases bulkDelete_cases s body f with ⟨_, h⟩ | ⟨_, h⟩
    · left; exact h
    · right; exact h
  · intro ids hf
    rw [bulkDelete_fault s ids f hf]
    exact ⟨rfl, rfl⟩

theorem delete_atomic_witness :
    (findRevenue sampleStore.ledger 1 = some (sampleRow 1 2024 3 15 1 "aeronautika" 5000) ∧
      partnerOneUpdateFails.updatePartner 1 = true) ∧
    ((deleteRevenue sampleStore 1 partnerOneUpdateFails).1.status = 500 ∧
      (deleteRevenue sampleStore 1 partnerOneUpdateFails).2 = sampleStore) ∧
    ((bulkDelete sampleStore (.array [1, 2, 9]) partnerOneUpdateFails).1.status = 500 ∧
      (bulkDelete sampleStore (.array [1, 2, 9]) partnerOneUpdateFails).2 = sampleStore) :=
  ⟨by decide,
    (delete_atomic sampleStore partnerOneUpdateFails).2.2.1 1
      (sampleRow 1 2024 3 15 1 "aeronautika" 5000) (by decide)
      (Or.inr ⟨by decide, by decide, by decide⟩),
    (delete_atomic sampleStore partnerOneUpdateFails).2.2.2.2.2 [1, 2, 9]
      (Or.inr ⟨1, by decide, by decide, by decide, by decide⟩)⟩

/-! ## Create -/

theorem insertRevenue_cases (ledger : List Revenue) (row : Revenue) (f : Faults) :
    insertRevenue ledger row f = .error .other ∨
    insertRevenue ledger row f = .error .uniqueConstraint ∨
    insertRevenue ledger row f =
      .ok ({ row with id := freshId ledger }, ledger ++ [{ row with id := freshId ledger }]) := by
  unfold insertRevenue
  by_cases h1 : f.createRevenue = true
  · left; rw [if_pos h1]
  rw [if_neg h1]
  by_cases h2 : (row.invoice_number.isSome &&
      ledger.any (fun r => r.invoice_number == row.invoice_number)) = true
  · right; left; rw [if_pos h2]
  · right; right; rw [if_neg h2]

/-- C6. A create never changes the partner registry; a successful create (201)
leaves the totals of every partner, the referenced one included, as they were
and adds exactly one row, the new one, to the ledger. -/
theorem createRevenue_keeps_partner_totals (s : Store) (b : CreateBody) (f : Faults) :
    (createRevenue s b f).2.partners = s.partners ∧
    ((createRevenue s b f).1.status = 201 →
      ∃ row, (createRevenue s b f).2.ledger = s.ledger ++ [row] ∧
        b.partner_id = some row.partner_id ∧ b.amount = some row.amount ∧
        (∃ p, findPartner s.partners row.partner_id = some p ∧
          findPartner (createRevenue s b f).2.partners row.partner_id = some p) ∧
        ∀ pid, findPartner (createRevenue s b f).2.partners pid = findPartner s.partners pid) := by
  unfold createRevenue
  by_cases hv : (!(validateCreate b).isEmpty) = true
  · rw [if_pos hv]
    exact ⟨rfl, fun h => by simp at h⟩
  rw [if_neg hv]
  cases hd : b.date with
  | none => exact ⟨rfl, fun h => by simp at h⟩
  | some date =>
    cases hpid : b.partner_id with
    | none => exact ⟨rfl, fun h => by simp at h⟩
    | some partner_id =>
      cases ha : b.amount with
      | none => exact ⟨rfl, fun h => by simp at h⟩
      | some amount =>
        simp only
        by_cases h1 : f.findPartner partner_id = true
        · rw [if_pos h1]
          exact ⟨rfl, fun h => by simp [serverError] at h⟩
        rw [if_neg h1]
        cases hp : findPartner s.partners partner_id with
        | none => exact ⟨rfl, fun h => by simp at h⟩
        | some p =>
          simp only
          rcases insertRevenue_cases s.ledger
              { id := 0, date := date, partner_id := partner_id, category := b.category,
                service_type := b.service_type, amount := amount,
                payment_status := b.payment_status, payment_method := b.payment_method,
                invoice_number := b.invoice_number, description := b.description,
                period_start := b.period_start, period_end := b.period_end } f with h | h | h
          · rw [h]
            exact ⟨rfl, fun h => by simp [serverError] at h⟩
          · rw [h]
            exact ⟨rfl, fun h => by simp at h⟩
          · rw [h]
            simp only
            by_cases h3 : f.findRevenue = true
            · rw [if_pos h3]
              exact ⟨rfl, fun h => by simp [serverError] at h⟩
            rw [if_neg h3]
            exact ⟨rfl, fun _ => ⟨_, rfl, rfl, rfl, ⟨p, hp, hp⟩, fun _ => rfl⟩⟩

theorem createRevenue_keeps_partner_totals_witness :
    (createRevenue sampleStore sampleBody noFaults).1.status = 201 ∧
    (∃ row, (createRevenue sampleStore sampleBody noFaults).2.ledger =
        sampleStore.ledger ++ [row] ∧
      sampleBody.partner_id = some row.partner_id ∧ sampleBody.amount = some row.amount ∧
      (∃ p, findPartner sampleStore.partners row.partner_id = some p ∧
        findPartner (createRevenue sampleStore sampleBody noFaults).2.partners row.partner_id =
          some p) ∧
      ∀ pid, findPartner (createRevenue sampleStore sampleBody noFaults).2.partners pid =
        findPartner sampleStore.partners pid) :=
  ⟨by decide,
    (createRevenue_keeps_partner_totals sampleStore sampleBody noFaults).2 (by decide)⟩

/-! ## Rounding to binary64 -/

theorem roundHalfEven_sub_le (x : ℚ) : |(roundHalfEven x : ℚ) - x| ≤ 1 / 2 := by
  have h1 := Int.floor_le x
  have h2 := Int.lt_floor_add_one x
  unfold roundHalfEven
  split_ifs with ha hb hc
  · rw [abs_le]; constructor <;> linarith
  · rw [abs_le]; push_cast; constructor <;> linarith
  · rw [abs_le]; constructor <;> linarith
  · rw [abs_le]; push_cast; constructor <;> linarith

theorem roundHalfEven_intCast (n : ℤ) : roundHalfEven (n : ℚ) = n := by
  unfold roundHalfEven
  simp

/-- An exact number at distance less than one half from an integer is rounded to it. -/
theorem roundHalfEven_eq_of_lt (x : ℚ) (n : ℤ) (h : |x - n| < 1 / 2) : roundHalfEven x = n := by
  have hr := roundHalfEven_sub_le x
  rw [abs_lt] at h
  rw [abs_le] at hr
  have h1 : ((roundHalfEven x : ℤ) : ℚ) - n < 1 := by linarith
  have h2 : (-1 : ℚ) < ((roundHalfEven x : ℤ) : ℚ) - n := by linarith
  have h3 : roundHalfEven x - n < 1 := by exact_mod_cast h1
  have h4 : -1 < roundHalfEven x - n := by exact_mod_cast h2
  omega

theorem roundHalfEven_mono (x y : ℚ) (h : x ≤ y) : roundHalfEven x ≤ roundHalfEven y := by
  by_contra hlt
  rw [not_le] at hlt
  have hx := roundHalfEven_sub_le x
  have hy := roundHalfEven_sub_le y
  rw [abs_le] at hx hy
  have h1 : ((roundHalfEven y : ℤ) : ℚ) + 1 ≤ roundHalfEven x := by exact_mod_cast hlt
  have hxy : x = y := by linarith
  subst hxy
  exact absurd hlt (lt_irrefl _)

theorem roundHalfEven_neg (x : ℚ) : roundHalfEven (-x) = -roundHalfEven x := by
  by_cases hint : (⌊x⌋ : ℚ) = x
  · rw [← hint, ← Int.cast_neg, roundHalfEven_intCast, roundHalfEven_intCast]
  · have h1 := Int.floor_le x
    have h2 := Int.lt_floor_add_one x
    have hlt : (⌊x⌋ : ℚ) < x := lt_of_le_of_ne h1 hint
    have hfloor : ⌊-x⌋ = -⌊x⌋ - 1 := by
      rw [Int.floor_eq_iff]
      push_cast
      constructor <;> linarith
    unfold roundHalfEven
    rw [hfloor]
    push_cast
    split_ifs <;> first | omega | (exfalso; linarith)

theorem binade_eq (x : ℚ) (e : ℤ) (hlo : (2 : ℚ) ^ e ≤ |x|) (hhi : |x| < (2 : ℚ) ^ (e + 1))
    (he : -1022 ≤ e) : binade x = e := by
  have hpos : 0 < |x| := lt_of_lt_of_le (zpow_pos (by norm_num) e) hlo
  have h1 : e ≤ Int.log 2 |x| := by
    have := (Int.zpow_le_iff_le_log (b := 2) (by norm_num) hpos (x := e)).1
    exact this (by exact_mod_cast hlo)
  have h2 : Int.log 2 |x| < e + 1 := by
    have := (Int.lt_zpow_iff_log_lt (b := 2) (by norm_num) hpos (x := e + 1)).1
    exact this (by exact_mod_cast hhi)
  unfold binade
  rw [max_eq_left (by omega)]
  omega

/-- The bounds of the binade: the number is below twice the power of two, and
above the power of two unless it is subnormal. -/
theorem binade_bounds (x : ℚ) :
    -1022 ≤ binade x ∧ |x| < (2 : ℚ) ^ (binade x + 1) ∧
      ((2 : ℚ) ^ (-1022 : ℤ) ≤ |x| → (2 : ℚ) ^ binade x ≤ |x|) := by
  refine ⟨le_max_right _ _, ?_, ?_⟩
  · have h := Int.lt_zpow_succ_log_self (b := 2) (by norm_num) |x|
    have hle : Int.log 2 |x| + 1 ≤ binade x + 1 := by
      have : Int.log 2 |x| ≤ binade x := le_max_left _ _
      omega
    calc |x| < (2 : ℚ) ^ (Int.log 2 |x| + 1) := by exact_mod_cast h
      _ ≤ (2 : ℚ) ^ (binade x + 1) := zpow_le_zpow_right₀ (by norm_num) hle
  · intro hx
    have hpos : 0 < |x| := lt_of_lt_of_le (zpow_pos (by norm_num) _) hx
    have h1 : (-1022 : ℤ) ≤ Int.log 2 |x| := by
      have := (Int.zpow_le_iff_le_log (b := 2) (by norm_num) hpos (x := -1022)).1
      exact this (by exact_mod_cast hx)
    have hb : binade x = Int.log 2 |x| := max_eq_left h1
    rw [hb]
    have := Int.zpow_log_le_self (b := 2) (by norm_num) hpos
    exact_mod_cast this

theorem toDouble_zero : toDouble 0 = 0 := by
  simp [toDouble, roundHalfEven]

theorem binade_neg (x : ℚ) : binade (-x) = binade x := by
  unfold binade
  rw [abs_neg]

theorem toDouble_neg (x : ℚ) : toDouble (-x) = -toDouble x := by
  unfold toDouble
  rw [binade_neg, neg_div, roundHalfEven_neg]
  push_cast
  ring

/-- The rounding error is at most half a unit of the last place. -/
theorem toDouble_sub_le (x : ℚ) :
    |toDouble x - x| ≤ (2 : ℚ) ^ (binade x - 52) / 2 := by
  have hq : (0 : ℚ) < (2 : ℚ) ^ (binade x - 52) := zpow_pos (by norm_num) _
  have hr := roundHalfEven_sub_le (x / (2 : ℚ) ^ (binade x - 52))
  have hx : toDouble x - x =
      ((roundHalfEven (x / (2 : ℚ) ^ (binade x - 52)) : ℚ) - x / (2 : ℚ) ^ (binade x - 52)) *
        (2 : ℚ) ^ (binade x - 52) := by
    unfold toDouble
    field_simp
  rw [hx, abs_mul, abs_of_pos hq]
  calc _ ≤ 1 / 2 * (2 : ℚ) ^ (binade x - 52) := mul_le_mul_of_nonneg_right hr hq.le
    _ = (2 : ℚ) ^ (binade x - 52) / 2 := by ring

/-- Outside the subnormal range the rounding error is at most `2 ^ (-53)` of
the number. -/
theorem toDouble_error (x : ℚ) (hx : (2 : ℚ) ^ (-1022 : ℤ) ≤ |x|) :
    |toDouble x - x| ≤ |x| * (2 : ℚ) ^ (-53 : ℤ) := by
  have h := toDouble_sub_le x
  have hb := (binade_bounds x).2.2 hx
  have hsplit : (2 : ℚ) ^ (binade x - 52) / 2 = (2 : ℚ) ^ binade x * (2 : ℚ) ^ (-53 : ℤ) := by
    rw [show binade x - 52 = binade x + (-52) by ring, zpow_add₀ (by norm_num)]
    norm_num
    ring
  rw [hsplit] at h
  calc _ ≤ (2 : ℚ) ^ binade x * (2 : ℚ) ^ (-53 : ℤ) := h
    _ ≤ |x| * (2 : ℚ) ^ (-53 : ℤ) :=
      mul_le_mul_of_nonneg_right hb (zpow_pos (by norm_num) _).le

/-- The value of `toDouble` once the binade is known. -/
theorem toDouble_eq (x : ℚ) (e n : ℤ) (hlo : (2 : ℚ) ^ e ≤ |x|)
    (hhi : |x| < (2 : ℚ) ^ (e + 1)) (he : -1022 ≤ e)
    (hn : |x / (2 : ℚ) ^ (e - 52) - n| < 1 / 2) :
    toDouble x = (n : ℚ) * (2 : ℚ) ^ (e - 52) := by
  unfold toDouble
  rw [binade_eq x e hlo hhi he, roundHalfEven_eq_of_lt _ n hn]

/-- A number with a mantissa of at most 53 bits and an exponent in the range
is a binary64 number: rounding returns it. -/
theorem binade_subnormal (x : ℚ) (hpos : 0 < |x|) (hsub : |x| < (2 : ℚ) ^ (-1022 : ℤ)) :
    binade x = -1022 := by
  unfold binade
  apply max_eq_right
  have := (Int.lt_zpow_iff_log_lt (b := 2) (by norm_num) hpos (x := -1022)).1
    (by exact_mod_cast hsub)
  omega

theorem toDouble_of_mantissa (n k : ℤ) (hn : |n| < 2 ^ 53) (hk : -1074 ≤ k) :
    toDouble ((n : ℚ) * (2 : ℚ) ^ k) = (n : ℚ) * (2 : ℚ) ^ k := by
  have h2 : (0 : ℚ) < 2 := by norm_num
  by_cases hzero : n = 0
  · rw [hzero]
    simp [toDouble_zero]
  have hpos : 0 < |(n : ℚ) * (2 : ℚ) ^ k| := by
    rw [abs_pos]
    exact mul_ne_zero (by exact_mod_cast hzero) (zpow_pos h2 k).ne'
  have hb := binade_bounds ((n : ℚ) * (2 : ℚ) ^ k)
  have hexp : binade ((n : ℚ) * (2 : ℚ) ^ k) - 52 ≤ k := by
    by_cases hsub : (2 : ℚ) ^ (-1022 : ℤ) ≤ |(n : ℚ) * (2 : ℚ) ^ k|
    · have hlo := hb.2.2 hsub
      have hlt : |(n : ℚ) * (2 : ℚ) ^ k| < (2 : ℚ) ^ (53 + k) := by
        rw [abs_mul, abs_of_pos (zpow_pos h2 k), zpow_add₀ h2.ne']
        have hn2 : |(n : ℚ)| < (2 : ℚ) ^ (53 : ℤ) := by
          have : ((|n| : ℤ) : ℚ) < ((2 ^ 53 : ℤ) : ℚ) := by exact_mod_cast hn
          rw [Int.cast_abs] at this
          norm_num at this ⊢
          exact this
        exact mul_lt_mul_of_pos_right hn2 (zpow_pos h2 k)
      have hpow : (2 : ℚ) ^ binade ((n : ℚ) * (2 : ℚ) ^ k) < (2 : ℚ) ^ (53 + k) :=
        lt_of_le_of_lt hlo hlt
      have := (zpow_lt_zpow_iff_right₀ (by norm_num : (1 : ℚ) < 2)).1 hpow
      omega
    · rw [not_le] at hsub
      rw [binade_subnormal _ hpos hsub]
      omega
  obtain ⟨j, hj⟩ : ∃ j : ℕ, k = binade ((n : ℚ) * (2 : ℚ) ^ k) - 52 + j :=
    ⟨(k - (binade ((n : ℚ) * (2 : ℚ) ^ k) - 52)).toNat, by omega⟩
  have hdiv : (n : ℚ) * (2 : ℚ) ^ k / (2 : ℚ) ^ (binade ((n : ℚ) * (2 : ℚ) ^ k) - 52) =
      ((n * 2 ^ j : ℤ) : ℚ) := by
    have hq : (2 : ℚ) ^ (binade ((n : ℚ) * (2 : ℚ) ^ k) - 52) ≠ 0 := (zpow_pos h2 _).ne'
    rw [div_eq_iff hq]
    nth_rewrite 1 [hj]
    rw [zpow_add₀ h2.ne', zpow_natCast]
    push_cast
    ring
  unfold toDouble
  rw [hdiv, roundHalfEven_intCast, ← hdiv]
  field_simp

theorem toDouble_intCast (n : ℤ) (hn : |n| < 2 ^ 53) : toDouble (n : ℚ) = n := by
  have := toDouble_of_mantissa n 0 hn (by norm_num)
  simpa using this

theorem toDouble_nonneg (x : ℚ) (hx : 0 ≤ x) : 0 ≤ toDouble x := by
  unfold toDouble
  have hq : (0 : ℚ) < (2 : ℚ) ^ (binade x - 52) := zpow_pos (by norm_num) _
  have h0 : roundHalfEven 0 ≤ roundHalfEven (x / (2 : ℚ) ^ (binade x - 52)) :=
    roundHalfEven_mono _ _ (div_nonneg hx hq.le)
  have h1 : roundHalfEven (0 : ℚ) = 0 := by
    have := roundHalfEven_intCast 0
    simpa using this
  rw [h1] at h0
  exact mul_nonneg (by exact_mod_cast h0) hq.le

theorem toDouble_abs (x : ℚ) : toDouble |x| = |toDouble x| := by
  rcases le_total 0 x with h | h
  · rw [abs_of_nonneg h, abs_of_nonneg (toDouble_nonneg x h)]
  · have h2 : 0 ≤ toDouble (-x) := toDouble_nonneg _ (by linarith)
    rw [toDouble_neg] at h2
    rw [abs_of_nonpos h, abs_of_nonpos (by linarith), toDouble_neg]

/-- Rounding keeps the order of nonnegative numbers. -/
theorem toDouble_mono_nonneg (x y : ℚ) (hx : 0 ≤ x) (h : x ≤ y) : toDouble x ≤ toDouble y := by
  have h2 : (0 : ℚ) < 2 := by norm_num
  have hy : 0 ≤ y := le_trans hx h
  rcases eq_or_lt_of_le hx with h0 | hxpos
  · rw [← h0, toDouble_zero]
    exact toDouble_nonneg y hy
  have hypos : 0 < y := lt_of_lt_of_le hxpos h
  have hbx := binade_bounds x
  have hby := binade_bounds y
  rw [abs_of_nonneg hx] at hbx
  rw [abs_of_nonneg hy] at hby
  have hle : binade x ≤ binade y := by
    unfold binade
    apply max_le_max_right
    rw [abs_of_nonneg hx, abs_of_nonneg hy]
    exact Int.log_mono_right hxpos h
  have hqx : (0 : ℚ) < (2 : ℚ) ^ (binade x - 52) := zpow_pos h2 _
  have hqy : (0 : ℚ) < (2 : ℚ) ^ (binade y - 52) := zpow_pos h2 _
  rcases eq_or_lt_of_le hle with heq | hlt
  · unfold toDouble
    rw [heq]
    have := roundHalfEven_mono (x / (2 : ℚ) ^ (binade y - 52)) (y / (2 : ℚ) ^ (binade y - 52))
      (div_le_div_of_nonneg_right h hqy.le)
    exact mul_le_mul_of_nonneg_right (by exact_mod_cast this) hqy.le
  · have hynorm : (2 : ℚ) ^ (-1022 : ℤ) ≤ y := by
      by_contra hsub
      rw [not_le] at hsub
      have := binade_subnormal y (by rw [abs_of_pos hypos]; exact hypos)
        (by rw [abs_of_pos hypos]; exact hsub)
      have := hbx.1
      omega
    have hylo := hby.2.2 hynorm
    have hxup : toDouble x ≤ (2 : ℚ) ^ (binade x + 1) := by
      have hm : x / (2 : ℚ) ^ (binade x - 52) ≤ ((2 ^ 53 : ℤ) : ℚ) := by
        rw [div_le_iff₀ hqx]
        have : ((2 ^ 53 : ℤ) : ℚ) * (2 : ℚ) ^ (binade x - 52) = (2 : ℚ) ^ (binade x + 1) := by
          rw [show binade x + 1 = 53 + (binade x - 52) by ring, zpow_add₀ h2.ne']
          norm_num
        rw [this]
        exact hbx.2.1.le
      have hr := roundHalfEven_mono _ _ hm
      rw [roundHalfEven_intCast] at hr
      unfold toDouble
      calc _ ≤ ((2 ^ 53 : ℤ) : ℚ) * (2 : ℚ) ^ (binade x - 52) :=
            mul_le_mul_of_nonneg_right (by exact_mod_cast hr) hqx.le
        _ = (2 : ℚ) ^ (binade x + 1) := by
          rw [show binade x + 1 = 53 + (binade x - 52) by ring, zpow_add₀ h2.ne']
          norm_num
    have hylow : (2 : ℚ) ^ binade y ≤ toDouble y := by
      have hm : ((2 ^ 52 : ℤ) : ℚ) ≤ y / (2 : ℚ) ^ (binade y - 52) := by
        rw [le_div_iff₀ hqy]
        have : ((2 ^ 52 : ℤ) : ℚ) * (2 : ℚ) ^ (binade y - 52) = (2 : ℚ) ^ binade y := by
          nth_rewrite 2 [show binade y = 52 + (binade y - 52) by ring]
          rw [zpow_add₀ h2.ne']
          norm_num
        rw [this]
        exact hylo
      have hr := roundHalfEven_mono _ _ hm
      rw [roundHalfEven_intCast] at hr
      unfold toDouble
      calc (2 : ℚ) ^ binade y = ((2 ^ 52 : ℤ) : ℚ) * (2 : ℚ) ^ (binade y - 52) := by
            nth_rewrite 1 [show binade y = 52 + (binade y - 52) by ring]
            rw [zpow_add₀ h2.ne']
            norm_num
        _ ≤ _ := mul_le_mul_of_nonneg_right (by exact_mod_cast hr) hqy.le
    calc toDouble x ≤ (2 : ℚ) ^ (binade x + 1) := hxup
      _ ≤ (2 : ℚ) ^ binade y := zpow_le_zpow_right₀ (by norm_num) (by omega)
      _ ≤ toDouble y := hylow

/-- Rounding keeps the order. -/
theorem toDouble_mono (x y : ℚ) (h : x ≤ y) : toDouble x ≤ toDouble y := by
  rcases le_total 0 x with hx | hx
  · exact toDouble_mono_nonneg x y hx h
  · rcases le_total 0 y with hy | hy
    · have h1 : 0 ≤ toDouble (-x) := toDouble_nonneg _ (by linarith)
      rw [toDouble_neg] at h1
      have h2 := toDouble_nonneg y hy
      linarith
    · have := toDouble_mono_nonneg (-y) (-x) (by linarith) (by linarith)
      rw [toDouble_neg, toDouble_neg] at this
      linarith

/-- The statement of `toDouble_of_mantissa` with the mantissa `2 ^ 53` allowed. -/
theorem toDouble_of_mantissa_le (n k : ℤ) (hn : |n| ≤ 2 ^ 53) (hk : -1074 ≤ k) :
    toDouble ((n : ℚ) * (2 : ℚ) ^ k) = (n : ℚ) * (2 : ℚ) ^ k := by
  rcases lt_or_eq_of_le hn with hlt | heq
  · exact toDouble_of_mantissa n k hlt hk
  · have hsplit : (n : ℚ) * (2 : ℚ) ^ k = ((n / 2 : ℤ) : ℚ) * (2 : ℚ) ^ (k + 1) := by
      have h2n : n = 2 * (n / 2) := by
        rcases abs_cases n with ⟨h1, -⟩ | ⟨h1, -⟩ <;> omega
      rw [zpow_add₀ (by norm_num : (2 : ℚ) ≠ 0), zpow_one]
      nth_rewrite 1 [h2n]
      push_cast
      ring
    rw [hsplit]
    exact toDouble_of_mantissa (n / 2) (k + 1)
      (by rcases abs_cases n with ⟨h1, -⟩ | ⟨h1, -⟩ <;>
            rcases abs_cases (n / 2) with ⟨h3, -⟩ | ⟨h3, -⟩ <;> omega)
      (by omega)

/-- Every value of `toDouble` is a binary64 number: rounding it again returns it. -/
theorem toDouble_idem (x : ℚ) : toDouble (toDouble x) = toDouble x := by
  have h2 : (0 : ℚ) < 2 := by norm_num
  have hq : (0 : ℚ) < (2 : ℚ) ^ (binade x - 52) := zpow_pos h2 _
  have hb := binade_bounds x
  have hup : x / (2 : ℚ) ^ (binade x - 52) ≤ ((2 ^ 53 : ℤ) : ℚ) := by
    rw [div_le_iff₀ hq]
    have : ((2 ^ 53 : ℤ) : ℚ) * (2 : ℚ) ^ (binade x - 52) = (2 : ℚ) ^ (binade x + 1) := by
      rw [show binade x + 1 = 53 + (binade x - 52) by ring, zpow_add₀ h2.ne']
      norm_num
    rw [this]
    exact le_trans (le_abs_self x) hb.2.1.le
  have hlow : ((-(2 ^ 53) : ℤ) : ℚ) ≤ x / (2 : ℚ) ^ (binade x - 52) := by
    rw [le_div_iff₀ hq]
    have : ((-(2 ^ 53) : ℤ) : ℚ) * (2 : ℚ) ^ (binade x - 52) = -(2 : ℚ) ^ (binade x + 1) := by
      rw [show binade x + 1 = 53 + (binade x - 52) by ring, zpow_add₀ h2.ne']
      norm_num
    rw [this]
    have := neg_abs_le x
    linarith [hb.2.1]
  have h1 := roundHalfEven_mono _ _ hup
  have h3 := roundHalfEven_mono _ _ hlow
  rw [roundHalfEven_intCast] at h1 h3
  have hn : |roundHalfEven (x / (2 : ℚ) ^ (binade x - 52))| ≤ 2 ^ 53 := by
    rw [abs_le]
    constructor <;> omega
  unfold toDouble
  exact toDouble_of_mantissa_le _ _ hn (by have := hb.1; omega)

/-- A number of the normal range that is positive is rounded to a positive number. -/
theorem toDouble_pos (x : ℚ) (hx : (2 : ℚ) ^ (-1022 : ℤ) ≤ x) : 0 < toDouble x := by
  have hpos : 0 < x := lt_of_lt_of_le (zpow_pos (by norm_num) _) hx
  have h := toDouble_error x (by rw [abs_of_pos hpos]; exact hx)
  rw [abs_of_pos hpos, abs_le] at h
  have hsmall : (2 : ℚ) ^ (-53 : ℤ) < 1 := by
    rw [zpow_neg]
    norm_num
  nlinarith [h.1]

theorem toDouble_nonpos (x : ℚ) (hx : x ≤ 0) : toDouble x ≤ 0 := by
  have := toDouble_mono x 0 hx
  rwa [toDouble_zero] at this

/-- The number read from a decimal amount is positive exactly when the amount is. -/
theorem toDouble_hundredths_pos (v : ℤ) : 0 < toDouble ((v : ℚ) / 100) ↔ 0 < v := by
  constructor
  · intro h
    by_contra hv
    rw [not_lt] at hv
    have hq : ((v : ℚ) / 100) ≤ 0 := by
      have : (v : ℚ) ≤ 0 := by exact_mod_cast hv
      linarith
    have := toDouble_nonpos _ hq
    linarith
  · intro hv
    apply toDouble_pos
    have h1 : (1 : ℚ) ≤ (v : ℚ) := by exact_mod_cast hv
    have h2 : (2 : ℚ) ^ (-1022 : ℤ) ≤ 1 / 100 := by
      calc (2 : ℚ) ^ (-1022 : ℤ) ≤ (2 : ℚ) ^ (-7 : ℤ) :=
            zpow_le_zpow_right₀ (by norm_num) (by norm_num)
        _ ≤ 1 / 100 := by
          rw [zpow_neg]
          norm_num
    linarith

/-! ## Statistics overview -/

theorem toFixed2_zero : toFixed2 0 = 0 := by
  have h : ⌊(1 : ℚ) / 2⌋ = 0 := by
    rw [Int.floor_eq_iff]
    norm_num
  unfold toFixed2
  rw [if_neg (lt_irrefl 0), zero_mul, zero_add, h]
  norm_num

theorem parseFixed2_zero : parseFixed2 0 = 0 := by
  unfold parseFixed2
  rw [toFixed2_zero, toDouble_zero]

theorem growthPercent_isSome (current previous : ℚ) :
    (growthPercent current previous).isSome = true := by
  unfold growthPercent jsDiv
  by_cases h : previous > 0
  · rw [if_pos h, if_neg (ne_of_gt h)]
    rfl
  · rw [if_neg h]
    rfl

theorem growthPercent_zero (current previous : ℚ) (h : previous = 0) :
    growthPercent current previous = some 0 := by
  unfold growthPercent
  rw [h, if_neg (lt_irrefl 0)]

/-- C10. In the statistics overview both growth figures are always finite
numbers; `revenueGrowth` is 0 when the previous year has no rows or a total
revenue of 0, and `transactionGrowth` is 0 when the previous year has no
transactions. -/
theorem statsOverview_growth_zero (s : Store) (year : Option Nat) (thisYear : Nat) :
    ((statsOverview s year thisYear).revenueGrowth.isSome = true ∧
      (statsOverview s year thisYear).transactionGrowth.isSome = true) ∧
    (((previousYearStats s.ledger (currentYear year thisYear)).totalRevenue = none ∨
        (previousYearStats s.ledger (currentYear year thisYear)).totalRevenue = some 0) →
      (statsOverview s year thisYear).revenueGrowth = some 0) ∧
    ((previousYearStats s.ledger (currentYear year thisYear)).totalTransactions = 0 →
      (statsOverview s year thisYear).transactionGrowth = some 0) ∧
    ((∀ r ∈ s.ledger, r.date.year + 1 ≠ currentYear year thisYear) →
      (statsOverview s year thisYear).revenueGrowth = some 0 ∧
        (statsOverview s year thisYear).transactionGrowth = some 0) := by
  have hrev : ((previousYearStats s.ledger (currentYear year thisYear)).totalRevenue = none ∨
        (previousYearStats s.ledger (currentYear year thisYear)).totalRevenue = some 0) →
      (statsOverview s year thisYear).revenueGrowth = some 0 := by
    intro h
    have h0 : toNumber (previousYearStats s.ledger (currentYear year thisYear)).totalRevenue
        = 0 := by
      rcases h with h | h <;> rw [h] <;> simp [toNumber, toDouble_zero]
    simp only [statsOverview]
    rw [growthPercent_zero _ _ h0]
    simp [parseFixed2_zero]
  have htx : (previousYearStats s.ledger (currentYear year thisYear)).totalTransactions = 0 →
      (statsOverview s year thisYear).transactionGrowth = some 0 := by
    intro h
    simp only [statsOverview]
    rw [growthPercent_zero _ _ (by rw [h]; simp [toDouble_zero])]
    simp [parseFixed2_zero]
  refine ⟨⟨?_, ?_⟩, hrev, htx, ?_⟩
  · simp only [statsOverview, Option.isSome_map']
    exact growthPercent_isSome _ _
  · simp only [statsOverview, Option.isSome_map']
    exact growthPercent_isSome _ _
  · intro hno
    have hprev : previousYearStats s.ledger (currentYear year thisYear) =
        { totalRevenue := none, totalTransactions := 0 } := by
      unfold previousYearStats
      by_cases hy : currentYear year thisYear = 0
      · rw [if_pos hy]
      · rw [if_neg hy]
        have hnil : s.ledger.filter (inYear (currentYear year thisYear - 1)) = [] := by
          rw [List.filter_eq_nil_iff]
          intro r hr hin
          have := ((inYear_iff _ r).1 hin).1
          exact hno r hr (by omega)
        simp [yearStats, hnil, sqlSum]
    exact ⟨hrev (Or.inl (by rw [hprev])), htx (by rw [hprev])⟩

theorem statsOverview_growth_zero_witness :
    (∀ r ∈ sampleStore.ledger, r.date.year + 1 ≠ currentYear (some 2023) 2026) ∧
    (statsOverview sampleStore (some 2023) 2026).revenueGrowth = some 0 ∧
    (statsOverview sampleStore (some 2023) 2026).transactionGrowth = some 0 :=
  ⟨by decide, (statsOverview_growth_zero sampleStore (some 2023) 2026).2.2.2 (by decide)⟩

/-! ## The partner-total invariant -/

theorem perm_cons_filter_ne_id (ledger : List Revenue) (r : Revenue)
    (hids : (ledger.map (·.id)).Nodup) (hr : r ∈ ledger) :
    ledger.Perm (r :: ledger.filter (fun x => x.id != r.id)) := by
  induction ledger with
  | nil => cases hr
  | cons x xs ih =>
    rw [List.map_cons, List.nodup_cons] at hids
    by_cases hx : x = r
    · subst hx
      have hall : xs.filter (fun y => y.id != x.id) = xs := by
        rw [List.filter_eq_self]
        intro y hy
        have : y.id ≠ x.id := fun e => hids.1 (e ▸ List.mem_map_of_mem _ hy)
        simpa using this
      simp [List.filter_cons, hall]
    · have hrxs : r ∈ xs := by
        rcases List.mem_cons.1 hr with h | h
        · exact absurd h.symm hx
        · exact h
      have hne : x.id ≠ r.id := fun e => hids.1 (e ▸ List.mem_map_of_mem _ hrxs)
      have hkeep : (x.id != r.id) = true := by simpa using hne
      rw [List.filter_cons, if_pos hkeep]
      exact ((ih hids.2 hrxs).cons x).trans (List.Perm.swap r x _)

theorem referencing_after_delete (ledger : List Revenue) (r : Revenue) (k : Nat)
    (hids : (ledger.map (·.id)).Nodup) (hr : r ∈ ledger) :
    (((ledger.filter (fun x => x.partner_id == k)).length : Int) =
        (if r.partner_id = k then 1 else 0) +
          ((ledger.filter (fun x => x.id != r.id)).filter (fun x => x.partner_id == k)).length) ∧
      ((ledger.filter (fun x => x.partner_id == k)).map (·.amount)).sum =
        (if r.partner_id = k then r.amount else 0) +
          (((ledger.filter (fun x => x.id != r.id)).filter
            (fun x => x.partner_id == k)).map (·.amount)).sum := by
  have hperm := (perm_cons_filter_ne_id ledger r hids hr).filter (fun x => x.partner_id == k)
  have hlen := hperm.length_eq
  have hsum := (hperm.map (·.amount)).sum_eq
  by_cases hk : r.partner_id = k
  · have hb : (r.partner_id == k) = true := by simpa using hk
    rw [List.filter_cons, if_pos hb] at hlen hsum
    rw [if_pos hk, if_pos hk, hlen, hsum]
    simp only [List.length_cons, List.map_cons, List.sum_cons, Nat.cast_add, Nat.cast_one]
    exact ⟨by ring, trivial⟩
  · have hb : ¬ (r.partner_id == k) = true := by simpa using hk
    rw [List.filter_cons, if_neg hb] at hlen hsum
    rw [if_neg hk, if_neg hk, hlen, hsum]
    simp

/-- Single delete keeps the partner-total invariant in a store whose row keys
are unique, whose partner keys are positive and whose amounts are non-negative. -/
theorem deleteRevenue_preserves_consistency (s : Store) (id : Nat) (f : Faults)
    (hc : PartnerConsistent s) (hids : (s.ledger.map (·.id)).Nodup)
    (hkeys : ∀ p ∈ s.partners, p.id ≠ 0) (hamt : ∀ r ∈ s.ledger, 0 ≤ r.amount) :
    PartnerConsistent (deleteRevenue s id f).2 := by
  rcases deleteRevenue_cases s id f with h | ⟨_, h⟩ | ⟨_, h⟩
  · rw [h]; exact hc
  · rw [h]; exact hc
  rw [h]
  unfold deleteRevenue
  simp only [Tx.start, Tx.rollback, Tx.commit, Tx.destroyRevenue, Tx.updatePartner, noFaults,
    Bool.false_eq_true, if_false]
  cases hrow : findRevenue s.ledger id with
  | none => exact hc
  | some r =>
    have hr : r ∈ s.ledger := List.mem_of_find?_eq_some hrow
    have hsum_nonneg : ∀ k, 0 ≤ (((s.ledger.filter (fun x => x.id != r.id)).filter
        (fun x => x.partner_id == k)).map (·.amount)).sum := by
      intro k
      apply List.sum_nonneg
      intro a ha
      obtain ⟨x, hx, rfl⟩ := List.mem_map.1 ha
      exact hamt x (List.mem_filter.1 (List.mem_filter.1 hx).1).1
    have hunref : ∀ p ∈ s.partners, r.partner_id ≠ p.id →
        p.total_transactions = (((s.ledger.filter (fun x => x.id != r.id)).filter
          (fun x => x.partner_id == p.id)).length : Int) ∧
        p.total_amount = (((s.ledger.filter (fun x => x.id != r.id)).filter
          (fun x => x.partner_id == p.id)).map (·.amount)).sum := by
      intro p hp hne
      obtain ⟨h1, h2⟩ := referencing_after_delete s.ledger r p.id hids hr
      rw [if_neg hne] at h1 h2
      rw [(hc p hp).1, (hc p hp).2, h1, h2]
      simp
    simp only
    by_cases hz : (r.partner_id != 0) = true
    · simp only [hz, if_true]
      cases hp0 : findPartner s.partners r.partner_id with
      | none =>
        intro p hp
        apply hunref p hp
        intro e
        have hnone := List.find?_eq_none.1 hp0 p hp
        simp [e] at hnone
      | some q0 =>
        have hq0 : q0 ∈ s.partners := List.mem_of_find?_eq_some hp0
        have hq0id := findPartner_id hp0
        intro p' hp'
        simp only [updatePartnerTotals, List.mem_map] at hp'
        obtain ⟨q, hq, rfl⟩ := hp'
        by_cases hqid : q.id = q0.id
        · have hb : (q.id == q0.id) = true := by simpa using hqid
          rw [if_pos hb]
          obtain ⟨h1, h2⟩ := referencing_after_delete s.ledger r q.id hids hr
          rw [if_pos (by rw [hqid, hq0id])] at h1 h2
          have hc0 := hc q0 hq0
          rw [← hqid] at hc0
          simp only
          rw [hc0.1, hc0.2, h1, h2]
          have hs := hsum_nonneg q.id
          constructor
          · rw [max_eq_right] <;> omega
          · rw [max_eq_right] <;> linarith
        · have hb : ¬ (q.id == q0.id) = true := by simpa using hqid
          rw [if_neg hb]
          apply hunref q hq
          rw [← hq0id]
          exact fun e => hqid e.symm
    · simp only [hz, if_false]
      intro p hp
      apply hunref p hp
      have hz0 : r.partner_id = 0 := by simpa using hz
      rw [hz0]
      exact fun e => hkeys p hp e.symm

/-- C5 (failing input). The store `sampleStore` satisfies the partner-total
invariant; the create of the scenario succeeds with 201; afterwards partner 1 is
referenced by four rows with amounts summing to 10024 while its totals still
read 3 and 5024, so the invariant no longer holds. -/
theorem create_breaks_partner_totals :
    PartnerConsistent sampleStore ∧
    (createRevenue sampleStore sampleBody noFaults).1.status = 201 ∧
    findPartner (createRevenue sampleStore sampleBody noFaults).2.partners 1 =
      some ⟨1, "Angkasa", 3, 5024⟩ ∧
    ((createRevenue sampleStore sampleBody noFaults).2.ledger.filter
      (fun r => r.partner_id == 1)).length = 4 ∧
    ¬ PartnerConsistent (createRevenue sampleStore sampleBody noFaults).2 := by
  decide

/-! ## Concrete runs of the delete handlers -/

theorem deleteRevenue_decrements_partner_witness :
    ((deleteRevenue sampleStore 1 noFaults).1.status = 200 ∧
      findRevenue sampleStore.ledger 1 = some (sampleRow 1 2024 3 15 1 "aeronautika" 5000) ∧
      findPartner sampleStore.partners 1 = some ⟨1, "Angkasa", 3, 5024⟩) ∧
    findPartner (deleteRevenue sampleStore 1 noFaults).2.partners 1 =
      some ⟨1, "Angkasa", 2, 24⟩ :=
  ⟨by decide,
    (deleteRevenue_decrements_partner sampleStore 1 noFaults
      (sampleRow 1 2024 3 15 1 "aeronautika" 5000) ⟨1, "Angkasa", 3, 5024⟩
      (by decide) (by decide) (by decide) (by decide)).1⟩

theorem bulkDelete_decrements_each_partner_witness :
    ((bulkDelete sampleStore (.array [1, 2, 9]) noFaults).1.status = 200 ∧
      findPartner sampleStore.partners 1 = some ⟨1, "Angkasa", 3, 5024⟩ ∧
      deletedOf sampleStore.ledger [1, 2, 9] 1 ≠ []) ∧
    findPartner (bulkDelete sampleStore (.array [1, 2, 9]) noFaults).2.partners 1 =
      some ⟨1, "Angkasa", 2, 24⟩ :=
  ⟨by decide,
    (bulkDelete_decrements_each_partner sampleStore [1, 2, 9] noFaults (by decide) 1
      ⟨1, "Angkasa", 3, 5024⟩ (by decide)).1 (by decide) (by decide)⟩

theorem bulkDelete_status_witness :
    (∃ r ∈ sampleStore.ledger, r.id ∈ [1, 2, 9]) ∧
    (bulkDelete sampleStore (.array [1, 2, 9]) noFaults).1 =
      ⟨200, true, "2 data pendapatan berhasil dihapus", none⟩ ∧
    ((bulkDelete sampleStore (.array [8, 9]) noFaults).1.status = 404 ∧
      (bulkDelete sampleStore (.array [8, 9]) noFaults).2 = sampleStore) :=
  ⟨by decide,
    (bulkDelete_status sampleStore (.array [1, 2, 9])).2.2.1 [1, 2, 9] rfl (by decide)
      (by decide),
    by decide,
    (bulkDelete_status sampleStore (.array [8, 9])).2.2.2 noFaults (Or.inr (by decide))⟩

theorem bulkDelete_removes_exactly_listed_witness :
    (bulkDelete sampleStore (.array [1, 2, 9]) noFaults).1.status = 200 ∧
    (bulkDelete sampleStore (.array [1, 2, 9]) noFaults).2.ledger =
      [sampleRow 3 2024 12 31 1 "aeronautika" 11, sampleRow 4 2023 1 1 1 "aeronautika" 13] ∧
    bulkDelete sampleStore (.array [1, 2]) noFaults =
      bulkDelete sampleStore (.array [1, 2, 9]) noFaults :=
  ⟨by decide,
    (bulkDelete_removes_exactly_listed sampleStore [1, 2, 9] noFaults (by decide)).1,
    (bulkDelete_removes_exactly_listed sampleStore [1, 2, 9] noFaults (by decide)).2.2⟩

/-! ## Growth figures -/

/-- The value `toFixed2 x` is a multiple of `0.01` at distance at most `0.005`
from `x`. -/
theorem toFixed2_rounds (x : ℚ) :
    (∃ n : ℤ, toFixed2 x = (n : ℚ) / 100) ∧ |toFixed2 x - x| ≤ 1 / 200 := by
  unfold toFixed2
  by_cases hx : x < 0
  · rw [if_pos hx]
    refine ⟨⟨-⌊-x * 100 + 1 / 2⌋, by push_cast; ring⟩, ?_⟩
    have h1 := Int.floor_le (-x * 100 + 1 / 2)
    have h2 := Int.lt_floor_add_one (-x * 100 + 1 / 2)
    rw [abs_le]
    constructor <;> linarith
  · rw [if_neg hx]
    refine ⟨⟨⌊x * 100 + 1 / 2⌋, rfl⟩, ?_⟩
    have h1 := Int.floor_le (x * 100 + 1 / 2)
    have h2 := Int.lt_floor_add_one (x * 100 + 1 / 2)
    rw [abs_le]
    constructor <;> linarith

theorem growthPercent_pos (current previous : ℚ) (hp : 0 < previous) :
    growthPercent current previous =
      some (toDouble (toDouble (toDouble (current - previous) / previous) * 100)) := by
  unfold growthPercent jsDiv
  rw [if_pos hp, if_neg (ne_of_gt hp)]
  rfl

/-- The number read from `SUM(amount)` is the binary64 number nearest to the
sum of the amounts, 0 when there is no row. -/
theorem toNumber_sqlSum (xs : List Int) :
    toNumber (sqlSum xs) = toDouble ((xs.sum : ℚ) / 100) := by
  cases xs with
  | nil => simp [sqlSum, toNumber, toDouble_zero]
  | cons x rest => simp [sqlSum, toNumber]

/-- On a ledger of well-formed dates the filter of a year keeps the rows dated
in that calendar year. -/
theorem filter_inYear (ledger : List Revenue) (y : Nat)
    (hdates : ∀ r ∈ ledger, 1 ≤ r.date.month ∧ r.date.month ≤ 12 ∧ 1 ≤ r.date.day ∧
      r.date.day ≤ 31) :
    ledger.filter (inYear y) = ledger.filter (fun r => decide (r.date.year = y)) := by
  apply List.filter_congr
  intro r hr
  have hd := hdates r hr
  by_cases hy : r.date.year = y
  · have : inYear y r = true := (inYear_iff y r).2 ⟨hy, hd.1, hd.2.1, fun _ => hd.2.2.1,
      fun _ => hd.2.2.2⟩
    simp [this, hy]
  · have : ¬ inYear y r = true := fun h => hy ((inYear_iff y r).1 h).1
    simp [this, hy]

/-- On a ledger of well-formed dates the aggregate row of the previous year is
taken over the rows dated in the calendar year before `y`. -/
theorem previousYearStats_eq (ledger : List Revenue) (y : Nat)
    (hdates : ∀ r ∈ ledger, 1 ≤ r.date.month ∧ r.date.month ≤ 12 ∧ 1 ≤ r.date.day ∧
      r.date.day ≤ 31) :
    previousYearStats ledger y =
      { totalRevenue :=
          sqlSum ((ledger.filter (fun r => decide (r.date.year + 1 = y))).map (·.amount))
        totalTransactions := (ledger.filter (fun r => decide (r.date.year + 1 = y))).length } := by
  unfold previousYearStats
  by_cases hy : y = 0
  · rw [if_pos hy]
    have hnil : ledger.filter (fun r => decide (r.date.year + 1 = y)) = [] := by
      rw [List.filter_eq_nil_iff]
      intro r _
      simp [hy]
    rw [hnil]
    rfl
  · rw [if_neg hy]
    unfold yearStats
    simp only
    rw [filter_inYear ledger (y - 1) hdates]
    have hfun : (fun r : Revenue => decide (r.date.year = y - 1)) =
        fun r => decide (r.date.year + 1 = y) := by
      funext r
      have : r.date.year = y - 1 ↔ r.date.year + 1 = y := by omega
      simp [this]
    rw [hfun]

/-- C11, amended. On a ledger of well-formed dates let `c` and `p` be the sums
of the amounts of the rows dated in the requested year and in the year before
it. When `p` is positive `revenueGrowth` is `parseFloat(g.toFixed(2))` for the
number `g` that binary64 arithmetic gives for `((c - p) / p) * 100`: `c` and
`p` are read as the binary64 numbers nearest to them, and the subtraction, the
division and the multiplication each return the binary64 number nearest to
their exact result. `transactionGrowth` is the same over the two row counts
when the previous count is positive. The text of `toFixed(2)` is the multiple
of 0.01 nearest to `g`, and a binary64 operation errs by at most `2 ^ (-53)`
of its exact result. -/
theorem statsOverview_growth_formula (s : Store) (year : Option Nat) (thisYear : Nat)
    (hdates : ∀ r ∈ s.ledger, 1 ≤ r.date.month ∧ r.date.month ≤ 12 ∧ 1 ≤ r.date.day ∧
      r.date.day ≤ 31) :
    (∀ c p : Int,
      c = ((s.ledger.filter
        (fun r => decide (r.date.year = currentYear year thisYear))).map (·.amount)).sum →
      p = ((s.ledger.filter
        (fun r => decide (r.date.year + 1 = currentYear year thisYear))).map (·.amount)).sum →
      0 < p →
      (statsOverview s year thisYear).revenueGrowth =
        some (parseFixed2 (toDouble (toDouble
          (toDouble (toDouble ((c : ℚ) / 100) - toDouble ((p : ℚ) / 100)) /
            toDouble ((p : ℚ) / 100)) * 100)))) ∧
    (∀ n m : Nat,
      n = (s.ledger.filter
        (fun r => decide (r.date.year = currentYear year thisYear))).length →
      m = (s.ledger.filter
        (fun r => decide (r.date.year + 1 = currentYear year thisYear))).length →
      0 < m →
      (statsOverview s year thisYear).transactionGrowth =
        some (parseFixed2 (toDouble (toDouble
          (toDouble (toDouble (n : ℚ) - toDouble (m : ℚ)) / toDouble (m : ℚ)) * 100)))) ∧
    (∀ x : ℚ, (∃ k : ℤ, toFixed2 x = (k : ℚ) / 100) ∧ |toFixed2 x - x| ≤ 1 / 200) ∧
    (∀ x : ℚ, (2 : ℚ) ^ (-1022 : ℤ) ≤ |x| → |toDouble x - x| ≤ |x| * (2 : ℚ) ^ (-53 : ℤ)) := by
  refine ⟨?_, ?_, toFixed2_rounds, toDouble_error⟩
  · intro c p hc hp hpos
    have hprev : 0 < toDouble ((p : ℚ) / 100) := (toDouble_hundredths_pos p).2 hpos
    simp only [statsOverview]
    rw [previousYearStats_eq s.ledger _ hdates]
    simp only [yearStats]
    rw [filter_inYear s.ledger _ hdates, toNumber_sqlSum, toNumber_sqlSum, ← hc, ← hp,
      growthPercent_pos _ _ hprev]
    rfl
  · intro n m hn hm hpos
    have hprev : 0 < toDouble (m : ℚ) := by
      apply toDouble_pos
      have h1 : (1 : ℚ) ≤ (m : ℚ) := by exact_mod_cast hpos
      have h2 : (2 : ℚ) ^ (-1022 : ℤ) ≤ 1 :=
        zpow_le_one_of_nonpos₀ (by norm_num) (by norm_num)
      linarith
    simp only [statsOverview]
    rw [previousYearStats_eq s.ledger _ hdates]
    simp only [yearStats]
    rw [filter_inYear s.ledger _ hdates, ← hn, ← hm, growthPercent_pos _ _ hprev]
    rfl

theorem statsOverview_growth_formula_witness :
    (∀ r ∈ sampleStore.ledger, 1 ≤ r.date.month ∧ r.date.month ≤ 12 ∧ 1 ≤ r.date.day ∧
      r.date.day ≤ 31) ∧
    (5711 : Int) = ((sampleStore.ledger.filter
      (fun r => decide (r.date.year = currentYear (some 2024) 2026))).map (·.amount)).sum ∧
    (13 : Int) = ((sampleStore.ledger.filter
      (fun r => decide (r.date.year + 1 = currentYear (some 2024) 2026))).map (·.amount)).sum ∧
    (statsOverview sampleStore (some 2024) 2026).revenueGrowth =
      some (parseFixed2 (toDouble (toDouble
        (toDouble (toDouble (((5711 : Int) : ℚ) / 100) - toDouble (((13 : Int) : ℚ) / 100)) /
          toDouble (((13 : Int) : ℚ) / 100)) * 100))) :=
  ⟨by decide, by decide, by decide,
    (statsOverview_growth_formula sampleStore (some 2024) 2026 (by decide)).1 5711 13
      (by decide) (by decide) (by decide)⟩

/-! ## Create: conflicts and unknown partners -/

theorem createRevenue_created (s : Store) (b : CreateBody) (f : Faults)
    (hok : (createRevenue s b f).1.status = 201) :
    ∃ row, (createRevenue s b f).2.ledger = s.ledger ++ [row] ∧
      row.invoice_number = b.invoice_number ∧
      (createRevenue s b f).2.partners = s.partners := by
  unfold createRevenue at hok ⊢
  by_cases hv : (!(validateCreate b).isEmpty) = true
  · rw [if_pos hv] at hok
    simp at hok
  rw [if_neg hv] at hok ⊢
  cases hd : b.date with
  | none => rw [hd] at hok; simp at hok
  | some date =>
    cases hpid : b.partner_id with
    | none => rw [hd, hpid] at hok; simp at hok
    | some partner_id =>
      cases ha : b.amount with
      | none => rw [hd, hpid, ha] at hok; simp at hok
      | some amount =>
        rw [hd, hpid, ha] at hok
        simp only at hok ⊢
        by_cases h1 : f.findPartner partner_id = true
        · rw [if_pos h1] at hok
          simp [serverError] at hok
        rw [if_neg h1] at hok ⊢
        cases hp : findPartner s.partners partner_id with
        | none => rw [hp] at hok; simp at hok
        | some p =>
          rw [hp] at hok
          simp only at hok ⊢
          rcases insertRevenue_cases s.ledger
              { id := 0, date := date, partner_id := partner_id, category := b.category,
                service_type := b.service_type, amount := amount,
                payment_status := b.payment_status, payment_method := b.payment_method,
                invoice_number := b.invoice_number, description := b.description,
                period_start := b.period_start, period_end := b.period_end } f with h | h | h
          · rw [h] at hok
            simp [serverError] at hok
          · rw [h] at hok
            simp at hok
          · rw [h] at hok ⊢
            simp only at hok ⊢
            by_cases h3 : f.findRevenue = true
            · rw [if_pos h3] at hok
              simp [serverError] at hok
            rw [if_neg h3]
            exact ⟨_, rfl, rfl, rfl⟩

/-- The answer to a create whose `invoice_number` is already in the ledger. -/
theorem createRevenue_duplicate (s : Store) (b : CreateBody) (f : Faults) (n : String)
    (hvalid : validateCreate b = []) (hinv : b.invoice_number = some n)
    (hused : ∃ r ∈ s.ledger, r.invoice_number = some n)
    (hpartner : ∃ pid p, b.partner_id = some pid ∧ findPartner s.partners pid = some p ∧
      f.findPartner pid = false)
    (hcreate : f.createRevenue = false) :
    createRevenue s b f = (⟨400, false, "Nomor invoice sudah digunakan", none⟩, s) := by
  obtain ⟨pid, p, hpid, hp, hfp⟩ := hpartner
  have hd : ∃ d, b.date = some d := by
    cases h : b.date with
    | none => simp [validateCreate, h] at hvalid
    | some d => exact ⟨d, rfl⟩
  have ha : ∃ a, b.amount = some a := by
    cases h : b.amount with
    | none => simp [validateCreate, h] at hvalid
    | some a => exact ⟨a, rfl⟩
  obtain ⟨d, hd⟩ := hd
  obtain ⟨a, ha⟩ := ha
  unfold createRevenue
  rw [hvalid, hd, hpid, ha]
  simp only [List.isEmpty_nil, Bool.not_true, Bool.false_eq_true, if_false, hfp, hp]
  have hins : insertRevenue s.ledger
      { id := 0, date := d, partner_id := pid, category := b.category,
        service_type := b.service_type, amount := a,
        payment_status := b.payment_status, payment_method := b.payment_method,
        invoice_number := b.invoice_number, description := b.description,
        period_start := b.period_start, period_end := b.period_end } f =
      .error .uniqueConstraint := by
    unfold insertRevenue
    rw [if_neg (by rw [hcreate]; exact Bool.false_ne_true)]
    have hany : (Option.isSome (some n) &&
        s.ledger.any (fun r => r.invoice_number == some n)) = true := by
      obtain ⟨r, hr, hrn⟩ := hused
      simp only [Option.isSome_some, Bool.true_and, List.any_eq_true]
      exact ⟨r, hr, by rw [hrn]; exact beq_self_eq_true _⟩
    simp only [hinv]
    rw [if_pos hany]
  rw [hins]

/-- C12. After a create with invoice number `n` succeeded, a second valid create
with the same invoice number (its partner found, no unrelated storage failure)
is answered with status 400 and the message 'Nomor invoice sudah digunakan', not
with the generic 500, and the ledger keeps exactly the rows it had. -/
theorem duplicate_invoice_conflict (s : Store) (b1 b2 : CreateBody) (f1 f2 : Faults)
    (n : String)
    (hfirst : (createRevenue s b1 f1).1.status = 201) (hn1 : b1.invoice_number = some n)
    (hvalid : validateCreate b2 = []) (hn2 : b2.invoice_number = some n)
    (hpartner : ∃ pid p, b2.partner_id = some pid ∧
      findPartner (createRevenue s b1 f1).2.partners pid = some p ∧ f2.findPartner pid = false)
    (hcreate : f2.createRevenue = false) :
    (createRevenue (createRevenue s b1 f1).2 b2 f2).1 =
        ⟨400, false, "Nomor invoice sudah digunakan", none⟩ ∧
      (createRevenue (createRevenue s b1 f1).2 b2 f2).1.status ≠ 500 ∧
      (createRevenue (createRevenue s b1 f1).2 b2 f2).2 = (createRevenue s b1 f1).2 ∧
      (createRevenue (createRevenue s b1 f1).2 b2 f2).2.ledger.length =
        s.ledger.length + 1 := by
  obtain ⟨row, hledger, hrow, _⟩ := createRevenue_created s b1 f1 hfirst
  have hused : ∃ r ∈ (createRevenue s b1 f1).2.ledger, r.invoice_number = some n := by
    refine ⟨row, ?_, by rw [hrow, hn1]⟩
    rw [hledger]
    simp
  rw [createRevenue_duplicate _ b2 f2 n hvalid hn2 hused hpartner hcreate]
  refine ⟨rfl, by simp, rfl, ?_⟩
  rw [hledger]
  simp

theorem duplicate_invoice_conflict_witness :
    ((createRevenue sampleStore invoiceBody noFaults).1.status = 201 ∧
      validateCreate invoiceBody = []) ∧
    (createRevenue (createRevenue sampleStore invoiceBody noFaults).2 invoiceBody noFaults).1 =
        ⟨400, false, "Nomor invoice sudah digunakan", none⟩ ∧
    (createRevenue (createRevenue sampleStore invoiceBody noFaults).2 invoiceBody noFaults).2 =
      (createRevenue sampleStore invoiceBody noFaults).2 :=
  ⟨by decide,
    (duplicate_invoice_conflict sampleStore invoiceBody invoiceBody noFaults noFaults "INV-001"
      (by decide) rfl (by decide) rfl ⟨1, ⟨1, "Angkasa", 3, 5024⟩, rfl, by decide, rfl⟩ rfl).1,
    (duplicate_invoice_conflict sampleStore invoiceBody invoiceBody noFaults noFaults "INV-001"
      (by decide) rfl (by decide) rfl ⟨1, ⟨1, "Angkasa", 3, 5024⟩, rfl, by decide, rfl⟩ rfl).2.2.1⟩

/-- C13. A create request that passes field validation and names a partner that
does not exist is answered with status 400 and 'Partner tidak ditemukan', and
the store is unchanged. The check precedes the insert: the answer is the same
when the insert would throw or the invoice number is already used. -/
theorem createRevenue_unknown_partner (s : Store) (b : CreateBody) (f : Faults) (pid : Nat)
    (hvalid : validateCreate b = []) (hpid : b.partner_id = some pid)
    (hnone : findPartner s.partners pid = none) (hlookup : f.findPartner pid = false) :
    createRevenue s b f = (⟨400, false, "Partner tidak ditemukan", none⟩, s) ∧
      (createRevenue s b f).2.ledger = s.ledger := by
  have hd : ∃ d, b.date = some d := by
    cases h : b.date with
    | none => simp [validateCreate, h] at hvalid
    | some d => exact ⟨d, rfl⟩
  have ha : ∃ a, b.amount = some a := by
    cases h : b.amount with
    | none => simp [validateCreate, h] at hvalid
    | some a => exact ⟨a, rfl⟩
  obtain ⟨d, hd⟩ := hd
  obtain ⟨a, ha⟩ := ha
  have h : createRevenue s b f = (⟨400, false, "Partner tidak ditemukan", none⟩, s) := by
    unfold createRevenue
    rw [hvalid, hd, hpid, ha]
    simp only [List.isEmpty_nil, Bool.not_true, Bool.false_eq_true, if_false, hlookup, hnone]
  exact ⟨h, by rw [h]⟩

theorem createRevenue_unknown_partner_witness :
    (validateCreate orphanBody = [] ∧ findPartner sampleStore.partners 9 = none) ∧
    createRevenue sampleStore orphanBody insertFails =
      (⟨400, false, "Partner tidak ditemukan", none⟩, sampleStore) :=
  ⟨by decide,
    (createRevenue_unknown_partner sampleStore orphanBody insertFails 9 (by decide) rfl
      (by decide) rfl).1⟩

/-! ## Lemmas on `ORDER BY ... DESC LIMIT 10` -/

theorem sortRows_perm (column direction : String) (rows : List Revenue) :
    (sortRows column direction rows).Perm rows := by
  unfold sortRows
  cases sortKey column with
  | none => exact List.Perm.refl rows
  | some key =>
    simp only
    split
    · exact List.perm_insertionSort _ rows
    · exact List.perm_insertionSort _ rows

theorem stableEngine_lawful : Engine.Lawful stableEngine := by
  refine ⟨fun α key l => ?_, fun sort order rows => sortRows_perm sort order rows⟩
  haveI : IsTotal α (fun a b => key b ≤ key a) := ⟨fun a b => le_total (key b) (key a)⟩
  haveI : IsTrans α (fun a b => key b ≤ key a) := ⟨fun a b c h1 h2 => le_trans h2 h1⟩
  exact ⟨List.perm_insertionSort _ l, List.sorted_insertionSort _ l⟩

theorem reversingEngine_lawful : Engine.Lawful reversingEngine := by
  refine ⟨fun α key l => ?_,
    fun sort order rows => (sortRows_perm sort order rows.reverse).trans (List.reverse_perm rows)⟩
  haveI : IsTotal α (fun a b => key b ≤ key a) := ⟨fun a b => le_total (key b) (key a)⟩
  haveI : IsTrans α (fun a b => key b ≤ key a) := ⟨fun a b c h1 h2 => le_trans h2 h1⟩
  exact ⟨(List.perm_insertionSort _ l.reverse).trans (List.reverse_perm l),
    List.sorted_insertionSort _ l.reverse⟩

/-- The first ten groups of a grouped query in descending order of `val`: at
most ten, one per key, each the group of its key, in descending order, and a key
is left out only when ten groups are listed, none of them with a smaller value. -/
theorem top_ten_groups {κ : Type} {γ : Type} [DecidableEq κ] (e : Engine) (he : e.Lawful)
    (keys : List κ) (F : κ → γ) (proj : γ → κ) (hproj : ∀ k, proj (F k) = k) (val : γ → Int) :
    ((e.orderByDesc val (keys.dedup.map F)).take 10).length ≤ 10 ∧
    (((e.orderByDesc val (keys.dedup.map F)).take 10).map proj).Nodup ∧
    (∀ g ∈ (e.orderByDesc val (keys.dedup.map F)).take 10, proj g ∈ keys ∧ g = F (proj g)) ∧
    ((e.orderByDesc val (keys.dedup.map F)).take 10).Pairwise (fun a b => val b ≤ val a) ∧
    (∀ k ∈ keys, k ∉ ((e.orderByDesc val (keys.dedup.map F)).take 10).map proj →
      ((e.orderByDesc val (keys.dedup.map F)).take 10).length = 10 ∧
        ∀ g ∈ (e.orderByDesc val (keys.dedup.map F)).take 10, val (F k) ≤ val g) := by
  obtain ⟨hperm, hsorted⟩ := he.1 γ val (keys.dedup.map F)
  generalize e.orderByDesc val (keys.dedup.map F) = all at hperm hsorted
  have hmem : ∀ g ∈ all, proj g ∈ keys ∧ g = F (proj g) := by
    intro g hg
    obtain ⟨k, hk, rfl⟩ := List.mem_map.1 (hperm.mem_iff.1 hg)
    rw [hproj]
    exact ⟨List.mem_dedup.1 hk, rfl⟩
  have hnodup : (all.map proj).Nodup := by
    have h1 : (all.map proj).Perm ((keys.dedup.map F).map proj) := hperm.map proj
    have h2 : (keys.dedup.map F).map proj = keys.dedup := by
      rw [List.map_map]
      conv_rhs => rw [← List.map_id keys.dedup]
      apply List.map_congr_left
      intro k _
      exact hproj k
    rw [h2] at h1
    exact h1.nodup_iff.2 (List.nodup_dedup keys)
  refine ⟨List.length_take_le _ _, ?_, ?_, ?_, ?_⟩
  · rw [List.map_take]
    exact hnodup.sublist (List.take_sublist _ _)
  · intro g hg
    exact hmem g (List.mem_of_mem_take hg)
  · exact hsorted.sublist (List.take_sublist _ _)
  · intro k hk hout
    have hFk : F k ∈ all := hperm.mem_iff.2 (List.mem_map.2 ⟨k, List.mem_dedup.2 hk, rfl⟩)
    have hnot : F k ∉ all.take 10 := by
      intro h
      apply hout
      rw [List.mem_map]
      exact ⟨F k, h, hproj k⟩
    have hsplit : all.take 10 ++ all.drop 10 = all := List.take_append_drop 10 all
    have hdrop : F k ∈ all.drop 10 := by
      rw [← hsplit, List.mem_append] at hFk
      rcases hFk with h | h
      · exact absurd h hnot
      · exact h
    constructor
    · have hlen : 10 < all.length := by
        by_contra hle
        have : all.drop 10 = [] := List.drop_eq_nil_of_le (by omega)
        rw [this] at hdrop
        cases hdrop
      rw [List.length_take]
      omega
    · intro g hg
      rw [← hsplit, List.pairwise_append] at hsorted
      exact hsorted.2.2 g hg (F k) hdrop

theorem topPartnerEntries_some (F : Option (Nat × String) → PartnerGroup)
    (gs : List PartnerGroup) (es : List TopEntry)
    (h : topPartnerEntries gs = some es) (hF : ∀ g ∈ gs, g = F g.partner) :
    ∃ ks : List (Nat × String), gs = ks.map (fun k => F (some k)) ∧
      es = ks.map (fun k => ⟨k.2, (F (some k)).total, (F (some k)).count⟩) := by
  induction gs generalizing es with
  | nil =>
    simp only [topPartnerEntries, Option.some.injEq] at h
    exact ⟨[], rfl, by rw [← h]; rfl⟩
  | cons g rest ih =>
    have hg := hF g (List.mem_cons_self _ _)
    simp only [topPartnerEntries] at h
    cases hp : g.partner with
    | none => rw [hp] at h; cases h
    | some p =>
      rw [hp] at h
      simp only at h
      cases hrest : topPartnerEntries rest with
      | none => rw [hrest] at h; cases h
      | some es' =>
        rw [hrest] at h
        simp only [Option.map_some', Option.some.injEq] at h
        obtain ⟨ks, hks, hes⟩ := ih es' hrest (fun x hx => hF x (List.mem_cons_of_mem _ hx))
        refine ⟨p :: ks, ?_, ?_⟩
        · rw [List.map_cons, ← hks, ← hp, ← hg]
        · rw [← h, List.map_cons, ← hes, ← hp, ← hg]

theorem topPartnerEntries_isSome (gs : List PartnerGroup)
    (h : ∀ g ∈ gs, g.partner.isSome = true) : (topPartnerEntries gs).isSome = true := by
  induction gs with
  | nil => rfl
  | cons g rest ih =>
    have hg := h g (List.mem_cons_self _ _)
    simp only [topPartnerEntries]
    cases hp : g.partner with
    | none => rw [hp] at hg; cases hg
    | some p =>
      simp only
      have := ih (fun x hx => h x (List.mem_cons_of_mem _ hx))
      cases hrest : topPartnerEntries rest with
      | none => rw [hrest] at this; cases this
      | some es => rfl

/-- C16 (as amended). For every engine that orders as SQL promises: the summary
handler answers when every row of the year has its partner, and in every answer
`topServices` and `topPartners` have at most 10 entries, one per distinct
service type (resp. partner) among the rows of the year, each with the amount
sum and the count of its rows, in descending order of the sum, and a group is
left out only when ten are listed, none of them with a smaller sum. -/
theorem summary_top_lists (e : Engine) (he : e.Lawful) (s : Store) (year : Option Nat)
    (thisYear : Nat) :
    ((∀ r ∈ s.ledger.filter (inYear (currentYear year thisYear)),
        (findPartner s.partners r.partner_id).isSome = true) →
      (getSummaryResponse e s year thisYear).isSome = true) ∧
    ∀ d, getSummaryResponse e s year thisYear = some d →
      (d.topServices.length ≤ 10 ∧ (d.topServices.map (·.name)).Nodup ∧
        (∀ t ∈ d.topServices,
          (∃ r ∈ s.ledger.filter (inYear (currentYear year thisYear)),
            r.service_type = t.name) ∧
          t.amount = (((s.ledger.filter (inYear (currentYear year thisYear))).filter
            (fun r => r.service_type == t.name)).map (·.amount)).sum ∧
          t.count = ((s.ledger.filter (inYear (currentYear year thisYear))).filter
            (fun r => r.service_type == t.name)).length) ∧
        d.topServices.Pairwise (fun a b => b.amount ≤ a.amount) ∧
        (∀ r ∈ s.ledger.filter (inYear (currentYear year thisYear)),
          r.service_type ∉ d.topServices.map (·.name) →
          d.topServices.length = 10 ∧
            ∀ t ∈ d.topServices,
              (((s.ledger.filter (inYear (currentYear year thisYear))).filter
                (fun x => x.service_type == r.service_type)).map (·.amount)).sum ≤ t.amount)) ∧
      ∃ keys : List (Nat × String), keys.Nodup ∧ keys.length ≤ 10 ∧
        d.topPartners = keys.map (fun k =>
          ⟨k.2,
            (((s.ledger.filter (inYear (currentYear year thisYear))).filter
              (fun r => joinedPartner s.partners r == some k)).map (·.amount)).sum,
            ((s.ledger.filter (inYear (currentYear year thisYear))).filter
              (fun r => joinedPartner s.partners r == some k)).length⟩) ∧
        (∀ k ∈ keys, ∃ r ∈ s.ledger.filter (inYear (currentYear year thisYear)),
          joinedPartner s.partners r = some k) ∧
        d.topPartners.Pairwise (fun a b => b.amount ≤ a.amount) ∧
        (∀ r ∈ s.ledger.filter (inYear (currentYear year thisYear)), ∀ k,
          joinedPartner s.partners r = some k → k ∉ keys →
          keys.length = 10 ∧
            ∀ t ∈ d.topPartners,
              (((s.ledger.filter (inYear (currentYear year thisYear))).filter
                (fun x => joinedPartner s.partners x == some k)).map (·.amount)).sum ≤
                t.amount) := by
  generalize hrows : s.ledger.filter (inYear (currentYear year thisYear)) = rows
  -- the two grouped queries
  have hS := top_ten_groups e he (rows.map (·.service_type))
    (fun k => (⟨k, ((rows.filter (fun r => r.service_type == k)).map (·.amount)).sum,
      (rows.filter (fun r => r.service_type == k)).length⟩ : ServiceGroup))
    (fun g => g.service_type) (fun _ => rfl) (fun g => g.total)
  have hP := top_ten_groups e he (rows.map (joinedPartner s.partners))
    (fun k => (⟨k, ((rows.filter (fun r => joinedPartner s.partners r == k)).map (·.amount)).sum,
      (rows.filter (fun r => joinedPartner s.partners r == k)).length⟩ : PartnerGroup))
    (fun g => g.partner) (fun _ => rfl) (fun g => g.total)
  have hSq : topServicesQuery e s.ledger (currentYear year thisYear) =
      (e.orderByDesc (fun g => g.total) ((rows.map (·.service_type)).dedup.map
        (fun k => (⟨k, ((rows.filter (fun r => r.service_type == k)).map (·.amount)).sum,
      (rows.filter (fun r => r.service_type == k)).length⟩ : ServiceGroup)))).take
        10 := by
    rw [topServicesQuery, hrows]
    rfl
  have hPq : topPartnersQuery e s (currentYear year thisYear) =
      (e.orderByDesc (fun g => g.total) ((rows.map (joinedPartner s.partners)).dedup.map
        (fun k => (⟨k, ((rows.filter (fun r => joinedPartner s.partners r == k)).map
            (·.amount)).sum,
      (rows.filter (fun r => joinedPartner s.partners r == k)).length⟩ : PartnerGroup)))).take 10 := by
    rw [topPartnersQuery, hrows]
    rfl
  rw [← hSq] at hS
  rw [← hPq] at hP
  obtain ⟨hS1, hS2, hS3, hS4, hS5⟩ := hS
  obtain ⟨hP1, hP2, hP3, hP4, hP5⟩ := hP
  constructor
  · intro hall
    unfold getSummaryResponse
    have hsome : (topPartnerEntries (topPartnersQuery e s (currentYear year thisYear))).isSome
        = true := by
      apply topPartnerEntries_isSome
      intro g hg
      obtain ⟨hk, _⟩ := hP3 g hg
      obtain ⟨r, hr, hrk⟩ := List.mem_map.1 hk
      rw [← hrk, joinedPartner]
      have := hall r hr
      cases hf : findPartner s.partners r.partner_id with
      | none => rw [hf] at this; cases this
      | some p => rfl
    cases hentries : topPartnerEntries (topPartnersQuery e s (currentYear year thisYear)) with
    | none => rw [hentries] at hsome; cases hsome
    | some es =>
      simp only [hentries]
      rfl
  · intro d hd
    unfold getSummaryResponse at hd
    cases hentries : topPartnerEntries (topPartnersQuery e s (currentYear year thisYear)) with
    | none => simp only [hentries] at hd; cases hd
    | some es =>
      simp only [hentries, Option.some.injEq] at hd
      subst hd
      simp only
      refine ⟨⟨?_, ?_, ?_, ?_, ?_⟩, ?_⟩
      · rw [List.length_map]; exact hS1
      · rw [List.map_map]
        exact hS2
      · intro t ht
        obtain ⟨g, hg, rfl⟩ := List.mem_map.1 ht
        obtain ⟨hk, hgF⟩ := hS3 g hg
        obtain ⟨r, hr, hrk⟩ := List.mem_map.1 hk
        refine ⟨⟨r, hr, hrk⟩, ?_, ?_⟩
        · simp only
          conv_lhs => rw [hgF]
        · simp only
          conv_lhs => rw [hgF]
      · rw [List.pairwise_map]
        exact hS4
      · intro r hr hout
        have hout' : r.service_type ∉
            (topServicesQuery e s.ledger (currentYear year thisYear)).map
              (fun g => g.service_type) := by
          rw [List.map_map] at hout
          exact hout
        obtain ⟨hlen, hle⟩ := hS5 r.service_type (List.mem_map_of_mem _ hr) hout'
        refine ⟨by rw [List.length_map]; exact hlen, ?_⟩
        intro t ht
        obtain ⟨g, hg, rfl⟩ := List.mem_map.1 ht
        exact hle g hg
      · obtain ⟨ks, hgs, hes⟩ := topPartnerEntries_some
          (fun k => (⟨k,
            ((rows.filter (fun r => joinedPartner s.partners r == k)).map (·.amount)).sum,
            (rows.filter (fun r => joinedPartner s.partners r == k)).length⟩ : PartnerGroup))
          _ es hentries (fun g hg => (hP3 g hg).2)
        have hkeys : (topPartnersQuery e s (currentYear year thisYear)).map (fun g => g.partner)
            = ks.map some := by
          rw [hgs, List.map_map]
          rfl
        refine ⟨ks, ?_, ?_, hes, ?_, ?_, ?_⟩
        · rw [hkeys] at hP2
          exact List.Nodup.of_map _ hP2
        · have : ks.length = (topPartnersQuery e s (currentYear year thisYear)).length := by
            rw [hgs, List.length_map]
          rw [this]
          exact hP1
        · intro k hk
          have hg : (⟨some k,
              ((rows.filter (fun r => joinedPartner s.partners r == some k)).map (·.amount)).sum,
              (rows.filter (fun r => joinedPartner s.partners r == some k)).length⟩
                : PartnerGroup) ∈ topPartnersQuery e s (currentYear year thisYear) := by
            rw [hgs]
            exact List.mem_map.2 ⟨k, hk, rfl⟩
          obtain ⟨r, hr, hrk⟩ := List.mem_map.1 (hP3 _ hg).1
          exact ⟨r, hr, hrk⟩
        · rw [hes, List.pairwise_map]
          rw [hgs, List.pairwise_map] at hP4
          exact hP4
        · intro r hr k hrk hout
          have hout' : some k ∉ (topPartnersQuery e s (currentYear year thisYear)).map
              (fun g => g.partner) := by
            rw [hkeys]
            intro h
            obtain ⟨k', hk', hkk⟩ := List.mem_map.1 h
            cases hkk
            exact hout hk'
          obtain ⟨hlen, hle⟩ := hP5 (some k) (List.mem_map.2 ⟨r, hr, hrk⟩) hout'
          refine ⟨?_, ?_⟩
          · have : ks.length = (topPartnersQuery e s (currentYear year thisYear)).length := by
              rw [hgs, List.length_map]
            rw [this]
            exact hlen
          · intro t ht
            rw [hes] at ht
            obtain ⟨k', hk', rfl⟩ := List.mem_map.1 ht
            have hg : (⟨some k',
                ((rows.filter (fun r => joinedPartner s.partners r == some k')).map
                  (·.amount)).sum,
                (rows.filter (fun r => joinedPartner s.partners r == some k')).length⟩
                  : PartnerGroup) ∈ topPartnersQuery e s (currentYear year thisYear) := by
              rw [hgs]
              exact List.mem_map.2 ⟨k', hk', rfl⟩
            exact hle _ hg

theorem summary_top_lists_witness :
    (stableEngine.Lawful ∧
      ∀ r ∈ sampleStore.ledger.filter (inYear (currentYear (some 2024) 2026)),
        (findPartner sampleStore.partners r.partner_id).isSome = true) ∧
    (getSummaryResponse stableEngine sampleStore (some 2024) 2026).isSome = true ∧
    (getSummaryResponse stableEngine sampleStore (some 2024) 2026).map (·.topPartners) =
      some [⟨"Angkasa", 5011, 2⟩, ⟨"Bandara", 700, 1⟩] :=
  ⟨⟨stableEngine_lawful, by decide⟩,
    (summary_top_lists stableEngine stableEngine_lawful sampleStore (some 2024) 2026).1
      (by decide),
    by decide⟩

/-- C16 (counterexample). An engine that orders as SQL promises may list equal
sums in any order: with `reversingEngine` the two services of `tieStore`, both
with sum 100, come out as parking, landing_fee although the landing_fee row is
stored first. -/
theorem topServices_ties_not_in_input_order :
    reversingEngine.Lawful ∧
    (getSummaryResponse reversingEngine tieStore (some 2024) 2026).map (·.topServices) =
      some [⟨"parking", 100, 1⟩, ⟨"landing_fee", 100, 1⟩] ∧
    ¬ TiesInInputOrder (tieStore.ledger.filter (inYear 2024))
      [⟨"parking", 100, 1⟩, ⟨"landing_fee", 100, 1⟩] :=
  ⟨reversingEngine_lawful, by decide, by decide⟩

/-! ## Monthly detail: transactions and grouped counts -/

/-- What the detail handler returns as `transactions`: the formatted rows of the
calendar month that pass the service-type and category filters. The partner
parameter decides no membership. -/
theorem mem_detail_transactions (e : Engine) (he : e.Lawful) (s : Store) (q : DetailQuery)
    (d : DetailData) (h : getMonthlyDetail e s q = .ok d) (t : Transaction) :
    t ∈ d.transactions ↔
      ∃ r ∈ s.ledger, detailWhere q d.year d.month r = true ∧
        t = formatTransaction s.partners q r := by
  unfold getMonthlyDetail at h
  cases hy : q.year with
  | none => rw [hy] at h; cases h
  | some yearInt =>
    cases hm : q.month with
    | none => rw [hy, hm] at h; cases h
    | some monthInt =>
      rw [hy, hm] at h
      simp only [DetailResponse.ok.injEq] at h
      subst h
      simp only [List.mem_map]
      constructor
      · rintro ⟨r, hr, rfl⟩
        have hr' := (he.2 _ _ _).mem_iff.1 hr
        rw [List.mem_filter] at hr'
        exact ⟨r, hr'.1, hr'.2, rfl⟩
      · rintro ⟨r, hr, hw, rfl⟩
        exact ⟨r, (he.2 _ _ _).mem_iff.2 (List.mem_filter.2 ⟨hr, hw⟩), rfl⟩

/-- C14 (failing input). For March 2024 and the partner filter `Bandara` the
handler also returns row 1, whose partner is named Angkasa; the join only blanks
its partner name to 'Unknown Partner'. The rows come in descending order of
date, row 2 of 20 March before row 1 of 15 March. -/
theorem monthlyDetail_partner_filter_keeps_rows :
    findPartner sampleStore.partners 1 = some ⟨1, "Angkasa", 3, 5024⟩ ∧
    nameLike "Angkasa" "Bandara" = false ∧
    (match getMonthlyDetail stableEngine sampleStore bandaraMarch with
      | .ok d => d.transactions.map (fun t => (t.id, t.partner_id, t.partner))
      | .badRequest => []) = [(2, 2, "Bandara"), (1, 1, "Unknown Partner")] := by
  decide

theorem sum_group_counts {κ : Type} [DecidableEq κ] (key : Revenue → κ)
    (p : κ → Revenue → Bool) (hp : ∀ k r, p k r = true ↔ key r = k) (rows : List Revenue) :
    (((rows.map key).dedup.map fun k => (rows.filter (p k)).length)).sum = rows.length := by
  have h := List.sum_map_count_dedup_eq_length (rows.map key)
  rw [List.length_map] at h
  rw [← h]
  congr 1
  apply List.map_congr_left
  intro k _
  rw [List.count, List.countP_map, List.countP_eq_length_filter]
  congr 1
  apply List.filter_congr
  intro r _
  rw [Bool.eq_iff_iff, hp]
  simp

theorem category_counts (rows : List Revenue)
    (h : ∀ r ∈ rows, r.category = "aeronautika" ∨ r.category = "non-aeronautika") :
    countCase rows (·.category == "aeronautika") +
      countCase rows (·.category == "non-aeronautika") = rows.length := by
  unfold countCase
  induction rows with
  | nil => rfl
  | cons r rest ih =>
    have ih' := ih (fun x hx => h x (List.mem_cons_of_mem _ hx))
    rcases h r (List.mem_cons_self _ _) with hc | hc
    · simp [List.filter_cons, hc]
      omega
    · simp [List.filter_cons, hc]
      omega

/-- C15. In every answer of the detail handler (for an engine that orders as
SQL promises) the `count` fields of `breakdown.byPartner` and those of
`breakdown.byService` each add up to `summary.totalTransactions`, which is the
number of returned transactions; and `aeronautikaCount + nonAeronautikaCount`
equals it when every ledger row has one of the two categories. -/
theorem detail_counts_consistent (e : Engine) (he : e.Lawful) (s : Store) (q : DetailQuery)
    (d : DetailData) (h : getMonthlyDetail e s q = .ok d) :
    ((d.byPartner.map (·.count)).sum = d.summary.totalTransactions) ∧
    ((d.byService.map (·.count)).sum = d.summary.totalTransactions) ∧
    d.summary.totalTransactions = d.transactions.length ∧
    ((∀ r ∈ s.ledger, r.category = "aeronautika" ∨ r.category = "non-aeronautika") →
      d.summary.aeronautikaCount + d.summary.nonAeronautikaCount =
        d.summary.totalTransactions) := by
  unfold getMonthlyDetail at h
  cases hy : q.year with
  | none => rw [hy] at h; cases h
  | some yearInt =>
    cases hm : q.month with
    | none => rw [hy, hm] at h; cases h
    | some monthInt =>
      rw [hy, hm] at h
      simp only [DetailResponse.ok.injEq] at h
      subst h
      simp only
      refine ⟨?_, ?_, ?_, ?_⟩
      · rw [List.map_map]
        have hp := ((he.1 _ (fun g : PartnerGroup => g.total)
          (partnerGroups (detailPartner s.partners q)
            (s.ledger.filter (detailWhere q yearInt monthInt)))).1.map
          (fun g : PartnerGroup => g.count)).sum_eq
        have hfun : ((fun x : PartnerBreakdown => x.count) ∘
            fun g : PartnerGroup => (⟨nameOr g.partner "Unknown", g.total, g.count⟩
              : PartnerBreakdown)) = fun g : PartnerGroup => g.count := rfl
        rw [hfun, hp, partnerGroups, List.map_map]
        exact sum_group_counts (detailPartner s.partners q)
          (fun k r => detailPartner s.partners q r == k) (fun k r => by simp)
          (s.ledger.filter (detailWhere q yearInt monthInt))
      · have hp := ((he.1 _ (fun g : ServiceBreakdown => g.amount)
          (serviceCategoryGroups (s.ledger.filter (detailWhere q yearInt monthInt)))).1.map
          (fun g : ServiceBreakdown => g.count)).sum_eq
        rw [hp, serviceCategoryGroups, List.map_map]
        exact sum_group_counts (fun r => (r.service_type, r.category))
          (fun k r => (r.service_type, r.category) == k) (fun k r => by simp)
          (s.ledger.filter (detailWhere q yearInt monthInt))
      · rw [List.length_map]
        exact ((he.2 _ _ _).length_eq).symm
      · intro hcat
        exact category_counts _ (fun r hr => hcat r (List.mem_filter.1 hr).1)

theorem detail_counts_consistent_witness :
    (stableEngine.Lawful ∧
      ∀ r ∈ sampleStore.ledger, r.category = "aeronautika" ∨ r.category = "non-aeronautika") ∧
    ∃ d, getMonthlyDetail stableEngine sampleStore bandaraMarch = .ok d ∧
      (d.byPartner.map (·.count)).sum = d.summary.totalTransactions ∧
      d.summary.totalTransactions = 2 ∧
      d.summary.aeronautikaCount + d.summary.nonAeronautikaCount =
        d.summary.totalTransactions :=
  ⟨⟨stableEngine_lawful, by decide⟩, _, rfl,
    (detail_counts_consistent stableEngine stableEngine_lawful sampleStore bandaraMarch _
      rfl).1,
    by decide,
    (detail_counts_consistent stableEngine stableEngine_lawful sampleStore bandaraMarch _
      rfl).2.2.2 (by decide)⟩

/-! ## Filtered list: paging -/

theorem ceil_div_spec (total limit : Nat) (hl : 1 ≤ limit) :
    total ≤ (total + limit - 1) / limit * limit ∧
      ∀ m, total ≤ m * limit → (total + limit - 1) / limit ≤ m := by
  constructor
  · have h := Nat.lt_div_mul_add (a := total + limit - 1) (b := limit) (by omega)
    omega
  · intro m hm
    apply Nat.le_of_lt_succ
    rw [Nat.div_lt_iff_lt_mul (by omega)]
    calc total + limit - 1 < total + limit := by omega
      _ ≤ m * limit + limit := by omega
      _ = (m + 1) * limit := by ring

/-- C17. For page ≥ 1 and limit ≥ 1 the list handler answers with the matching
rows at the positions `offset` to `offset + limit - 1` of the ordered match
list, `offset = (page - 1) * limit`; `pagination.total` is the number of
matching rows and `totalPages` is the ceiling of `total / limit`, the least `n`
with `total ≤ n * limit`. A request without `page` or `limit` is treated as
page 1 and limit 10000. -/
theorem list_paging (e : Engine) (zoneAhead : Bool) (s : Store) (q : ListQuery) :
    (∀ page limit, q.page = some page → q.limit = some limit → 1 ≤ page → 1 ≤ limit →
      ∃ d, getRevenueList e zoneAhead s q = some d ∧
        (∀ i, i < limit →
          d.data[i]? = (listMatching e zoneAhead s q)[(page - 1) * limit + i]?) ∧
        d.data.length = min limit ((listMatching e zoneAhead s q).length - (page - 1) * limit) ∧
        d.pagination.total = (listMatching e zoneAhead s q).length ∧
        d.pagination.page = page ∧ d.pagination.limit = limit ∧
        ∃ n, d.pagination.totalPages = some n ∧ d.pagination.total ≤ n * limit ∧
          ∀ m, d.pagination.total ≤ m * limit → n ≤ m) ∧
    (q.page = none →
      getRevenueList e zoneAhead s q = getRevenueList e zoneAhead s { q with page := some 1 }) ∧
    (q.limit = none →
      getRevenueList e zoneAhead s q =
        getRevenueList e zoneAhead s { q with limit := some 10000 }) := by
  refine ⟨?_, ?_, ?_⟩
  · intro page limit hp hl h1 h2
    have hpage : ¬ ((page == 0 && limit != 0) = true) := by
      simp only [Bool.and_eq_true, beq_iff_eq, bne_iff_ne, ne_eq, not_and, not_not]
      omega
    have hlim : ¬ ((limit == 0) = true) := by
      simp only [beq_iff_eq]
      omega
    have hres : getRevenueList e zoneAhead s q = some
        { data := ((listMatching e zoneAhead s q).drop ((page - 1) * limit)).take limit
          pagination :=
            { total := (listMatching e zoneAhead s q).length
              page := page
              limit := limit
              totalPages :=
                some (((listMatching e zoneAhead s q).length + limit - 1) / limit) } } := by
      unfold getRevenueList
      simp only [hp, hl, Option.getD_some]
      rw [if_neg hpage, if_neg hlim]
    refine ⟨_, hres, ?_, ?_, rfl, rfl, rfl, _, rfl, ?_⟩
    · intro i hi
      simp only
      rw [List.getElem?_take_of_lt hi, List.getElem?_drop]
    · simp only [List.length_take, List.length_drop]
    · exact ⟨(ceil_div_spec _ limit h2).1, (ceil_div_spec _ limit h2).2⟩
  · intro hp
    unfold getRevenueList listMatching listWhere listDateRange
    simp only [hp, Option.getD_none, Option.getD_some]
  · intro hl
    unfold getRevenueList listMatching listWhere listDateRange
    simp only [hl, Option.getD_none, Option.getD_some]

theorem list_paging_witness :
    ((pageQuery 2 3).page = some 2 ∧ (pageQuery 2 3).limit = some 3) ∧
    (∃ d, getRevenueList stableEngine false sampleStore (pageQuery 2 3) = some d ∧
      (∀ i, i < 3 →
        d.data[i]? =
          (listMatching stableEngine false sampleStore (pageQuery 2 3))[(2 - 1) * 3 + i]?) ∧
      d.data.length =
        min 3 ((listMatching stableEngine false sampleStore (pageQuery 2 3)).length -
          (2 - 1) * 3) ∧
      d.pagination.total = (listMatching stableEngine false sampleStore (pageQuery 2 3)).length ∧
      d.pagination.page = 2 ∧ d.pagination.limit = 3 ∧
      ∃ n, d.pagination.totalPages = some n ∧ d.pagination.total ≤ n * 3 ∧
        ∀ m, d.pagination.total ≤ m * 3 → n ≤ m) ∧
    (getRevenueList stableEngine false sampleStore (pageQuery 2 3)).map
        (fun d => (d.data.map (·.revenue.id), d.pagination)) =
      some ([4], ⟨4, 2, 3, some 2⟩) :=
  ⟨⟨rfl, rfl⟩,
    (list_paging stableEngine false sampleStore (pageQuery 2 3)).1 2 3 rfl rfl (by decide)
      (by decide),
    by decide⟩

/-! ## Client store: consistency check and full refresh -/

/-- The number the literal `0.01` is read as. -/
theorem tolerance_eq : tolerance = 5764607523034235 / 2 ^ 59 := by
  unfold tolerance
  have h := toDouble_eq (1 / 100) (-7) 5764607523034235
    (by rw [abs_of_pos (by norm_num), zpow_neg]; norm_num)
    (by rw [abs_of_pos (by norm_num)]; norm_num [zpow_neg])
    (by norm_num)
    (by
      rw [show (-7 : ℤ) - 52 = -59 by norm_num, zpow_neg, abs_lt]
      constructor <;> norm_num)
  rw [h, show (-7 : ℤ) - 52 = -59 by norm_num, zpow_neg]
  norm_num

/-- The number `0.01` lies above the decimal 0.01 by less than `2 ^ (-59)`. -/
theorem tolerance_bounds :
    (1 : ℚ) / 100 < tolerance ∧ tolerance + (2 : ℚ) ^ (-59 : ℤ) ≤ 1 / 100 + (2 : ℚ) ^ (-58 : ℤ) := by
  rw [tolerance_eq, zpow_neg, zpow_neg]
  constructor <;> norm_num

/-- A difference of at most the tolerance is rounded to at most the tolerance. -/
theorem abs_toDouble_le_tolerance (d : ℚ) (h : |d| ≤ tolerance) :
    |toDouble d| ≤ tolerance := by
  have hm := toDouble_mono _ _ h
  rw [toDouble_abs] at hm
  have hidem : toDouble tolerance = tolerance := by
    unfold tolerance
    exact toDouble_idem _
  rwa [hidem] at hm

/-- A difference of at least `0.01 + 2 ^ (-58)` is rounded to more than the
tolerance. -/
theorem tolerance_lt_abs_toDouble (d : ℚ) (h : 1 / 100 + (2 : ℚ) ^ (-58 : ℤ) ≤ |d|) :
    tolerance < |toDouble d| := by
  have hnext : toDouble (tolerance + (2 : ℚ) ^ (-59 : ℤ)) = tolerance + (2 : ℚ) ^ (-59 : ℤ) := by
    have hrepr := toDouble_of_mantissa 5764607523034236 (-59) (by norm_num) (by norm_num)
    have hval : tolerance + (2 : ℚ) ^ (-59 : ℤ) =
        ((5764607523034236 : ℤ) : ℚ) * (2 : ℚ) ^ (-59 : ℤ) := by
      rw [tolerance_eq, zpow_neg]
      norm_num
    rw [hval]
    exact hrepr
  have hm := toDouble_mono _ _ (le_trans tolerance_bounds.2 h)
  rw [toDouble_abs, hnext] at hm
  have hpos : (0 : ℚ) < (2 : ℚ) ^ (-59 : ℤ) := zpow_pos (by norm_num) _
  linarith

/-- The warning about the working-copy and the monthly total is logged exactly
when their rounded difference exceeds the tolerance. -/
theorem flagged_revenueMonthly_iff (state : ClientState) :
    flagged (verifyDataConsistency state).2 .revenueMonthly = true ↔
      |toDouble (totalRevenue state - monthlyTotal state)| > tolerance := by
  unfold verifyDataConsistency flagged
  by_cases ha : |toDouble (totalRevenue state - monthlyTotal state)| > tolerance <;>
  by_cases hb : |toDouble (totalRevenue state - summaryTotal state)| > tolerance ∧
    summaryTotal state > 0 <;>
  simp [ha, hb]

/-- The warning about the working-copy and the summary total is logged exactly
when their rounded difference exceeds the tolerance and the summary total is
positive. -/
theorem flagged_revenueSummary_iff (state : ClientState) :
    flagged (verifyDataConsistency state).2 .revenueSummary = true ↔
      (|toDouble (totalRevenue state - summaryTotal state)| > tolerance ∧
        summaryTotal state > 0) := by
  unfold verifyDataConsistency flagged
  by_cases ha : |toDouble (totalRevenue state - monthlyTotal state)| > tolerance <;>
  by_cases hb : |toDouble (totalRevenue state - summaryTotal state)| > tolerance ∧
    summaryTotal state > 0 <;>
  simp [ha, hb]

/-- C18, amended. `verifyDataConsistency` returns the state as it was and
always completes. With the totals as the store computes them in binary64
arithmetic, it warns about the working-copy total and the monthly total
exactly when the rounded difference of the two exceeds the number `0.01`; it
warns about the working-copy total and the summary total exactly when their
rounded difference exceeds the number `0.01` and the summary total is
positive; it never warns about the monthly and the summary total. Every pair
it flags has totals that differ by more than 0.01, and a pair it compares is
flagged whenever its totals differ by at least `0.01 + 2 ^ (-58)` (for the
summary pair: and the summary total is positive). -/
theorem verifyDataConsistency_flags (state : ClientState) :
    (verifyDataConsistency state).1 = state ∧
    (flagged (verifyDataConsistency state).2 .revenueMonthly = true ↔
      |toDouble (totalRevenue state - monthlyTotal state)| > tolerance) ∧
    (flagged (verifyDataConsistency state).2 .revenueSummary = true ↔
      (|toDouble (totalRevenue state - summaryTotal state)| > tolerance ∧
        summaryTotal state > 0)) ∧
    flagged (verifyDataConsistency state).2 .monthlySummary = false ∧
    (∀ p, flagged (verifyDataConsistency state).2 p = true →
      |pairDifference state p| > 1 / 100) ∧
    (1 / 100 + (2 : ℚ) ^ (-58 : ℤ) ≤ |pairDifference state .revenueMonthly| →
      flagged (verifyDataConsistency state).2 .revenueMonthly = true) ∧
    (1 / 100 + (2 : ℚ) ^ (-58 : ℤ) ≤ |pairDifference state .revenueSummary| →
      summaryTotal state > 0 →
      flagged (verifyDataConsistency state).2 .revenueSummary = true) := by
  have h1 := flagged_revenueMonthly_iff state
  have h2 := flagged_revenueSummary_iff state
  have hexact : ∀ d : ℚ, |toDouble d| > tolerance → |d| > 1 / 100 := by
    intro d hd
    by_contra hle
    rw [not_lt] at hle
    have := abs_toDouble_le_tolerance d (le_trans hle tolerance_bounds.1.le)
    exact absurd hd (not_lt.2 this)
  refine ⟨rfl, h1, h2, rfl, ?_, ?_, ?_⟩
  · intro p hp
    cases p with
    | revenueMonthly => exact hexact _ (h1.1 hp)
    | revenueSummary => exact hexact _ (h2.1 hp).1
    | monthlySummary => cases hp
  · intro h
    exact h1.2 (tolerance_lt_abs_toDouble _ h)
  · intro h hs
    exact h2.2 ⟨tolerance_lt_abs_toDouble _ h, hs⟩

theorem toDouble_5000 : toDouble ((500000 : ℚ) / 100) = 5000 := by
  have := toDouble_intCast 5000 (by norm_num)
  norm_num at this ⊢
  exact this

/-- The totals of `noSummaryClient`, whose amounts are 50.00. -/
theorem noSummaryClient_totals :
    totalRevenue noSummaryClient = 50 ∧ monthlyTotal noSummaryClient = 50 ∧
      summaryTotal noSummaryClient = 0 := by
  have h50 : toDouble (50 : ℚ) = 50 := by
    have := toDouble_intCast 50 (by norm_num)
    norm_num at this ⊢
    exact this
  have h50b : toDouble ((5000 : ℚ) / 100) = 50 := by
    rw [show (5000 : ℚ) / 100 = 50 by norm_num, h50]
  refine ⟨?_, ?_, rfl⟩
  · simp [totalRevenue, noSummaryClient, emptyClient, parseAmount, itemAmount, sampleItem,
      h50b, h50]
  · simp [monthlyTotal, noSummaryClient, emptyClient, h50b, h50]

theorem verifyDataConsistency_flags_witness :
    1 / 100 + (2 : ℚ) ^ (-58 : ℤ) ≤
        |pairDifference { noSummaryClient with monthlyData := [] } .revenueMonthly| ∧
    flagged (verifyDataConsistency { noSummaryClient with monthlyData := [] }).2
        .revenueMonthly = true := by
  have hdiff : pairDifference { noSummaryClient with monthlyData := [] } .revenueMonthly =
      50 := by
    have h := noSummaryClient_totals.1
    simp only [pairDifference, totalRevenue, monthlyTotal, List.foldl_nil, sub_zero] at h ⊢
    exact h
  have hle : 1 / 100 + (2 : ℚ) ^ (-58 : ℤ) ≤
      |pairDifference { noSummaryClient with monthlyData := [] } .revenueMonthly| := by
    rw [hdiff, zpow_neg]
    norm_num
  exact ⟨hle,
    (verifyDataConsistency_flags { noSummaryClient with monthlyData := [] }).2.2.2.2.2.1 hle⟩

/-- C18 (counterexample). In `noSummaryClient` the working copy totals 50.00 and
the summary total reads 0, a difference above 0.01, and the monthly total 50.00
differs from the summary total alike; the check logs no warning at all. -/
theorem verifyDataConsistency_misses_pairs :
    (verifyDataConsistency noSummaryClient).2 = [] ∧
    |pairDifference noSummaryClient .revenueSummary| > 1 / 100 ∧
    flagged (verifyDataConsistency noSummaryClient).2 .revenueSummary = false ∧
    |pairDifference noSummaryClient .monthlySummary| > 1 / 100 ∧
    flagged (verifyDataConsistency noSummaryClient).2 .monthlySummary = false := by
  obtain ⟨ht, hm, hs⟩ := noSummaryClient_totals
  have hlog : (verifyDataConsistency noSummaryClient).2 = [] := by
    have htol : (0 : ℚ) < tolerance := lt_trans (by norm_num) tolerance_bounds.1
    unfold verifyDataConsistency
    simp only [ht, hm, hs, sub_self, toDouble_zero, abs_zero, gt_iff_lt, lt_irrefl, and_false,
      if_false, List.append_nil]
    rw [if_neg (not_lt.2 htol.le)]
  refine ⟨hlog, ?_, ?_, ?_, rfl⟩
  · simp only [pairDifference, ht, hs]
    norm_num
  · rw [hlog]
    rfl
  · simp only [pairDifference, hm, hs]
    norm_num

/-- One cent above the monthly total is flagged: the working copy totals
5000.01, the monthly series 5000.00, the amounts differ by exactly 0.01, and
the check warns, because the number read from 5000.01 lies above 5000.01 by
more than the number `0.01` lies above 0.01. -/
theorem verifyDataConsistency_one_cent :
    ((oneCentClient.revenueData.map itemAmount).sum -
        (oneCentClient.monthlyData.map (·.total)).sum = 1) ∧
    flagged (verifyDataConsistency oneCentClient).2 .revenueMonthly = true := by
  refine ⟨by decide, ?_⟩
  have hitem : toDouble ((500001 : ℚ) / 100) = 5497569133996278 / 2 ^ 40 := by
    have h := toDouble_eq (500001 / 100) 12 5497569133996278
      (by rw [abs_of_pos (by norm_num)]; norm_num)
      (by rw [abs_of_pos (by norm_num)]; norm_num)
      (by norm_num)
      (by
        rw [show (12 : ℤ) - 52 = -40 by norm_num, zpow_neg, abs_lt]
        constructor <;> norm_num)
    rw [h, show (12 : ℤ) - 52 = -40 by norm_num, zpow_neg]
    norm_num
  have h5000 : toDouble (5000 : ℚ) = 5000 := by
    have := toDouble_intCast 5000 (by norm_num)
    norm_num at this ⊢
    exact this
  have ht : totalRevenue oneCentClient = 5497569133996278 / 2 ^ 40 := by
    have hidem : toDouble ((5497569133996278 : ℚ) / 2 ^ 40) = 5497569133996278 / 2 ^ 40 := by
      rw [← hitem]
      exact toDouble_idem _
    simp [totalRevenue, oneCentClient, emptyClient, parseAmount, itemAmount, sampleItem, hidem,
      hitem]
  have hm : monthlyTotal oneCentClient = 5000 := by
    simp [monthlyTotal, oneCentClient, emptyClient, toDouble_5000, h5000]
  apply (flagged_revenueMonthly_iff oneCentClient).2
  apply tolerance_lt_abs_toDouble
  rw [ht, hm, zpow_neg, abs_of_pos (by norm_num)]
  norm_num

/-- Every run of `refreshAllData` takes the success branch: no element of the
settled array is `rejected`. -/
theorem refreshAllData_always_success (net : Network) (now : String) (year : Option Nat)
    (state : ClientState) : (refreshAllData net now year state).2.1 = ⟨true, none⟩ := by
  unfold refreshAllData
  simp [settle]

/-- C19 (failing input). With the monthly request failing, `refreshAllData`
still returns `success: true`, while the slot `errors.monthly` holds the
message of the failed fetch. -/
theorem refreshAllData_success_despite_failed_fetch :
    (fetchMonthlyData monthlyDownNetwork (some 2024) emptyClient).2.success = false ∧
    (refreshAllData monthlyDownNetwork "2024-06-01T00:00:00.000Z" none emptyClient).2.1.success
      = true ∧
    (refreshAllData monthlyDownNetwork "2024-06-01T00:00:00.000Z" none emptyClient).1.errors
      = ⟨none, some "Server error", none, none⟩ := by
  decide

/-! ## Client store: top services -/

theorem mapGet_mapSet (m : List (String × Int)) (k : String) (v : Int) (q : String) :
    mapGet (mapSet m k v) q = if q = k then some v else mapGet m q := by
  induction m with
  | nil =>
    by_cases hq : q = k
    · simp [mapSet, mapGet, List.lookup, hq]
    · have : (q == k) = false := by simpa using hq
      simp [mapSet, mapGet, List.lookup, hq, this]
  | cons e rest ih =>
    obtain ⟨k', v'⟩ := e
    unfold mapGet at ih ⊢
    simp only [mapSet]
    by_cases hk : k' = k
    · subst hk
      simp only [beq_self_eq_true, if_true]
      by_cases hq : q = k'
      · simp [List.lookup, hq]
      · have : (q == k') = false := by simpa using hq
        simp [List.lookup, hq, this]
    · have hk' : (k' == k) = false := by simpa using hk
      simp only [hk', Bool.false_eq_true, if_false]
      by_cases hq : q = k'
      · have hqk : ¬ q = k := by rw [hq]; exact hk
        simp [List.lookup, hq, hk]
      · have : (q == k') = false := by simpa using hq
        simp only [List.lookup, this]
        exact ih

theorem keys_mapSet (m : List (String × Int)) (k : String) (v : Int) :
    (mapSet m k v).map Prod.fst =
      if k ∈ m.map Prod.fst then m.map Prod.fst else m.map Prod.fst ++ [k] := by
  induction m with
  | nil => simp [mapSet]
  | cons e rest ih =>
    obtain ⟨k', v'⟩ := e
    simp only [mapSet]
    by_cases hk : k' = k
    · subst hk
      simp
    · have hk' : (k' == k) = false := by simpa using hk
      have hne : ¬ k = k' := fun h => hk h.symm
      simp only [hk', Bool.false_eq_true, if_false, List.map_cons, ih, List.mem_cons, hne,
        false_or]
      by_cases hmem : k ∈ rest.map Prod.fst
      · simp [hmem]
      · simp [hmem]

theorem mapGet_of_mem (m : List (String × Int)) (hnd : (m.map Prod.fst).Nodup) (k : String)
    (v : Int) (h : (k, v) ∈ m) : mapGet m k = some v := by
  induction m with
  | nil => cases h
  | cons e rest ih =>
    obtain ⟨k', v'⟩ := e
    rw [List.map_cons, List.nodup_cons] at hnd
    unfold mapGet at ih ⊢
    rcases List.mem_cons.1 h with heq | hmem
    · cases heq
      simp [List.lookup]
    · have hne : ¬ k = k' := by
        intro hkk
        apply hnd.1
        rw [← hkk]
        exact List.mem_map.2 ⟨(k, v), hmem, rfl⟩
      have : (k == k') = false := by simpa using hne
      simp only [List.lookup, this]
      exact ih hnd.2 hmem

/-- The amounts of the items with service type `q`, a missing amount counting as 0. -/
theorem serviceMap_fold (items : List Item) (acc : List (String × Int))
    (hacc : (acc.map Prod.fst).Nodup) :
    ((items.foldl
        (fun m item => mapSet m item.service_type
          ((mapGet m item.service_type).getD 0 + itemAmount item)) acc).map Prod.fst).Nodup ∧
      (∀ q, q ∈ (items.foldl
          (fun m item => mapSet m item.service_type
            ((mapGet m item.service_type).getD 0 + itemAmount item)) acc).map Prod.fst ↔
        (q ∈ acc.map Prod.fst ∨ ∃ item ∈ items, item.service_type = q)) ∧
      ∀ q, (mapGet (items.foldl
          (fun m item => mapSet m item.service_type
            ((mapGet m item.service_type).getD 0 + itemAmount item)) acc) q).getD 0 =
        (mapGet acc q).getD 0 +
          ((items.filter (fun item => item.service_type == q)).map itemAmount).sum := by
  induction items generalizing acc with
  | nil => simp [hacc]
  | cons item rest ih =>
    simp only [List.foldl_cons]
    have hkeys := keys_mapSet acc item.service_type
      ((mapGet acc item.service_type).getD 0 + itemAmount item)
    have hnd : ((mapSet acc item.service_type
        ((mapGet acc item.service_type).getD 0 + itemAmount item)).map Prod.fst).Nodup := by
      rw [hkeys]
      by_cases hmem : item.service_type ∈ acc.map Prod.fst
      · rw [if_pos hmem]; exact hacc
      · rw [if_neg hmem]
        rw [List.nodup_append]
        refine ⟨hacc, List.nodup_singleton _, ?_⟩
        intro a ha hb
        rw [List.mem_singleton] at hb
        rw [hb] at ha
        exact hmem ha
    obtain ⟨h1, h2, h3⟩ := ih _ hnd
    refine ⟨h1, ?_, ?_⟩
    · intro q
      rw [h2 q, hkeys]
      by_cases hmem : item.service_type ∈ acc.map Prod.fst
      · rw [if_pos hmem]
        constructor
        · rintro (h | ⟨x, hx, hxq⟩)
          · exact Or.inl h
          · exact Or.inr ⟨x, List.mem_cons_of_mem _ hx, hxq⟩
        · rintro (h | ⟨x, hx, hxq⟩)
          · exact Or.inl h
          · rcases List.mem_cons.1 hx with hxi | hxr
            · left; rw [← hxq, hxi]; exact hmem
            · exact Or.inr ⟨x, hxr, hxq⟩
      · rw [if_neg hmem]
        constructor
        · rintro (h | ⟨x, hx, hxq⟩)
          · rcases List.mem_append.1 h with h' | h'
            · exact Or.inl h'
            · rw [List.mem_singleton] at h'
              exact Or.inr ⟨item, List.mem_cons_self _ _, h'.symm⟩
          · exact Or.inr ⟨x, List.mem_cons_of_mem _ hx, hxq⟩
        · rintro (h | ⟨x, hx, hxq⟩)
          · exact Or.inl (List.mem_append_left _ h)
          · rcases List.mem_cons.1 hx with hxi | hxr
            · left
              rw [← hxq, hxi]
              exact List.mem_append_right _ (List.mem_singleton_self _)
            · exact Or.inr ⟨x, hxr, hxq⟩
    · intro q
      rw [h3 q, mapGet_mapSet]
      by_cases hq : q = item.service_type
      · subst hq
        simp only [if_true, Option.getD_some, List.filter_cons, beq_self_eq_true, List.map_cons,
          List.sum_cons]
        ring
      · have hne : (item.service_type == q) = false := by
          simpa using fun h : item.service_type = q => hq h.symm
        simp only [hq, if_false, List.filter_cons, hne, Bool.false_eq_true]

theorem top_ten_of_sorted {γ : Type} {κ : Type} (all : List γ) (proj : γ → κ) (val : γ → Int)
    (hnd : (all.map proj).Nodup) (hsorted : all.Pairwise (fun a b => val b ≤ val a)) :
    (all.take 10).length ≤ 10 ∧ ((all.take 10).map proj).Nodup ∧
      (all.take 10).Pairwise (fun a b => val b ≤ val a) ∧
      ∀ g ∈ all, proj g ∉ (all.take 10).map proj →
        (all.take 10).length = 10 ∧ ∀ t ∈ all.take 10, val g ≤ val t := by
  refine ⟨List.length_take_le _ _, ?_, hsorted.sublist (List.take_sublist _ _), ?_⟩
  · rw [List.map_take]
    exact hnd.sublist (List.take_sublist _ _)
  · intro g hg hout
    have hnot : g ∉ all.take 10 := fun h => hout (List.mem_map_of_mem _ h)
    have hsplit : all.take 10 ++ all.drop 10 = all := List.take_append_drop 10 all
    have hdrop : g ∈ all.drop 10 := by
      rw [← hsplit, List.mem_append] at hg
      rcases hg with h | h
      · exact absurd h hnot
      · exact h
    constructor
    · have hlen : 10 < all.length := by
        by_contra hle
        have : all.drop 10 = [] := List.drop_eq_nil_of_le (by omega)
        rw [this] at hdrop
        cases hdrop
      rw [List.length_take]
      omega
    · intro t ht
      rw [← hsplit, List.pairwise_append] at hsorted
      exact hsorted.2.2 t ht g hdrop

theorem serviceMap_spec (items : List Item) :
    ((serviceMap items).map Prod.fst).Nodup ∧
      (∀ q, q ∈ (serviceMap items).map Prod.fst ↔ ∃ item ∈ items, item.service_type = q) ∧
      ∀ k v, (k, v) ∈ serviceMap items →
        v = ((items.filter (fun item => item.service_type == k)).map itemAmount).sum := by
  obtain ⟨h1, h2, h3⟩ := serviceMap_fold items [] (by simp)
  refine ⟨h1, ?_, ?_⟩
  · intro q
    have := h2 q
    simpa using this
  · intro k v hkv
    have hget : mapGet (serviceMap items) k = some v := mapGet_of_mem _ h1 k v hkv
    have h3k : (mapGet (serviceMap items) k).getD 0 = (mapGet [] k).getD 0 +
        ((items.filter (fun item => item.service_type == k)).map itemAmount).sum := h3 k
    rw [hget] at h3k
    simpa [mapGet] using h3k

/-- C20. The getter `topServices` returns at most 10 entries with pairwise
distinct names; each entry carries the sum of the amounts of the working-copy
items of its service type (a missing amount counting as 0); the entries are in
non-increasing order of amount; a service type is left out only when ten are
listed, none of them with a smaller sum; an empty working copy gives the empty
list. -/
theorem topServices_spec (state : ClientState) :
    (topServices state).length ≤ 10 ∧
    ((topServices state).map (·.name)).Nodup ∧
    (∀ t ∈ topServices state,
      (∃ item ∈ state.revenueData, item.service_type = t.name) ∧
      t.amount = ((state.revenueData.filter
        (fun item => item.service_type == t.name)).map itemAmount).sum) ∧
    (topServices state).Pairwise (fun a b => b.amount ≤ a.amount) ∧
    (∀ item ∈ state.revenueData, item.service_type ∉ (topServices state).map (·.name) →
      (topServices state).length = 10 ∧
        ∀ t ∈ topServices state,
          ((state.revenueData.filter
            (fun x => x.service_type == item.service_type)).map itemAmount).sum ≤ t.amount) ∧
    (state.revenueData = [] → topServices state = []) := by
  unfold topServices
  by_cases hlen : (state.revenueData.length == 0) = true
  · have hnil : state.revenueData = [] := by simpa using hlen
    rw [if_pos hlen]
    refine ⟨by simp, by simp, by simp, by simp, ?_, fun _ => rfl⟩
    intro item hitem
    rw [hnil] at hitem
    cases hitem
  · rw [if_neg hlen]
    obtain ⟨hnd, hkeys, hval⟩ := serviceMap_spec state.revenueData
    haveI : IsTotal ServiceTotal (fun a b => b.amount ≤ a.amount) :=
      ⟨fun a b => le_total b.amount a.amount⟩
    haveI : IsTrans ServiceTotal (fun a b => b.amount ≤ a.amount) :=
      ⟨fun a b c h1 h2 => le_trans h2 h1⟩
    have hperm := List.perm_insertionSort (fun a b : ServiceTotal => b.amount ≤ a.amount)
      ((serviceMap state.revenueData).map fun (name, amount) => (⟨name, amount⟩ : ServiceTotal))
    have hsorted := List.sorted_insertionSort (fun a b : ServiceTotal => b.amount ≤ a.amount)
      ((serviceMap state.revenueData).map fun (name, amount) => (⟨name, amount⟩ : ServiceTotal))
    generalize ((serviceMap state.revenueData).map
      fun (name, amount) => (⟨name, amount⟩ : ServiceTotal)).insertionSort
        (fun a b => b.amount ≤ a.amount) = all at hperm hsorted
    have hmem : ∀ t, t ∈ all ↔ (t.name, t.amount) ∈ serviceMap state.revenueData := by
      intro t
      rw [hperm.mem_iff, List.mem_map]
      constructor
      · rintro ⟨⟨k, v⟩, hkv, rfl⟩
        exact hkv
      · intro h
        exact ⟨(t.name, t.amount), h, rfl⟩
    have hnames : (all.map (·.name)).Nodup := by
      have h1 : (all.map (·.name)).Perm (((serviceMap state.revenueData).map
          fun (name, amount) => (⟨name, amount⟩ : ServiceTotal)).map (·.name)) :=
        hperm.map _
      rw [List.map_map] at h1
      have h2 : ((fun t : ServiceTotal => t.name) ∘
          fun (x : String × Int) => (⟨x.1, x.2⟩ : ServiceTotal)) = Prod.fst := rfl
      rw [h2] at h1
      exact h1.nodup_iff.2 hnd
    obtain ⟨t1, t2, t3, t4⟩ := top_ten_of_sorted all (fun t => t.name) (fun t => t.amount)
      hnames hsorted
    refine ⟨t1, t2, ?_, t3, ?_, ?_⟩
    · intro t ht
      have htall := (hmem t).1 (List.mem_of_mem_take ht)
      refine ⟨?_, hval _ _ htall⟩
      exact (hkeys t.name).1 (List.mem_map.2 ⟨(t.name, t.amount), htall, rfl⟩)
    · intro item hitem hout
      have hk : item.service_type ∈ (serviceMap state.revenueData).map Prod.fst :=
        (hkeys _).2 ⟨item, hitem, rfl⟩
      obtain ⟨⟨k, v⟩, hkv, hkeq⟩ := List.mem_map.1 hk
      simp only at hkeq
      rw [← hkeq] at hout ⊢
      have hg : (⟨k, v⟩ : ServiceTotal) ∈ all := (hmem ⟨k, v⟩).2 hkv
      obtain ⟨hten, hle⟩ := t4 ⟨k, v⟩ hg hout
      refine ⟨hten, ?_⟩
      intro t ht
      have := hle t ht
      rw [← hval k v hkv]
      exact this
    · intro hnil
      rw [hnil] at hlen
      exact absurd rfl hlen

theorem topServices_spec_witness :
    (sampleItem 3 "parking" 40 ∈ threeItems.revenueData) ∧
    (∃ item ∈ threeItems.revenueData, item.service_type = "landing_fee") ∧
    topServices threeItems = [⟨"landing_fee", 5700⟩, ⟨"parking", 40⟩] ∧
    (5700 : Int) = ((threeItems.revenueData.filter
      (fun item => item.service_type == "landing_fee")).map itemAmount).sum :=
  ⟨by decide,
    ((topServices_spec threeItems).2.2.1 ⟨"landing_fee", 5700⟩ (by decide)).1,
    by decide,
    ((topServices_spec threeItems).2.2.1 ⟨"landing_fee", 5700⟩ (by decide)).2⟩

/-! ## Month filter of the list -/

/-- Without a year the list handler builds no date restriction, whatever the
month: the answer is the one of the request without the month. -/
theorem list_month_without_year (e : Engine) (zoneAhead : Bool) (s : Store) (q : ListQuery)
    (hy : q.year = none) :
    listDateRange zoneAhead q = none ∧
    getRevenueList e zoneAhead s q = getRevenueList e zoneAhead s { q with month := none } := by
  constructor
  · unfold listDateRange
    rw [hy]
  · unfold getRevenueList listMatching listWhere listDateRange
    simp only [hy]

/-- On a server whose zone is not ahead of UTC, a year of four digits and a
month from 1 to 12 restrict the date to the first to the last day of that
month. -/
theorem list_month_range_utc (q : ListQuery) (year month : Nat) (hy : q.year = some year)
    (hm : q.month = some month) (hyear : 100 ≤ year) (h1 : 1 ≤ month) (h12 : month ≤ 12) :
    listDateRange false q = some (⟨year, month, 1⟩, ⟨year, month, daysInMonth year month⟩) := by
  have hfull : jsFullYear year = year := by
    unfold jsFullYear
    rw [if_neg (by omega)]
  have hym : jsYearMonth year month = (year, month) := by
    unfold jsYearMonth
    rw [hfull]
    have e1 : (year * 12 + month - 1) / 12 = year := by omega
    have e2 : (year * 12 + month - 1) % 12 + 1 = month := by omega
    rw [e1, e2]
  unfold listDateRange
  simp only [hy, hm, hym, isoDate, Bool.false_eq_true, if_false]

/-- C26, as the code behaves on a server whose zone is ahead of UTC: for the
request `?year=2024&month=3` both bounds of the date restriction lie one day
early, 29 February to 30 March, so the answer lacks the row of 31 March and
holds the row of 29 February; on a server in UTC the same request is answered
with the rows of 1 and 31 March. -/
theorem list_month_range_one_day_early :
    listDateRange true marchQuery = some (⟨2024, 2, 29⟩, ⟨2024, 3, 30⟩) ∧
    (getRevenueList stableEngine true monthEdgeStore marchQuery).map
        (fun d => d.data.map fun row => (row.revenue.id, row.revenue.date)) =
      some [(2, ⟨2024, 3, 1⟩), (1, ⟨2024, 2, 29⟩)] ∧
    listDateRange false marchQuery = some (⟨2024, 3, 1⟩, ⟨2024, 3, 31⟩) ∧
    (getRevenueList stableEngine false monthEdgeStore marchQuery).map
        (fun d => d.data.map fun row => (row.revenue.id, row.revenue.date)) =
      some [(3, ⟨2024, 3, 31⟩), (2, ⟨2024, 3, 1⟩)] := by
  decide

/-! ## Isolation of the fetches -/

/-- The list fetch leaves the members of the other fetches alone and ends with
`loading` false. -/
theorem fetchRevenueData_frame (net : Network) (now : String) (params : ListQuery)
    (state : ClientState) :
    SameMonthly (fetchRevenueData net now params state).1 state ∧
    SameSummary (fetchRevenueData net now params state).1 state ∧
    SameDetail (fetchRevenueData net now params state).1 state ∧
    SameShared (fetchRevenueData net now params state).1 state ∧
    (fetchRevenueData net now params state).1.loading = false := by
  unfold fetchRevenueData SameMonthly SameSummary SameDetail SameShared
  cases net.getList params with
  | ok body => cases body <;> simp
  | failed message => simp

/-- The monthly fetch leaves the members of the other fetches alone and ends
with `monthlyLoading` false. -/
theorem fetchMonthlyData_frame (net : Network) (year : Option Nat) (state : ClientState) :
    SameList (fetchMonthlyData net year state).1 state ∧
    SameListMeta (fetchMonthlyData net year state).1 state ∧
    SameSummary (fetchMonthlyData net year state).1 state ∧
    SameDetail (fetchMonthlyData net year state).1 state ∧
    SameShared (fetchMonthlyData net year state).1 state ∧
    (fetchMonthlyData net year state).1.monthlyLoading = false := by
  unfold fetchMonthlyData SameList SameListMeta SameSummary SameDetail SameShared
  simp only
  generalize (net.getMonthly _) = answer
  cases answer with
  | ok body => cases body <;> simp
  | failed message => simp

/-- The summary fetch leaves the members of the other fetches alone and ends
with `summaryLoading` false. -/
theorem fetchSummary_frame (net : Network) (year : Option Nat) (state : ClientState) :
    SameList (fetchSummary net year state).1 state ∧
    SameListMeta (fetchSummary net year state).1 state ∧
    SameMonthly (fetchSummary net year state).1 state ∧
    SameDetail (fetchSummary net year state).1 state ∧
    SameShared (fetchSummary net year state).1 state ∧
    (fetchSummary net year state).1.summaryLoading = false := by
  unfold fetchSummary SameList SameListMeta SameMonthly SameDetail SameShared
  simp only
  generalize (net.getSummary _) = answer
  cases answer with
  | ok body => cases body <;> simp
  | failed message => simp

/-- The detail fetch leaves the members of the other fetches alone and ends
with `monthlyDetailLoading` false; when it fails it keeps the stored detail. -/
theorem fetchMonthlyDetail_frame (net : Network) (year month : Option Nat)
    (filters : DetailQuery) (state : ClientState) :
    SameList (fetchMonthlyDetail net year month filters state).1 state ∧
    SameListMeta (fetchMonthlyDetail net year month filters state).1 state ∧
    SameMonthly (fetchMonthlyDetail net year month filters state).1 state ∧
    SameSummary (fetchMonthlyDetail net year month filters state).1 state ∧
    SameShared (fetchMonthlyDetail net year month filters state).1 state ∧
    (fetchMonthlyDetail net year month filters state).1.monthlyDetailLoading = false := by
  unfold fetchMonthlyDetail SameList SameListMeta SameMonthly SameSummary SameShared
  simp only
  generalize (net.getMonthlyDetail _) = answer
  cases answer with
  | ok body => simp
  | failed message => simp

/-- C25, amended: each of the four fetches leaves the data member, the loading
flag and the error slot of the other three as they were, leaves `error` and
`currentYear` alone and ends with its own loading flag false; the monthly, the
summary and the detail fetch also leave `pagination` and `lastUpdated` alone,
which the list fetch writes besides `revenueData`, `loading` and
`errors.revenue`. In particular a monthly fetch, failed or not, keeps
`revenueData`, `summary`, `monthlyDetailData` and the slots `revenue`,
`summary` and `detail`. -/
theorem fetch_isolation (net : Network) (state : ClientState) :
    (∀ now params,
      SameMonthly (fetchRevenueData net now params state).1 state ∧
      SameSummary (fetchRevenueData net now params state).1 state ∧
      SameDetail (fetchRevenueData net now params state).1 state ∧
      SameShared (fetchRevenueData net now params state).1 state ∧
      (fetchRevenueData net now params state).1.loading = false) ∧
    (∀ year,
      SameList (fetchMonthlyData net year state).1 state ∧
      SameListMeta (fetchMonthlyData net year state).1 state ∧
      SameSummary (fetchMonthlyData net year state).1 state ∧
      SameDetail (fetchMonthlyData net year state).1 state ∧
      SameShared (fetchMonthlyData net year state).1 state ∧
      (fetchMonthlyData net year state).1.monthlyLoading = false) ∧
    (∀ year,
      SameList (fetchSummary net year state).1 state ∧
      SameListMeta (fetchSummary net year state).1 state ∧
      SameMonthly (fetchSummary net year state).1 state ∧
      SameDetail (fetchSummary net year state).1 state ∧
      SameShared (fetchSummary net year state).1 state ∧
      (fetchSummary net year state).1.summaryLoading = false) ∧
    (∀ year month filters,
      SameList (fetchMonthlyDetail net year month filters state).1 state ∧
      SameListMeta (fetchMonthlyDetail net year month filters state).1 state ∧
      SameMonthly (fetchMonthlyDetail net year month filters state).1 state ∧
      SameSummary (fetchMonthlyDetail net year month filters state).1 state ∧
      SameShared (fetchMonthlyDetail net year month filters state).1 state ∧
      (fetchMonthlyDetail net year month filters state).1.monthlyDetailLoading = false) :=
  ⟨fun now params => fetchRevenueData_frame net now params state,
    fun year => fetchMonthlyData_frame net year state,
    fun year => fetchSummary_frame net year state,
    fun year month filters => fetchMonthlyDetail_frame net year month filters state⟩

/-- C25 as stated fails for the list fetch: besides `revenueData`, `loading`
and `errors.revenue` it writes `pagination` and `lastUpdated`. -/
theorem fetchRevenueData_writes_pagination_and_lastUpdated :
    (fetchRevenueData monthlyDownNetwork "2024-03-15T00:00:00.000Z" (yearQuery 2024)
        emptyClient).1.pagination = ⟨1, 1, 100, some 1⟩ ∧
    emptyClient.pagination = ⟨0, 1, 100, some 0⟩ ∧
    (fetchRevenueData monthlyDownNetwork "2024-03-15T00:00:00.000Z" (yearQuery 2024)
        emptyClient).1.lastUpdated = some "2024-03-15T00:00:00.000Z" ∧
    emptyClient.lastUpdated = none := by
  decide

/-- The failing monthly fetch of C25 on a store that holds data: everything but
`monthlyData` and the slot `monthly` stays. -/
theorem fetchMonthlyData_failure_keeps_rest :
    (fetchMonthlyData monthlyDownNetwork (some 2024) noSummaryClient).1 =
      { noSummaryClient with
        monthlyData := [], errors := ⟨none, some "Server error", none, none⟩ } := by
  decide

/-! ## Local edits of the mutations -/

/-- The refresh of the aggregates leaves the working copy alone. -/
theorem refreshAggregates_revenueData (net : Network) (state : ClientState) :
    (refreshAggregates net state).revenueData = state.revenueData := by
  unfold refreshAggregates
  rw [(fetchSummary_frame net _ _).1.1, (fetchMonthlyData_frame net _ _).1.1]

/-- The position `findIndex` returns holds the first item with the id. -/
theorem findIndex_some (items : List Item) (id i : Nat) :
    findIndex items id = some i ↔
      (∃ item, items[i]? = some item ∧ item.id = id) ∧
        ∀ j other, j < i → items[j]? = some other → other.id ≠ id := by
  induction items generalizing i with
  | nil => simp [findIndex]
  | cons head rest ih =>
    unfold findIndex
    by_cases h : head.id = id
    · have hb : (head.id == id) = true := by simpa using h
      rw [if_pos hb]
      constructor
      · intro hi
        have hi0 : i = 0 := by simpa using hi.symm
        subst hi0
        exact ⟨⟨head, by simp, h⟩, fun j other hj => absurd hj (Nat.not_lt_zero j)⟩
      · rintro ⟨-, hfirst⟩
        cases i with
        | zero => rfl
        | succ k => exact absurd h (hfirst 0 head (Nat.succ_pos k) (by simp))
    · have hb : ¬ ((head.id == id) = true) := by simpa using h
      rw [if_neg hb]
      cases i with
      | zero =>
        constructor
        · intro hi
          simp at hi
        · rintro ⟨⟨item, hitem, hid⟩, -⟩
          simp only [List.getElem?_cons_zero, Option.some.injEq] at hitem
          subst hitem
          exact absurd hid h
      | succ k =>
        rw [Option.map_eq_some']
        constructor
        · rintro ⟨a, ha, hak⟩
          have hak2 : a = k := by omega
          subst hak2
          obtain ⟨hex, hfirst⟩ := (ih a).1 ha
          refine ⟨by simpa using hex, ?_⟩
          intro j other hj hother
          cases j with
          | zero =>
            simp only [List.getElem?_cons_zero, Option.some.injEq] at hother
            subst hother
            exact h
          | succ m =>
            simp only [List.getElem?_cons_succ] at hother
            exact hfirst m other (by omega) hother
        · rintro ⟨hex, hfirst⟩
          refine ⟨k, (ih k).2 ⟨by simpa using hex, ?_⟩, rfl⟩
          intro j other hj hother
          exact hfirst (j + 1) other (by omega) (by simpa using hother)

/-- The method `findIndex` finds nothing exactly when no item has the id. -/
theorem findIndex_none (items : List Item) (id : Nat) :
    findIndex items id = none ↔ ∀ item ∈ items, item.id ≠ id := by
  induction items with
  | nil => simp [findIndex]
  | cons head rest ih =>
    unfold findIndex
    by_cases h : head.id = id
    · have hb : (head.id == id) = true := by simpa using h
      rw [if_pos hb]
      simp [h]
    · have hb : ¬ ((head.id == id) = true) := by simpa using h
      rw [if_neg hb]
      simp [h, ih]

/-- C23: a confirmed create puts the record of the answer before the former
items; a confirmed update keeps the length, puts the record of the answer at
the first position whose item has the id and keeps every other position, and
keeps the whole working copy when no item has the id; a confirmed delete keeps
exactly the items with another id and a confirmed bulk delete exactly the items
whose id is not listed, both in order; a failed call, and a bulk delete the
server answers without `success`, leave the state as it was. -/
theorem local_edit_after_confirmation (net : Network) (state : ClientState) :
    (∀ body,
      (addRevenueData net (.ok body) state).1.revenueData =
        body.record :: state.revenueData) ∧
    (∀ body id,
      (updateRevenueData net (.ok body) id state).1.revenueData.length =
        state.revenueData.length ∧
      (∀ (i : Nat) (item : Item), state.revenueData[i]? = some item → item.id = id →
        (∀ (j : Nat) (other : Item), j < i → state.revenueData[j]? = some other → other.id ≠ id) →
        (updateRevenueData net (.ok body) id state).1.revenueData[i]? = some body.record ∧
        ∀ j : Nat, j ≠ i →
          (updateRevenueData net (.ok body) id state).1.revenueData[j]? =
            state.revenueData[j]?) ∧
      ((∀ item ∈ state.revenueData, item.id ≠ id) →
        (updateRevenueData net (.ok body) id state).1.revenueData = state.revenueData)) ∧
    (∀ id,
      (deleteRevenueData net (.ok ()) id state).1.revenueData =
        state.revenueData.filter (fun item => decide (item.id ≠ id))) ∧
    (∀ message ids,
      (bulkDeleteRevenueData (.ok ⟨true, message⟩) ids state).1.revenueData =
        state.revenueData.filter (fun item => decide (item.id ∉ ids))) ∧
    (∀ message ids,
      (addRevenueData net (.failed message) state).1 = state ∧
      (∀ id, (updateRevenueData net (.failed message) id state).1 = state) ∧
      (∀ id, (deleteRevenueData net (.failed message) id state).1 = state) ∧
      (bulkDeleteRevenueData (.failed message) ids state).1 = state ∧
      (bulkDeleteRevenueData (.ok ⟨false, message⟩) ids state).1 = state) := by
  refine ⟨?_, ?_, ?_, ?_, ?_⟩
  · intro body
    unfold addRevenueData
    simp only [refreshAggregates_revenueData]
  · intro body id
    have hres : (updateRevenueData net (.ok body) id state).1.revenueData =
        match findIndex state.revenueData id with
        | some index => state.revenueData.set index body.record
        | none => state.revenueData := by
      unfold updateRevenueData
      simp only [refreshAggregates_revenueData]
      cases findIndex state.revenueData id <;> rfl
    rw [hres]
    refine ⟨?_, ?_, ?_⟩
    · cases findIndex state.revenueData id <;> simp
    · intro i item hitem hid hfirst
      have hfound : findIndex state.revenueData id = some i :=
        (findIndex_some _ _ _).2 ⟨⟨item, hitem, hid⟩, hfirst⟩
      rw [hfound]
      have hlt : i < state.revenueData.length := by
        rcases Nat.lt_or_ge i state.revenueData.length with h | h
        · exact h
        · rw [List.getElem?_eq_none h] at hitem
          cases hitem
      refine ⟨?_, ?_⟩
      · simp only [List.getElem?_set_self hlt]
      · intro j hj
        simp only
        rw [List.getElem?_set_ne (Ne.symm hj)]
    · intro hnone
      rw [(findIndex_none _ _).2 hnone]
  · intro id
    unfold deleteRevenueData
    simp only [refreshAggregates_revenueData]
    congr 1
    funext item
    by_cases h : item.id = id <;> simp [h]
  · intro message ids
    unfold bulkDeleteRevenueData
    simp only [if_true]
    congr 1
    funext item
    simp
  · intro message ids
    refine ⟨rfl, fun _ => rfl, fun _ => rfl, rfl, ?_⟩
    unfold bulkDeleteRevenueData
    simp

theorem local_edit_after_confirmation_witness :
    twoItemClient.revenueData[1]? = some (sampleItem 2 "parking" 700) ∧
    ((updateRevenueData afterDeleteNetwork (.ok (.envelope (sampleItem 2 "parking" 900))) 2
        twoItemClient).1.revenueData[1]? = some (sampleItem 2 "parking" 900) ∧
      ∀ j : Nat, j ≠ 1 →
        (updateRevenueData afterDeleteNetwork (.ok (.envelope (sampleItem 2 "parking" 900))) 2
          twoItemClient).1.revenueData[j]? = twoItemClient.revenueData[j]?) :=
  ⟨by decide,
    ((local_edit_after_confirmation afterDeleteNetwork twoItemClient).2.1
      (.envelope (sampleItem 2 "parking" 900)) 2).2.1 1 (sampleItem 2 "parking" 700)
      (by decide) (by decide)
      (by
        intro j other hj h
        obtain rfl : j = 0 := by omega
        have hother : other = sampleItem 1 "landing_fee" 5000 := by
          simpa [twoItemClient] using h.symm
        subst hother
        decide)⟩

/-! ## Refresh of the aggregates after a mutation -/

/-- The year the monthly and the summary fetch ask for when called with the
active year. -/
theorem targetYear_currentYear (y : Nat) :
    (if (y != 0) = true then y else y) = y := by
  split <;> rfl

/-- The refresh stores what the server answers for the active year. -/
theorem refreshAggregates_fetches (net : Network) (state : ClientState) :
    (∀ data, net.getMonthly state.currentYear = .ok (.array data) →
      (refreshAggregates net state).monthlyData = data) ∧
    (∀ data, net.getSummary state.currentYear = .ok (.envelope data) →
      (refreshAggregates net state).summary = some data) := by
  constructor
  · intro data h
    unfold refreshAggregates
    rw [(fetchSummary_frame net _ _).2.2.1.1]
    unfold fetchMonthlyData
    simp only [targetYear_currentYear, h]
  · intro data h
    have hyear : (fetchMonthlyData net (some state.currentYear) state).1.currentYear =
        state.currentYear := (fetchMonthlyData_frame net _ state).2.2.2.2.1.2
    unfold refreshAggregates
    generalize (fetchMonthlyData net (some state.currentYear) state).1 = mid at hyear
    unfold fetchSummary
    simp only [targetYear_currentYear, hyear, h]

/-- After a confirmed create, update or delete the store holds the monthly
series and the summary the server answers for the active year. -/
theorem confirmed_mutation_refreshes (net : Network) (state : ClientState)
    (monthly : List MonthEntry) (summary : SummaryData)
    (hm : net.getMonthly state.currentYear = .ok (.array monthly))
    (hs : net.getSummary state.currentYear = .ok (.envelope summary)) :
    (∀ body,
      (addRevenueData net (.ok body) state).1.monthlyData = monthly ∧
      (addRevenueData net (.ok body) state).1.summary = some summary) ∧
    (∀ body id,
      (updateRevenueData net (.ok body) id state).1.monthlyData = monthly ∧
      (updateRevenueData net (.ok body) id state).1.summary = some summary) ∧
    (∀ id,
      (deleteRevenueData net (.ok ()) id state).1.monthlyData = monthly ∧
      (deleteRevenueData net (.ok ()) id state).1.summary = some summary) := by
  refine ⟨?_, ?_, ?_⟩
  · intro body
    unfold addRevenueData
    exact ⟨(refreshAggregates_fetches net _).1 monthly hm,
      (refreshAggregates_fetches net _).2 summary hs⟩
  · intro body id
    unfold updateRevenueData
    cases findIndex state.revenueData id with
    | none =>
      exact ⟨(refreshAggregates_fetches net _).1 monthly hm,
        (refreshAggregates_fetches net _).2 summary hs⟩
    | some index =>
      exact ⟨(refreshAggregates_fetches net _).1 monthly hm,
        (refreshAggregates_fetches net _).2 summary hs⟩
  · intro id
    unfold deleteRevenueData
    exact ⟨(refreshAggregates_fetches net _).1 monthly hm,
      (refreshAggregates_fetches net _).2 summary hs⟩

/-- A bulk delete sends no request after its own: whatever the server answers,
the monthly series, the summary and their flags and slots stay as they were. -/
theorem bulkDelete_keeps_aggregates (answer : Http BulkBody) (ids : List Nat)
    (state : ClientState) :
    SameMonthly (bulkDeleteRevenueData answer ids state).1 state ∧
    SameSummary (bulkDeleteRevenueData answer ids state).1 state := by
  unfold bulkDeleteRevenueData SameMonthly SameSummary
  cases answer with
  | ok body =>
    simp only
    split <;> simp
  | failed message => simp

/-- C24, as the code behaves: a confirmed bulk delete of item 2 removes it from
the working copy and leaves the monthly series and the summary at the 5700 of
before the deletion, although the server now answers 5000; the single delete of
the same item stores the answers of the server. -/
theorem bulkDelete_leaves_aggregates_stale :
    (bulkDeleteRevenueData (.ok ⟨true, some "1 data pendapatan berhasil dihapus"⟩) [2]
        twoItemClient).1 =
      { twoItemClient with revenueData := [sampleItem 1 "landing_fee" 5000] } ∧
    twoItemClient.monthlyData = [⟨"Mar", 5700, 0, 5700, 2⟩] ∧
    twoItemClient.summary = some (sampleSummary 5700 2) ∧
    (deleteRevenueData afterDeleteNetwork (.ok ()) 2 twoItemClient).1 =
      { twoItemClient with
        revenueData := [sampleItem 1 "landing_fee" 5000]
        monthlyData := [⟨"Mar", 5000, 0, 5000, 1⟩]
        summary := some (sampleSummary 5000 1) } := by
  decide

/-! ## Local filter -/

/-- C22: `filterRevenueData` returns the working-copy items that meet every
supplied criterion, each as often and in the order in which the working copy
holds it; without criteria it returns the whole working copy; and the state of
the store after the call is the state before it. -/
theorem filterRevenueData_spec (filters : Filters) (state : ClientState) :
    (filterRevenueData filters state).2 =
      state.revenueData.filter (meetsCriteria filters) ∧
    (filterRevenueData filters state).2.Sublist state.revenueData ∧
    (∀ item, item ∈ (filterRevenueData filters state).2 ↔
      item ∈ state.revenueData ∧ meetsCriteria filters item = true) ∧
    (filterRevenueData noFilters state).2 = state.revenueData ∧
    (filterRevenueData filters state).1 = state := by
  have hres : (filterRevenueData filters state).2 =
      state.revenueData.filter (meetsCriteria filters) := by
    unfold filterRevenueData
    have hfun : meetsCriteria filters = fun item => meetsCriteria filters item := rfl
    rw [hfun]
    unfold meetsCriteria
    cases truthy filters.category <;> cases truthy filters.service_type <;>
      cases truthyId filters.partner_id <;> cases truthy filters.payment_status <;>
      cases filters.startDate <;> cases filters.endDate <;>
      simp [List.filter_filter, Bool.and_comm, Bool.and_left_comm, Bool.and_assoc]
  refine ⟨hres, ?_, ?_, ?_, rfl⟩
  · rw [hres]
    exact List.filter_sublist _
  · intro item
    rw [hres, List.mem_filter]
  · unfold filterRevenueData noFilters truthy truthyId
    simp

theorem filterRevenueData_spec_witness :
    (filterRevenueData parkingMarch threeItems).2 = [sampleItem 3 "parking" 40] ∧
    (filterRevenueData parkingMarch threeItems).2 =
      threeItems.revenueData.filter (meetsCriteria parkingMarch) ∧
    (filterRevenueData parkingMarch threeItems).1 = threeItems :=
  ⟨by decide, (filterRevenueData_spec parkingMarch threeItems).1,
    (filterRevenueData_spec parkingMarch threeItems).2.2.2.2⟩

/-- A range of dates with one bound only is no criterion: the filter with
`startDate` alone returns the whole working copy. -/
theorem filterRevenueData_one_bound :
    (filterRevenueData { noFilters with startDate := some ⟨2025, 1, 1⟩ } threeItems).2 =
      threeItems.revenueData := by
  decide

/-! ## Growth figures: a tie of the exact figure -/

theorem toDouble_23_160 : toDouble (23 / 160) = 5179139571476070 / 2 ^ 55 := by
  have h := toDouble_eq (23 / 160) (-3) 5179139571476070
    (by rw [abs_of_pos (by norm_num), zpow_neg]; norm_num)
    (by rw [abs_of_pos (by norm_num)]; norm_num [zpow_neg])
    (by norm_num)
    (by
      rw [show (-3 : ℤ) - 52 = -55 by norm_num, zpow_neg, abs_lt]
      constructor <;> norm_num)
  rw [h, show (-3 : ℤ) - 52 = -55 by norm_num, zpow_neg]
  norm_num

theorem toDouble_times_100 :
    toDouble (5179139571476070 / 2 ^ 55 * 100) = 8092405580431359 / 2 ^ 49 := by
  have h := toDouble_eq (5179139571476070 / 2 ^ 55 * 100) 3 8092405580431359
    (by rw [abs_of_pos (by norm_num)]; norm_num)
    (by rw [abs_of_pos (by norm_num)]; norm_num)
    (by norm_num)
    (by
      rw [show (3 : ℤ) - 52 = -49 by norm_num, zpow_neg, abs_lt]
      constructor <;> norm_num)
  rw [h, show (3 : ℤ) - 52 = -49 by norm_num, zpow_neg]
  norm_num

theorem toFixed2_of_computed : toFixed2 (8092405580431359 / 2 ^ 49) = 1437 / 100 := by
  unfold toFixed2
  rw [if_neg (by norm_num)]
  have h : ⌊(8092405580431359 : ℚ) / 2 ^ 49 * 100 + 1 / 2⌋ = 1437 := by
    rw [Int.floor_eq_iff]
    constructor <;> norm_num
  rw [h]
  norm_num

theorem toFixed2_of_exact : toFixed2 (((183 : ℚ) - 160) / 160 * 100) = 1438 / 100 := by
  unfold toFixed2
  rw [if_neg (by norm_num)]
  have h : ⌊((183 : ℚ) - 160) / 160 * 100 * 100 + 1 / 2⌋ = 1438 := by
    rw [Int.floor_eq_iff]
    constructor <;> norm_num
  rw [h]
  norm_num

/-- C11 as stated fails at a tie of the exact figure: with 160.00 for the
previous and 183.00 for the requested year the exact growth is 14.375, which
rounds to 14.38, and the handler reports the binary64 number nearest to 14.37,
because binary64 arithmetic gives a number slightly below 14.375. -/
theorem statsOverview_growth_tie :
    (statsOverview growthStore (some 2024) 2026).revenueGrowth = some (toDouble (1437 / 100)) ∧
    toDouble (1437 / 100) < 1438 / 100 ∧
    toFixed2 (((183 : ℚ) - 160) / 160 * 100) = 1438 / 100 := by
  refine ⟨?_, ?_, toFixed2_of_exact⟩
  · have hcur : yearStats growthStore.ledger 2024 = ⟨some 18300, 2⟩ := by decide
    have hprev : previousYearStats growthStore.ledger 2024 = ⟨some 16000, 1⟩ := by decide
    have h183 : toDouble ((18300 : ℚ) / 100) = 183 := by
      have := toDouble_intCast 183 (by norm_num)
      norm_num at this ⊢
      exact this
    have h160 : toDouble ((16000 : ℚ) / 100) = 160 := by
      have := toDouble_intCast 160 (by norm_num)
      norm_num at this ⊢
      exact this
    have h23 : toDouble ((183 : ℚ) - 160) = 23 := by
      have := toDouble_intCast 23 (by norm_num)
      norm_num at this ⊢
      exact this
    simp only [statsOverview, show currentYear (some 2024) 2026 = 2024 from rfl, hcur, hprev,
      toNumber, Int.cast_ofNat, h183, h160]
    rw [growthPercent_pos _ _ (by norm_num), h23, toDouble_23_160, toDouble_times_100]
    simp only [Option.map_some', parseFixed2, toFixed2_of_computed]
  · have h := toDouble_error (1437 / 100) (by
      rw [abs_of_pos (by norm_num)]
      calc (2 : ℚ) ^ (-1022 : ℤ) ≤ (2 : ℚ) ^ (0 : ℤ) :=
            zpow_le_zpow_right₀ (by norm_num) (by norm_num)
        _ ≤ 1437 / 100 := by norm_num)
    rw [abs_of_pos (by norm_num : (0 : ℚ) < 1437 / 100), abs_le, zpow_neg] at h
    have h2 := h.2
    norm_num at h2
    linarith

/-! ## Top partners of the working copy -/

theorem partnerMapGet_partnerMapSet (m : List (String × PartnerTotal)) (k : String)
    (v : PartnerTotal) (q : String) :
    partnerMapGet (partnerMapSet m k v) q = if q = k then some v else partnerMapGet m q := by
  induction m with
  | nil =>
    by_cases hq : q = k
    · simp [partnerMapSet, partnerMapGet, List.lookup, hq]
    · have : (q == k) = false := by simpa using hq
      simp [partnerMapSet, partnerMapGet, List.lookup, hq, this]
  | cons e rest ih =>
    obtain ⟨k', v'⟩ := e
    unfold partnerMapGet at ih ⊢
    simp only [partnerMapSet]
    by_cases hk : k' = k
    · subst hk
      simp only [beq_self_eq_true, if_true]
      by_cases hq : q = k'
      · simp [List.lookup, hq]
      · have : (q == k') = false := by simpa using hq
        simp [List.lookup, hq, this]
    · have hk' : (k' == k) = false := by simpa using hk
      simp only [hk', Bool.false_eq_true, if_false]
      by_cases hq : q = k'
      · have hqk : ¬ q = k := by rw [hq]; exact hk
        simp [List.lookup, hq, hk]
      · have : (q == k') = false := by simpa using hq
        simp only [List.lookup, this]
        exact ih

theorem keys_partnerMapSet (m : List (String × PartnerTotal)) (k : String) (v : PartnerTotal) :
    (partnerMapSet m k v).map Prod.fst =
      if k ∈ m.map Prod.fst then m.map Prod.fst else m.map Prod.fst ++ [k] := by
  induction m with
  | nil => simp [partnerMapSet]
  | cons e rest ih =>
    obtain ⟨k', v'⟩ := e
    simp only [partnerMapSet]
    by_cases hk : k' = k
    · subst hk
      simp
    · have hk' : (k' == k) = false := by simpa using hk
      have hne : ¬ k = k' := fun h => hk h.symm
      simp only [hk', Bool.false_eq_true, if_false, List.map_cons, ih, List.mem_cons, hne,
        false_or]
      by_cases hmem : k ∈ rest.map Prod.fst
      · simp [hmem]
      · simp [hmem]

theorem mem_partnerMapSet (m : List (String × PartnerTotal)) (k : String) (v : PartnerTotal)
    (e : String × PartnerTotal) (h : e ∈ partnerMapSet m k v) : e = (k, v) ∨ e ∈ m := by
  induction m with
  | nil =>
    simp only [partnerMapSet, List.mem_singleton] at h
    exact Or.inl h
  | cons head rest ih =>
    obtain ⟨k', v'⟩ := head
    simp only [partnerMapSet] at h
    by_cases hk : k' = k
    · subst hk
      simp only [beq_self_eq_true, if_true, List.mem_cons] at h
      rcases h with h | h
      · exact Or.inl h
      · exact Or.inr (List.mem_cons_of_mem _ h)
    · have hk' : (k' == k) = false := by simpa using hk
      simp only [hk', Bool.false_eq_true, if_false, List.mem_cons] at h
      rcases h with h | h
      · exact Or.inr (by rw [h]; exact List.mem_cons_self _ _)
      · rcases ih h with h2 | h2
        · exact Or.inl h2
        · exact Or.inr (List.mem_cons_of_mem _ h2)

theorem mem_of_partnerMapGet (m : List (String × PartnerTotal)) (k : String) (v : PartnerTotal)
    (h : partnerMapGet m k = some v) : (k, v) ∈ m := by
  induction m with
  | nil => simp [partnerMapGet, List.lookup] at h
  | cons head rest ih =>
    obtain ⟨k', v'⟩ := head
    unfold partnerMapGet at ih h
    by_cases hk : k = k'
    · subst hk
      simp only [List.lookup, beq_self_eq_true, Option.some.injEq] at h
      rw [h]
      exact List.mem_cons_self _ _
    · have hk' : (k == k') = false := by simpa using hk
      simp only [List.lookup, hk'] at h
      exact List.mem_cons_of_mem _ (ih h)

theorem partnerMapGet_of_mem (m : List (String × PartnerTotal))
    (hnd : (m.map Prod.fst).Nodup) (k : String) (v : PartnerTotal) (h : (k, v) ∈ m) :
    partnerMapGet m k = some v := by
  induction m with
  | nil => cases h
  | cons e rest ih =>
    obtain ⟨k', v'⟩ := e
    rw [List.map_cons, List.nodup_cons] at hnd
    unfold partnerMapGet at ih ⊢
    rcases List.mem_cons.1 h with heq | hmem
    · cases heq
      simp [List.lookup]
    · have hne : ¬ k = k' := by
        intro hkk
        apply hnd.1
        rw [← hkk]
        exact List.mem_map.2 ⟨(k, v), hmem, rfl⟩
      have : (k == k') = false := by simpa using hne
      simp only [List.lookup, this]
      exact ih hnd.2 hmem

/-- The entry one round of the loop stores. -/
theorem partnerMapGet_partnerStep (m : List (String × PartnerTotal)) (item : Item)
    (q : String) :
    partnerMapGet (partnerStep m item) q =
      if q = partnerKey item then
        some
          { id := ((partnerMapGet m (partnerKey item)).getD
              ⟨(partnerOf item).1, (partnerOf item).2, 0, 0⟩).id
            name := ((partnerMapGet m (partnerKey item)).getD
              ⟨(partnerOf item).1, (partnerOf item).2, 0, 0⟩).name
            amount := toDouble (((partnerMapGet m (partnerKey item)).map (·.amount)).getD 0 +
              parseAmount item)
            transactions :=
              ((partnerMapGet m (partnerKey item)).map (·.transactions)).getD 0 + 1 }
      else partnerMapGet m q := by
  unfold partnerStep
  simp only
  rw [partnerMapGet_partnerMapSet]
  cases partnerMapGet m (partnerKey item) <;> rfl

/-- The loop over the working copy, started from any map with distinct keys:
the keys stay distinct, they are the former keys and the keys of the items,
the amounts of the items of a key are added one by one to the amount of its
entry, its transactions grow by their number, and `id` and `name` of an entry
are those of a former entry of its key or of an item of its key. -/
theorem partnerMap_fold (items : List Item) (acc : List (String × PartnerTotal))
    (hacc : (acc.map Prod.fst).Nodup) :
    ((items.foldl partnerStep acc).map Prod.fst).Nodup ∧
    (∀ q, q ∈ (items.foldl partnerStep acc).map Prod.fst ↔
      (q ∈ acc.map Prod.fst ∨ ∃ item ∈ items, partnerKey item = q)) ∧
    (∀ q, ((partnerMapGet (items.foldl partnerStep acc) q).map (·.amount)).getD 0 =
      ((items.filter (fun item => partnerKey item == q)).map parseAmount).foldl
        (fun sum x => toDouble (sum + x)) (((partnerMapGet acc q).map (·.amount)).getD 0)) ∧
    (∀ q, ((partnerMapGet (items.foldl partnerStep acc) q).map (·.transactions)).getD 0 =
      ((partnerMapGet acc q).map (·.transactions)).getD 0 +
        (items.filter (fun item => partnerKey item == q)).length) ∧
    (∀ k v, (k, v) ∈ items.foldl partnerStep acc →
      (∃ w, (k, w) ∈ acc ∧ w.id = v.id ∧ w.name = v.name) ∨
        ∃ item ∈ items, partnerKey item = k ∧ partnerOf item = (v.id, v.name)) := by
  induction items generalizing acc with
  | nil =>
    refine ⟨hacc, by simp, by simp, by simp, ?_⟩
    intro k v h
    exact Or.inl ⟨v, h, rfl, rfl⟩
  | cons item rest ih =>
    simp only [List.foldl_cons]
    have hkeys : (partnerStep acc item).map Prod.fst =
        if partnerKey item ∈ acc.map Prod.fst then acc.map Prod.fst
        else acc.map Prod.fst ++ [partnerKey item] := by
      unfold partnerStep
      exact keys_partnerMapSet _ _ _
    have hnd : ((partnerStep acc item).map Prod.fst).Nodup := by
      rw [hkeys]
      by_cases hmem : partnerKey item ∈ acc.map Prod.fst
      · rw [if_pos hmem]; exact hacc
      · rw [if_neg hmem]
        rw [List.nodup_append]
        refine ⟨hacc, List.nodup_singleton _, ?_⟩
        intro a ha hb
        rw [List.mem_singleton] at hb
        rw [hb] at ha
        exact hmem ha
    obtain ⟨h1, h2, h3, h4, h5⟩ := ih _ hnd
    refine ⟨h1, ?_, ?_, ?_, ?_⟩
    · intro q
      rw [h2 q, hkeys]
      by_cases hmem : partnerKey item ∈ acc.map Prod.fst
      · rw [if_pos hmem]
        constructor
        · rintro (h | ⟨x, hx, hxq⟩)
          · exact Or.inl h
          · exact Or.inr ⟨x, List.mem_cons_of_mem _ hx, hxq⟩
        · rintro (h | ⟨x, hx, hxq⟩)
          · exact Or.inl h
          · rcases List.mem_cons.1 hx with hxi | hxr
            · left; rw [← hxq, hxi]; exact hmem
            · exact Or.inr ⟨x, hxr, hxq⟩
      · rw [if_neg hmem]
        constructor
        · rintro (h | ⟨x, hx, hxq⟩)
          · rcases List.mem_append.1 h with h' | h'
            · exact Or.inl h'
            · rw [List.mem_singleton] at h'
              exact Or.inr ⟨item, List.mem_cons_self _ _, h'.symm⟩
          · exact Or.inr ⟨x, List.mem_cons_of_mem _ hx, hxq⟩
        · rintro (h | ⟨x, hx, hxq⟩)
          · exact Or.inl (List.mem_append_left _ h)
          · rcases List.mem_cons.1 hx with hxi | hxr
            · left
              rw [← hxq, hxi]
              exact List.mem_append_right _ (List.mem_singleton_self _)
            · exact Or.inr ⟨x, hxr, hxq⟩
    · intro q
      rw [h3 q, partnerMapGet_partnerStep]
      by_cases hq : q = partnerKey item
      · subst hq
        simp only [if_true, Option.map_some', Option.getD_some, List.filter_cons,
          beq_self_eq_true, List.map_cons, List.foldl_cons]
      · have hne : (partnerKey item == q) = false := by
          simpa using fun h : partnerKey item = q => hq h.symm
        simp only [hq, if_false, List.filter_cons, hne, Bool.false_eq_true]
    · intro q
      rw [h4 q, partnerMapGet_partnerStep]
      by_cases hq : q = partnerKey item
      · subst hq
        simp only [if_true, Option.map_some', Option.getD_some, List.filter_cons,
          beq_self_eq_true, List.length_cons]
        omega
      · have hne : (partnerKey item == q) = false := by
          simpa using fun h : partnerKey item = q => hq h.symm
        simp only [hq, if_false, List.filter_cons, hne, Bool.false_eq_true]
    · intro k v hkv
      rcases h5 k v hkv with ⟨w, hw, hwid, hwname⟩ | ⟨x, hx, hxk, hxp⟩
      · have hget : partnerMapGet (partnerStep acc item) k = some w :=
          partnerMapGet_of_mem _ hnd k w hw
        rw [partnerMapGet_partnerStep] at hget
        by_cases hk : k = partnerKey item
        · rw [if_pos hk, Option.some.injEq] at hget
          cases hold : partnerMapGet acc (partnerKey item) with
          | none =>
            right
            refine ⟨item, List.mem_cons_self _ _, hk.symm, ?_⟩
            rw [hold] at hget
            rw [← hwid, ← hwname, ← hget]
            rfl
          | some old =>
            left
            rw [hold] at hget
            refine ⟨old, ?_, ?_, ?_⟩
            · rw [hk]
              exact mem_of_partnerMapGet _ _ _ hold
            · rw [← hwid, ← hget]
              rfl
            · rw [← hwname, ← hget]
              rfl
        · rw [if_neg hk] at hget
          exact Or.inl ⟨w, mem_of_partnerMapGet _ _ _ hget, hwid, hwname⟩
      · exact Or.inr ⟨x, List.mem_cons_of_mem _ hx, hxk, hxp⟩

/-- The map `partnerMap`: its keys are distinct and are the keys of the items;
an entry carries the sum, as the runtime adds them, of the amounts of the items
of its key, their number, and `id` and `name` of one of them. -/
theorem partnerMap_spec (items : List Item) :
    ((partnerMap items).map Prod.fst).Nodup ∧
    (∀ q, q ∈ (partnerMap items).map Prod.fst ↔ ∃ item ∈ items, partnerKey item = q) ∧
    ∀ k v, (k, v) ∈ partnerMap items →
      v.amount = floatSum ((items.filter (fun item => partnerKey item == k)).map parseAmount) ∧
      v.transactions = (items.filter (fun item => partnerKey item == k)).length ∧
      ∃ item ∈ items, partnerKey item = k ∧ partnerOf item = (v.id, v.name) := by
  obtain ⟨h1, h2, h3, h4, h5⟩ := partnerMap_fold items [] (by simp)
  refine ⟨h1, ?_, ?_⟩
  · intro q
    have := h2 q
    simpa using this
  · intro k v hkv
    have hget : partnerMapGet (partnerMap items) k = some v :=
      partnerMapGet_of_mem _ h1 k v hkv
    have h3k := h3 k
    have h4k := h4 k
    unfold partnerMap at hget
    rw [hget] at h3k h4k
    refine ⟨by simpa [partnerMapGet, floatSum] using h3k, by simpa [partnerMapGet] using h4k,
      ?_⟩
    rcases h5 k v hkv with ⟨w, hw, -, -⟩ | h
    · cases hw
    · exact h

/-- The value a decimal digit stands for. -/
theorem digitChar_value (k : Nat) (hk : k < 10) :
    (Nat.digitChar k).toNat - 48 = k ∧ (Nat.digitChar k).isDigit = true := by
  interval_cases k <;> decide

/-- The digits `Nat.toDigitsCore` puts before `ds` are decimal digits that
spell `n`. -/
theorem toDigitsCore_spells (fuel n : Nat) (ds : List Char) (h : n < fuel) :
    ∃ pre, Nat.toDigitsCore 10 fuel n ds = pre ++ ds ∧
      (∀ c ∈ pre, c.isDigit = true) ∧
      pre.foldl (fun a c => 10 * a + (c.toNat - 48)) 0 = n := by
  induction fuel generalizing n ds with
  | zero => omega
  | succ fuel ih =>
    unfold Nat.toDigitsCore
    simp only
    have hd := digitChar_value (n % 10) (Nat.mod_lt _ (by decide))
    by_cases h0 : n / 10 = 0
    · rw [if_pos h0]
      refine ⟨[Nat.digitChar (n % 10)], rfl, ?_, ?_⟩
      · intro c hc
        rw [List.mem_singleton] at hc
        rw [hc]
        exact hd.2
      · simp only [List.foldl_cons, List.foldl_nil, hd.1]
        omega
    · rw [if_neg h0]
      obtain ⟨pre, hpre, hdig, hval⟩ := ih (n / 10) (Nat.digitChar (n % 10) :: ds) (by omega)
      refine ⟨pre ++ [Nat.digitChar (n % 10)], ?_, ?_, ?_⟩
      · rw [hpre]
        simp
      · intro c hc
        rcases List.mem_append.1 hc with hc | hc
        · exact hdig c hc
        · rw [List.mem_singleton] at hc
          rw [hc]
          exact hd.2
      · rw [List.foldl_append, hval]
        simp only [List.foldl_cons, List.foldl_nil, hd.1]
        omega

/-- The text of a natural number consists of decimal digits that spell it. -/
theorem natText_spells (n : Nat) :
    (∀ c ∈ (toString n).toList, c.isDigit = true) ∧
      (toString n).toList.foldl (fun a c => 10 * a + (c.toNat - 48)) 0 = n := by
  obtain ⟨pre, hpre, hdig, hval⟩ := toDigitsCore_spells (n + 1) n [] (by omega)
  have htext : (toString n).toList = pre := by
    show (Nat.repr n).toList = pre
    unfold Nat.repr Nat.toDigits
    rw [hpre, List.append_nil]
    rfl
  rw [htext]
  exact ⟨hdig, hval⟩

/-- The text of a `partnerId` holds no hyphen, and different values print
different texts. -/
theorem partnerId_text (a : PartnerId) :
    '-' ∉ a.text.toList ∧ ∀ b : PartnerId, a.text = b.text → a = b := by
  have hnull : ¬ ∀ c ∈ "null".toList, c.isDigit = true := by decide
  have hundef : ¬ ∀ c ∈ "undefined".toList, c.isDigit = true := by decide
  have hnum : ∀ n : Nat, '-' ∉ (toString n).toList := by
    intro n hmem
    have := (natText_spells n).1 _ hmem
    revert this
    decide
  constructor
  · cases a with
    | null => decide
    | undefined => decide
    | number n => exact hnum n
  · intro b hab
    cases a with
    | null =>
      cases b with
      | null => rfl
      | undefined => exact absurd hab (by decide)
      | number m =>
        exfalso
        apply hnull
        have hm := (natText_spells m).1
        simp only [PartnerId.text] at hab
        rw [← hab] at hm
        exact hm
    | undefined =>
      cases b with
      | null => exact absurd hab (by decide)
      | undefined => rfl
      | number m =>
        exfalso
        apply hundef
        have hm := (natText_spells m).1
        simp only [PartnerId.text] at hab
        rw [← hab] at hm
        exact hm
    | number n =>
      cases b with
      | null =>
        exfalso
        apply hnull
        have hn := (natText_spells n).1
        simp only [PartnerId.text] at hab
        rw [hab] at hn
        exact hn
      | undefined =>
        exfalso
        apply hundef
        have hn := (natText_spells n).1
        simp only [PartnerId.text] at hab
        rw [hab] at hn
        exact hn
      | number m =>
        simp only [PartnerId.text] at hab
        have hn := (natText_spells n).2
        have hm := (natText_spells m).2
        rw [hab, hm] at hn
        rw [hn]

/-- Two lists that agree after a first occurrence of `x` agree before and after it. -/
theorem split_at_first {α : Type} (x : α) (l1 l2 r1 r2 : List α) (h1 : x ∉ l1) (h2 : x ∉ l2)
    (h : l1 ++ x :: r1 = l2 ++ x :: r2) : l1 = l2 ∧ r1 = r2 := by
  induction l1 generalizing l2 with
  | nil =>
    cases l2 with
    | nil =>
      simp only [List.nil_append, List.cons.injEq, true_and] at h
      exact ⟨rfl, h⟩
    | cons b l2 =>
      simp only [List.nil_append, List.cons_append, List.cons.injEq] at h
      exact absurd (List.mem_cons_self _ _) (h.1 ▸ h2)
  | cons a l1 ih =>
    cases l2 with
    | nil =>
      simp only [List.nil_append, List.cons_append, List.cons.injEq] at h
      exact absurd (List.mem_cons_self _ _) (h.1 ▸ h1)
    | cons b l2 =>
      simp only [List.cons_append, List.cons.injEq] at h
      obtain ⟨hl, hr⟩ := ih l2 (fun hx => h1 (List.mem_cons_of_mem _ hx))
        (fun hx => h2 (List.mem_cons_of_mem _ hx)) h.2
      exact ⟨by rw [h.1, hl], hr⟩

/-- Two items have the same map key exactly when `partnerId` and `partnerName`
of the one are those of the other. -/
theorem partnerKey_eq_iff (a b : Item) :
    partnerKey a = partnerKey b ↔ partnerOf a = partnerOf b := by
  constructor
  · intro h
    unfold partnerKey at h
    have hl : ((partnerOf a).1.text ++ "-" ++ (partnerOf a).2).toList =
        ((partnerOf b).1.text ++ "-" ++ (partnerOf b).2).toList := by rw [h]
    simp only [String.toList, String.data_append, List.append_assoc] at hl
    have hsplit := split_at_first '-' _ _ _ _ (partnerId_text (partnerOf a).1).1
      (partnerId_text (partnerOf b).1).1 hl
    have hid : (partnerOf a).1 = (partnerOf b).1 :=
      (partnerId_text (partnerOf a).1).2 _ (String.ext hsplit.1)
    have hname : (partnerOf a).2 = (partnerOf b).2 := String.ext hsplit.2
    exact Prod.ext hid hname
  · intro h
    unfold partnerKey
    rw [h]

/-- The value `toFixed1 x` is a multiple of `0.1` at distance at most `0.05`
from `x`. -/
theorem toFixed1_rounds (x : ℚ) :
    (∃ n : ℤ, toFixed1 x = (n : ℚ) / 10) ∧ |toFixed1 x - x| ≤ 1 / 20 := by
  unfold toFixed1
  by_cases hx : x < 0
  · rw [if_pos hx]
    refine ⟨⟨-⌊-x * 10 + 1 / 2⌋, by push_cast; ring⟩, ?_⟩
    have h1 := Int.floor_le (-x * 10 + 1 / 2)
    have h2 := Int.lt_floor_add_one (-x * 10 + 1 / 2)
    rw [abs_le]
    constructor <;> linarith
  · rw [if_neg hx]
    refine ⟨⟨⌊x * 10 + 1 / 2⌋, rfl⟩, ?_⟩
    have h1 := Int.floor_le (x * 10 + 1 / 2)
    have h2 := Int.lt_floor_add_one (x * 10 + 1 / 2)
    rw [abs_le]
    constructor <;> linarith

/-- The getter `totalRevenue` is the sum of the amounts as the runtime adds them. -/
theorem totalRevenue_eq_floatSum (state : ClientState) :
    totalRevenue state = floatSum (state.revenueData.map parseAmount) := by
  unfold totalRevenue floatSum
  rw [List.foldl_map]

/-- Whole amounts whose absolute values total less than `2 ^ 53` are added
without rounding. -/
theorem foldl_whole (ks : List Int) (a : Int)
    (h : (a.natAbs + (ks.map Int.natAbs).sum : Nat) < 2 ^ 53) :
    (ks.map fun k => toDouble ((((100 * k : Int)) : ℚ) / 100)).foldl
      (fun sum x => toDouble (sum + x)) (a : ℚ) = ((a + ks.sum : Int) : ℚ) := by
  induction ks generalizing a with
  | nil => simp
  | cons k rest ih =>
    simp only [List.map_cons, List.sum_cons, List.foldl_cons] at h ⊢
    have hk : toDouble ((((100 * k : Int)) : ℚ) / 100) = (k : ℚ) := by
      have h1 : (((100 * k : Int)) : ℚ) / 100 = (k : ℚ) := by
        push_cast
        ring
      rw [h1]
      exact toDouble_intCast k (by
        have : |k| = (k.natAbs : Int) := Int.abs_eq_natAbs k
        rw [this]
        have h2 : (k.natAbs : Int) < 2 ^ 53 := by
          have : k.natAbs < 2 ^ 53 := by omega
          exact_mod_cast this
        exact h2)
    have hsum : toDouble ((a : ℚ) + (k : ℚ)) = ((a + k : Int) : ℚ) := by
      have h1 : (a : ℚ) + (k : ℚ) = ((a + k : Int) : ℚ) := by push_cast; ring
      rw [h1]
      exact toDouble_intCast (a + k) (by
        have hle : (a + k).natAbs ≤ a.natAbs + k.natAbs := Int.natAbs_add_le a k
        have : |a + k| = ((a + k).natAbs : Int) := Int.abs_eq_natAbs _
        rw [this]
        have h2 : (a + k).natAbs < 2 ^ 53 := by omega
        exact_mod_cast h2)
    rw [hk, hsum, ih (a + k) (by
      have hle : (a + k).natAbs ≤ a.natAbs + k.natAbs := Int.natAbs_add_le a k
      omega)]
    congr 1
    ring

/-- The sum of whole amounts whose absolute values total less than `2 ^ 53` is
exact. -/
theorem floatSum_whole (ks : List Int) (h : (ks.map Int.natAbs).sum < 2 ^ 53) :
    floatSum (ks.map fun k => toDouble ((((100 * k : Int)) : ℚ) / 100)) = (ks.sum : ℚ) := by
  have := foldl_whole ks 0 (by simpa using h)
  simpa [floatSum] using this

/-- The entries of `topPartners` before the cut to ten: a rearrangement, in
non-increasing order of amount, of the entries of `partnerMap` with their
percentage. -/
theorem topPartners_eq (state : ClientState) :
    ∃ all : List TopPartner,
      topPartners state = (if state.revenueData.length == 0 then [] else all.take 10) ∧
      all.Pairwise (fun a b => b.amount ≤ a.amount) ∧
      all.Perm ((partnerMap state.revenueData).map fun entry =>
        ({ id := entry.2.id, name := entry.2.name, amount := entry.2.amount
           transactions := entry.2.transactions
           percentage :=
            if totalRevenue state > 0 then
              .fixed (toFixed1
                (toDouble (toDouble (entry.2.amount / totalRevenue state) * 100)))
            else .zero } : TopPartner)) := by
  haveI : IsTotal TopPartner (fun a b => b.amount ≤ a.amount) :=
    ⟨fun a b => le_total b.amount a.amount⟩
  haveI : IsTrans TopPartner (fun a b => b.amount ≤ a.amount) :=
    ⟨fun a b c h1 h2 => le_trans h2 h1⟩
  exact ⟨_, rfl, List.sorted_insertionSort _ _, List.perm_insertionSort _ _⟩

/-- C21, amended. The getter `topPartners` returns at most 10 entries in
non-increasing order of amount, no two for the same `partnerId` and
`partnerName`; each entry stands for a partner of the working copy and carries
the number of the working-copy items of that partner and the sum of their
amounts as the runtime adds them: one by one in the order of the working copy,
each amount read as the binary64 number nearest to it (a missing amount as 0)
and each addition returning the binary64 number nearest to the exact sum. The
total is the sum of all amounts computed alike. When the total is positive the
percentage is the text of `toFixed(1)` of the number that binary64 arithmetic
gives for `(amount / total) * 100`, the multiple of 0.1 nearest to that number;
otherwise it is the text `0`. A binary64 operation errs by at most `2 ^ (-53)`
of its exact result, and sums of whole amounts whose absolute values total
less than `2 ^ 53` are exact. An empty working copy gives the empty list. -/
theorem topPartners_spec (state : ClientState) :
    (topPartners state).length ≤ 10 ∧
    (topPartners state).Pairwise (fun a b => b.amount ≤ a.amount) ∧
    ((topPartners state).map fun t => (t.id, t.name)).Nodup ∧
    (∀ t ∈ topPartners state,
      (∃ item ∈ state.revenueData, partnerOf item = (t.id, t.name)) ∧
      t.amount = floatSum ((state.revenueData.filter
        (fun item => decide (partnerOf item = (t.id, t.name)))).map parseAmount) ∧
      t.transactions = (state.revenueData.filter
        (fun item => decide (partnerOf item = (t.id, t.name)))).length ∧
      (0 < totalRevenue state →
        t.percentage =
          .fixed (toFixed1 (toDouble (toDouble (t.amount / totalRevenue state) * 100)))) ∧
      (totalRevenue state ≤ 0 → t.percentage = .zero)) ∧
    totalRevenue state = floatSum (state.revenueData.map parseAmount) ∧
    (∀ x : ℚ, (∃ n : ℤ, toFixed1 x = (n : ℚ) / 10) ∧ |toFixed1 x - x| ≤ 1 / 20) ∧
    (∀ x : ℚ, (2 : ℚ) ^ (-1022 : ℤ) ≤ |x| → |toDouble x - x| ≤ |x| * (2 : ℚ) ^ (-53 : ℤ)) ∧
    (∀ ks : List Int, (ks.map Int.natAbs).sum < 2 ^ 53 →
      floatSum (ks.map fun k => toDouble ((((100 * k : Int)) : ℚ) / 100)) = (ks.sum : ℚ)) ∧
    (state.revenueData = [] → topPartners state = []) := by
  obtain ⟨all, hall, hsorted, hperm⟩ := topPartners_eq state
  obtain ⟨hnd, hkeys, hval⟩ := partnerMap_spec state.revenueData
  have hsub : ∀ t ∈ topPartners state, t ∈ all := by
    intro t ht
    rw [hall] at ht
    split at ht
    · cases ht
    · exact List.mem_of_mem_take ht
  have hsublist : (topPartners state).Sublist all := by
    rw [hall]
    split
    · exact List.nil_sublist _
    · exact List.take_sublist _ _
  have hentry : ∀ t ∈ all, ∃ k v, (k, v) ∈ partnerMap state.revenueData ∧
      t.id = v.id ∧ t.name = v.name ∧ t.amount = v.amount ∧
      t.transactions = v.transactions ∧
      t.percentage =
        if totalRevenue state > 0 then
          .fixed (toFixed1 (toDouble (toDouble (v.amount / totalRevenue state) * 100)))
        else .zero := by
    intro t ht
    obtain ⟨⟨k, v⟩, hkv, hteq⟩ := List.mem_map.1 (hperm.mem_iff.1 ht)
    exact ⟨k, v, hkv, by rw [← hteq], by rw [← hteq], by rw [← hteq], by rw [← hteq],
      by rw [← hteq]⟩
  have hpairs : (all.map fun t => (t.id, t.name)).Nodup := by
    have h1 : (all.map fun t => (t.id, t.name)).Perm
        ((partnerMap state.revenueData).map fun entry => (entry.2.id, entry.2.name)) := by
      have := hperm.map (fun t : TopPartner => (t.id, t.name))
      rw [List.map_map] at this
      exact this
    rw [h1.nodup_iff]
    have h2 : (partnerMap state.revenueData).map Prod.fst =
        ((partnerMap state.revenueData).map fun entry => (entry.2.id, entry.2.name)).map
          fun p => p.1.text ++ "-" ++ p.2 := by
      rw [List.map_map]
      apply List.map_congr_left
      rintro ⟨k, v⟩ hkv
      obtain ⟨-, -, item, -, hk, hp⟩ := hval k v hkv
      simp only [Function.comp]
      rw [← hk]
      unfold partnerKey
      rw [hp]
    rw [h2] at hnd
    exact List.Nodup.of_map _ hnd
  refine ⟨?_, hsorted.sublist hsublist, hpairs.sublist (hsublist.map _), ?_,
    totalRevenue_eq_floatSum state, toFixed1_rounds, toDouble_error, floatSum_whole, ?_⟩
  · rw [hall]
    split
    · simp
    · exact List.length_take_le _ _
  · intro t ht
    obtain ⟨k, v, hkv, hid, hname, hamount, htrans, hperc⟩ := hentry t (hsub t ht)
    obtain ⟨hsum, hcount, item, hitem, hk, hp⟩ := hval k v hkv
    have hfilter : state.revenueData.filter (fun x => partnerKey x == k) =
        state.revenueData.filter (fun x => decide (partnerOf x = (t.id, t.name))) := by
      apply List.filter_congr
      intro x _
      rw [hid, hname, ← hp, ← hk]
      by_cases hx : partnerKey x = partnerKey item
      · simp [hx, (partnerKey_eq_iff x item).1 hx]
      · have hx2 : ¬ partnerOf x = partnerOf item := fun h =>
          hx ((partnerKey_eq_iff x item).2 h)
        simp [hx, hx2]
    refine ⟨⟨item, hitem, by rw [hp, hid, hname]⟩, ?_, ?_, ?_, ?_⟩
    · rw [hamount, hsum, hfilter]
    · rw [htrans, hcount, hfilter]
    · intro hpos
      rw [hperc, if_pos hpos, hamount]
    · intro hle
      rw [hperc, if_neg (not_lt.2 hle)]
  · intro hnil
    rw [hall, hnil]
    rfl

theorem toDouble_57 : toDouble (57 : ℚ) = 57 := by
  have := toDouble_intCast 57 (by norm_num)
  norm_num at this ⊢
  exact this

theorem toDouble_23 : toDouble (23 : ℚ) = 23 := by
  have := toDouble_intCast 23 (by norm_num)
  norm_num at this ⊢
  exact this

theorem toDouble_80 : toDouble (80 : ℚ) = 80 := by
  have := toDouble_intCast 80 (by norm_num)
  norm_num at this ⊢
  exact this

theorem toDouble_57_80 : toDouble (57 / 80) = 6417629469002957 / 2 ^ 53 := by
  have h := toDouble_eq (57 / 80) (-1) 6417629469002957
    (by rw [abs_of_pos (by norm_num), zpow_neg]; norm_num)
    (by rw [abs_of_pos (by norm_num)]; norm_num)
    (by norm_num)
    (by
      rw [show (-1 : ℤ) - 52 = -53 by norm_num, zpow_neg, abs_lt]
      constructor <;> norm_num)
  rw [h, show (-1 : ℤ) - 52 = -53 by norm_num, zpow_neg]
  norm_num

theorem toDouble_57_80_times_100 :
    toDouble (6417629469002957 / 2 ^ 53 * 100) = 285 / 4 := by
  have h := toDouble_eq (6417629469002957 / 2 ^ 53 * 100) 6 5013773022658560
    (by rw [abs_of_pos (by norm_num)]; norm_num)
    (by rw [abs_of_pos (by norm_num)]; norm_num)
    (by norm_num)
    (by
      rw [show (6 : ℤ) - 52 = -46 by norm_num, zpow_neg, abs_lt]
      constructor <;> norm_num)
  rw [h, show (6 : ℤ) - 52 = -46 by norm_num, zpow_neg]
  norm_num

theorem toDouble_23_80 : toDouble (23 / 80) = 2589569785738035 / 2 ^ 53 := by
  have h := toDouble_eq (23 / 80) (-2) 5179139571476070
    (by rw [abs_of_pos (by norm_num), zpow_neg]; norm_num)
    (by rw [abs_of_pos (by norm_num)]; norm_num [zpow_neg])
    (by norm_num)
    (by
      rw [show (-2 : ℤ) - 52 = -54 by norm_num, zpow_neg, abs_lt]
      constructor <;> norm_num)
  rw [h, show (-2 : ℤ) - 52 = -54 by norm_num, zpow_neg]
  norm_num

theorem toDouble_23_80_times_100 :
    toDouble (2589569785738035 / 2 ^ 53 * 100) = 8092405580431359 / 2 ^ 48 := by
  have h := toDouble_eq (2589569785738035 / 2 ^ 53 * 100) 4 8092405580431359
    (by rw [abs_of_pos (by norm_num)]; norm_num)
    (by rw [abs_of_pos (by norm_num)]; norm_num)
    (by norm_num)
    (by
      rw [show (4 : ℤ) - 52 = -48 by norm_num, zpow_neg, abs_lt]
      constructor <;> norm_num)
  rw [h, show (4 : ℤ) - 52 = -48 by norm_num, zpow_neg]
  norm_num

theorem toFixed1_of_71 : toFixed1 (285 / 4) = 713 / 10 := by
  unfold toFixed1
  rw [if_neg (by norm_num)]
  have h : ⌊(285 : ℚ) / 4 * 10 + 1 / 2⌋ = 713 := by
    rw [Int.floor_eq_iff]
    constructor <;> norm_num
  rw [h]
  norm_num

theorem toFixed1_of_28 : toFixed1 (8092405580431359 / 2 ^ 48) = 287 / 10 := by
  unfold toFixed1
  rw [if_neg (by norm_num)]
  have h : ⌊(8092405580431359 : ℚ) / 2 ^ 48 * 10 + 1 / 2⌋ = 287 := by
    rw [Int.floor_eq_iff]
    constructor <;> norm_num
  rw [h]
  norm_num

theorem toFixed1_of_exact : toFixed1 ((23 : ℚ) / 80 * 100) = 288 / 10 := by
  unfold toFixed1
  rw [if_neg (by norm_num)]
  have h : ⌊(23 : ℚ) / 80 * 100 * 10 + 1 / 2⌋ = 288 := by
    rw [Int.floor_eq_iff]
    constructor <;> norm_num
  rw [h]
  norm_num

/-- The entries of `topPartners` for the working copy `tieItems`. -/
theorem topPartners_tieItems :
    topPartners tieItems =
      [⟨.null, "Unknown Partner", 57, 1, .fixed (713 / 10)⟩,
        ⟨.number 1, "Angkasa", 23, 1, .fixed (287 / 10)⟩] := by
  have hk1 : partnerKey { sampleItem 1 "parking" 5700 with
      partner := .missing, partner_id := none } = "null-Unknown Partner" := by decide
  have hk2 : partnerKey (sampleItem 2 "landing_fee" 2300) = "1-Angkasa" := by decide
  have hp1 : parseAmount { sampleItem 1 "parking" 5700 with
      partner := .missing, partner_id := none } = 57 := by
    simp only [parseAmount, itemAmount, sampleItem, Option.getD_some]
    rw [show (((5700 : Int)) : ℚ) / 100 = 57 by norm_num, toDouble_57]
  have hp2 : parseAmount (sampleItem 2 "landing_fee" 2300) = 23 := by
    simp only [parseAmount, itemAmount, sampleItem, Option.getD_some]
    rw [show (((2300 : Int)) : ℚ) / 100 = 23 by norm_num, toDouble_23]
  have hmap : partnerMap tieItems.revenueData =
      [("null-Unknown Partner", ⟨.null, "Unknown Partner", 57, 1⟩),
        ("1-Angkasa", ⟨.number 1, "Angkasa", 23, 1⟩)] := by
    simp only [partnerMap, tieItems, emptyClient, List.foldl_cons, List.foldl_nil, partnerStep,
      hk1, hk2, hp1, hp2, partnerMapGet, List.lookup, partnerMapSet, Option.getD_none,
      zero_add, toDouble_57]
    have hne : ("1-Angkasa" == "null-Unknown Partner") = false := by decide
    have hne2 : ("null-Unknown Partner" == "1-Angkasa") = false := by decide
    simp only [hne, hne2, Option.getD_none, zero_add, toDouble_23, Bool.false_eq_true,
      if_false]
    rfl
  have htotal : List.foldl (fun sum item => toDouble (sum + parseAmount item)) 0
      tieItems.revenueData = 80 := by
    simp only [tieItems, emptyClient, List.foldl_cons, List.foldl_nil, hp1, hp2, zero_add,
      toDouble_57]
    rw [show (57 : ℚ) + 23 = 80 by norm_num, toDouble_80]
  have hlen : (tieItems.revenueData.length == 0) = false := by decide
  unfold topPartners
  simp only [hlen, Bool.false_eq_true, if_false, htotal, hmap, List.map_cons, List.map_nil,
    toDouble_57_80, toDouble_57_80_times_100, toDouble_23_80, toDouble_23_80_times_100,
    toFixed1_of_71, toFixed1_of_28]
  norm_num [List.insertionSort, List.orderedInsert]

theorem totalRevenue_tieItems : totalRevenue tieItems = 80 := by
  have hp1 : parseAmount { sampleItem 1 "parking" 5700 with
      partner := .missing, partner_id := none } = 57 := by
    simp only [parseAmount, itemAmount, sampleItem, Option.getD_some]
    rw [show (((5700 : Int)) : ℚ) / 100 = 57 by norm_num, toDouble_57]
  have hp2 : parseAmount (sampleItem 2 "landing_fee" 2300) = 23 := by
    simp only [parseAmount, itemAmount, sampleItem, Option.getD_some]
    rw [show (((2300 : Int)) : ℚ) / 100 = 23 by norm_num, toDouble_23]
  simp only [totalRevenue, tieItems, emptyClient, List.foldl_cons, List.foldl_nil, hp1, hp2,
    zero_add, toDouble_57]
  rw [show (57 : ℚ) + 23 = 80 by norm_num, toDouble_80]

/-- C21 as stated fails at a tie of the exact figure: with amounts 57.00 and
23.00 the total is 80 and the exact percentage of the second partner is 28.75,
which rounds to 28.8; the getter shows 28.7, because binary64 arithmetic gives
a number slightly below 28.75 for `(23 / 80) * 100`. -/
theorem topPartners_percentage_tie :
    topPartners tieItems =
      [⟨.null, "Unknown Partner", 57, 1, .fixed (713 / 10)⟩,
        ⟨.number 1, "Angkasa", 23, 1, .fixed (287 / 10)⟩] ∧
    totalRevenue tieItems = 80 ∧
    toFixed1 ((23 : ℚ) / 80 * 100) = 288 / 10 :=
  ⟨topPartners_tieItems, totalRevenue_tieItems, toFixed1_of_exact⟩

theorem topPartners_spec_witness :
    (⟨.number 1, "Angkasa", 23, 1, .fixed (287 / 10)⟩ : TopPartner) ∈ topPartners tieItems ∧
    0 < totalRevenue tieItems ∧
    (⟨.number 1, "Angkasa", 23, 1, .fixed (287 / 10)⟩ : TopPartner).percentage =
      .fixed (toFixed1 (toDouble (toDouble
        ((⟨.number 1, "Angkasa", 23, 1, .fixed (287 / 10)⟩ : TopPartner).amount /
          totalRevenue tieItems) * 100))) := by
  have hmem : (⟨.number 1, "Angkasa", 23, 1, .fixed (287 / 10)⟩ : TopPartner) ∈
      topPartners tieItems := by
    rw [topPartners_tieItems]
    simp
  have hpos : 0 < totalRevenue tieItems := by
    rw [totalRevenue_tieItems]
    norm_num
  exact ⟨hmem, hpos, ((topPartners_spec tieItems).2.2.2.1 _ hmem).2.2.2.1 hpos⟩

end RevenueApi
